import Mathlib

/-!
Aegis-Link: rule-based health assessment engine.

A shallow embedding of the assessment functions of `src/App.tsx`
(`getAIRecommendation`, `getAIHealthInsight`), of its chart components
(`LineChart`, `DonutChart`, `BarChart`), of the symptom-history update and of
`redeemCoupon`, together with the JavaScript
primitives they call (`String.prototype.includes`, string comparison,
`Date.prototype.toISOString`, `parseInt`, `String.prototype.split`, the
arithmetic of numbers, `Math.max`, `Math.min`, `Math.ceil`, `Math.round`).

Conventions.
* JavaScript strings are Lean strings (sequences of Unicode scalar values).
  All strings the code searches for or compares against are ASCII, for which
  code-unit and code-point semantics coincide.
* JavaScript numbers that hold integers are `Int`; the literal confidences
  `0.92`, `0.78`, `0.65`, `0.87` are rationals.
* The numbers of the charts are `JsNum`: exact rationals extended with
  `Infinity`, `-Infinity` and `NaN`, so that a division by zero has its
  JavaScript result. The coordinates are computed without rounding; in the
  legend percentage, where `Math.round` turns the last bit of the product into
  a different integer, the quotient and the product are rounded to doubles
  (`JsNum.toDouble`).
* `Date.now()` is an explicit argument `now` (milliseconds since the epoch);
  the readings taken during one call are taken to be equal.
* A JavaScript exception is `none`.
-/

namespace AegisLink

/-! ## JavaScript string primitives -/

/-- Substring search on character lists: does `t` occur in `s` at some offset. -/
def includesChars : List Char → List Char → Bool
  | [], t => t.isPrefixOf []
  | c :: s, t => t.isPrefixOf (c :: s) || includesChars s t

/-- The method `s.includes(t)` of JavaScript strings. -/
def jsIncludes (s t : String) : Bool :=
  includesChars s.data t.data

/-- Lexicographic "less than" on character lists. -/
def ltChars : List Char → List Char → Bool
  | _, [] => false
  | [], _ :: _ => true
  | a :: as, b :: bs =>
    decide (a.toNat < b.toNat) || (decide (a.toNat = b.toNat) && ltChars as bs)

/-- The comparison `a > b` of two JavaScript strings. -/
def jsStrGt (a b : String) : Bool :=
  ltChars b.data a.data

/-! ## `Date.prototype.toISOString` (ECMAScript time arithmetic) -/

/-- ECMAScript `DayFromYear(y)`: the day number of 1 January of year `y`. -/
def daysFromYear (y : Int) : Int :=
  365 * (y - 1970) + (y - 1969) / 4 - (y - 1901) / 100 + (y - 1601) / 400

/-- ECMAScript `DaysInYear(y)`. -/
def daysInYear (y : Int) : Int :=
  if y % 4 ≠ 0 then 365
  else if y % 100 ≠ 0 then 366
  else if y % 400 ≠ 0 then 365
  else 366

/-- ECMAScript `YearFromTime`, on day numbers: the largest `y` with
`DayFromYear(y) ≤ day`, found from an estimate that is off by at most one. -/
def yearFromDay (day : Int) : Int :=
  let y0 := 1970 + day * 400 / 146097
  if day < daysFromYear y0 then y0 - 1
  else if daysFromYear (y0 + 1) ≤ day then y0 + 1
  else y0

/-- ECMAScript `MonthFromTime` (0 = January), from the day within the year `d`
and the leap-year indicator `l` (0 or 1). -/
def monthFromDayInYear (d l : Int) : Int :=
  if d < 31 then 0
  else if d < 59 + l then 1
  else if d < 90 + l then 2
  else if d < 120 + l then 3
  else if d < 151 + l then 4
  else if d < 181 + l then 5
  else if d < 212 + l then 6
  else if d < 243 + l then 7
  else if d < 273 + l then 8
  else if d < 304 + l then 9
  else if d < 334 + l then 10
  else 11

/-- ECMAScript `DateFromTime` (1-based day of the month). -/
def dateFromDayInYear (d l : Int) : Int :=
  if d < 31 then d + 1
  else if d < 59 + l then d - 30
  else if d < 90 + l then d - 58 - l
  else if d < 120 + l then d - 89 - l
  else if d < 151 + l then d - 119 - l
  else if d < 181 + l then d - 150 - l
  else if d < 212 + l then d - 180 - l
  else if d < 243 + l then d - 211 - l
  else if d < 273 + l then d - 242 - l
  else if d < 304 + l then d - 272 - l
  else if d < 334 + l then d - 303 - l
  else d - 333 - l

/-- The decimal digit character of `n % 10`. -/
def digitChar (n : Nat) : Char :=
  Char.ofNat (48 + n % 10)

/-- The last `w` decimal digits of `n`, most significant first (zero padded). -/
def padDigits : Nat → Nat → List Char
  | 0, _ => []
  | w + 1, n => digitChar (n / 10 ^ w) :: padDigits w n

/-- The year part of an ISO date: four digits for years 0 to 9999, otherwise a
sign and six digits. -/
def isoYearChars (y : Int) : List Char :=
  if 0 ≤ y ∧ y ≤ 9999 then padDigits 4 y.toNat
  else (if y < 0 then '-' else '+') :: padDigits 6 y.natAbs

/-- The characters of `YYYY-MM-DDTHH:mm:ss.sssZ` for the time value `t`. -/
def isoChars (t : Int) : List Char :=
  let day := t / 86400000
  let y := yearFromDay day
  let d := day - daysFromYear y
  let l : Int := if daysInYear y = 366 then 1 else 0
  isoYearChars y ++ '-' :: padDigits 2 (monthFromDayInYear d l + 1).toNat
    ++ '-' :: padDigits 2 (dateFromDayInYear d l).toNat
    ++ 'T' :: padDigits 2 (t / 3600000 % 24).toNat
    ++ ':' :: padDigits 2 (t / 60000 % 60).toNat
    ++ ':' :: padDigits 2 (t / 1000 % 60).toNat
    ++ '.' :: padDigits 3 (t % 1000).toNat ++ ['Z']

/-- The expression `new Date(t).toISOString()`: a `RangeError` (`none`) when `t`
is not a valid time value, i.e. lies outside ±8.64e15 ms. -/
def toISOString (t : Int) : Option String :=
  if t < -8640000000000000 ∨ 8640000000000000 < t then none
  else some (String.mk (isoChars t))

/-! ## The symptom classifier (`App.tsx`, `AISymptomChecker`) -/

/-- The object returned by `getAIRecommendation`. -/
structure Assessment where
  severity : String
  recommendation : String
  actions : List String
  color : String
  bgColor : String
  confidence : ℚ
  patterns : Option String
  deriving DecidableEq, Repr

/-- An element of the `symptomHistory` state. -/
structure HistoryEntry where
  symptoms : List String
  severity : Int
  date : String
  assessment : Option Assessment
  deriving DecidableEq, Repr

/-- The method `Array.prototype.filter` with a callback that may throw. -/
def filterThrowing {α : Type} (p : α → Option Bool) : List α → Option (List α)
  | [] => some []
  | a :: as =>
    match p a with
    | none => none
    | some b =>
      match filterThrowing p as with
      | none => none
      | some r => some (if b then a :: r else r)

/-- The filter callback of `recentSimilar`:
`h.date > new Date(Date.now() - 7*24*60*60*1000).toISOString()
  && h.symptoms.some(s => symptoms.includes(s))`. -/
def isRecentSimilar (now : Int) (symptoms : List String) (h : HistoryEntry) : Option Bool :=
  match toISOString (now - 7 * 24 * 60 * 60 * 1000) with
  | none => none
  | some cutoff => some (jsStrGt h.date cutoff && h.symptoms.any (fun s => symptoms.contains s))

/-- The function `getAIRecommendation` of `AISymptomChecker`; `symptomHistory`
is the component state it closes over and `now` the reading of `Date.now()`. -/
def getAIRecommendation (symptomHistory : List HistoryEntry) (now : Int)
    (symptoms : List String) (severity : Int) (duration : String) : Option Assessment :=
  let hasChestPain := symptoms.any (fun s => jsIncludes s "chest pain" || jsIncludes s "heart")
  let hasHeadache := symptoms.any (fun s => jsIncludes s "headache" || jsIncludes s "dizziness")
  let isHighSeverity := decide (severity ≥ 8)
  let isLongDuration := jsIncludes duration "days" || jsIncludes duration "week"
  match filterThrowing (isRecentSimilar now symptoms) symptomHistory with
  | none => none
  | some recentSimilar =>
    if hasChestPain || (isHighSeverity && isLongDuration) then
      some {
        severity := "High"
        recommendation := "Seek immediate medical attention. Your symptoms may indicate a serious condition."
        actions := ["Call emergency services", "Contact your cardiologist", "Monitor vital signs"]
        color := "text-red-600"
        bgColor := "bg-red-50"
        confidence := 0.92
        patterns := if recentSimilar.length > 0 then
            some ("Similar symptoms reported " ++ toString recentSimilar.length ++ " times recently")
          else none }
    else if hasHeadache || (decide (severity ≥ 6) && isLongDuration) then
      some {
        severity := "Medium"
        recommendation := "Monitor symptoms closely and consider contacting your healthcare provider."
        actions := ["Rest in a quiet, dark room", "Stay hydrated", "Track symptom patterns", "Consider OTC pain relief"]
        color := "text-yellow-600"
        bgColor := "bg-yellow-50"
        confidence := 0.78
        patterns := if recentSimilar.length > 0 then some "Recurring pattern detected" else none }
    else
      some {
        severity := "Low"
        recommendation := "Continue monitoring. Consider home care remedies and lifestyle adjustments."
        actions := ["Rest and hydration", "Over-the-counter relief if needed", "Monitor for changes", "Maintain regular sleep schedule"]
        color := "text-green-600"
        bgColor := "bg-green-50"
        confidence := 0.65
        patterns := if recentSimilar.length > 0 then some "Mild recurring symptoms" else none }

/-- The duration choices offered by step 3 of the symptom checker. -/
def durationBuckets : List String :=
  ["Less than 1 hour", "1-6 hours", "6-24 hours", "1-3 days", "3-7 days", "1-2 weeks", "2+ weeks"]

/-! ## Specification vocabulary -/

/-- The string `t` occurs in `s` as a contiguous substring: `s = a ++ t ++ b`
for some `a` and `b`. -/
def IsSubstring (t s : String) : Prop :=
  t.data <:+: s.data

instance (t s : String) : Decidable (IsSubstring t s) :=
  inferInstanceAs (Decidable (t.data <:+: s.data))

/-- The cutoff `Date.now() - 7 days` is a valid time value, so that
`toISOString` does not raise a `RangeError`. -/
def CutoffValid (now : Int) : Prop :=
  -8640000000000000 ≤ now - 604800000 ∧ now - 604800000 ≤ 8640000000000000

instance (now : Int) : Decidable (CutoffValid now) :=
  inferInstanceAs
    (Decidable (-8640000000000000 ≤ now - 604800000 ∧ now - 604800000 ≤ 8640000000000000))

/-- Condition of rule 1 (High). -/
def Rule1 (tags : List String) (severity : Int) (duration : String) : Prop :=
  (∃ s ∈ tags, IsSubstring "chest pain" s ∨ IsSubstring "heart" s) ∨
    (severity ≥ 8 ∧ (IsSubstring "days" duration ∨ IsSubstring "week" duration))

instance (tags : List String) (severity : Int) (duration : String) :
    Decidable (Rule1 tags severity duration) :=
  inferInstanceAs (Decidable ((∃ s ∈ tags, IsSubstring "chest pain" s ∨ IsSubstring "heart" s) ∨
    (severity ≥ 8 ∧ (IsSubstring "days" duration ∨ IsSubstring "week" duration))))

/-- Condition of rule 2 (Medium), without the "else". -/
def Rule2 (tags : List String) (severity : Int) (duration : String) : Prop :=
  (∃ s ∈ tags, IsSubstring "headache" s ∨ IsSubstring "dizziness" s) ∨
    (severity ≥ 6 ∧ (IsSubstring "days" duration ∨ IsSubstring "week" duration))

instance (tags : List String) (severity : Int) (duration : String) :
    Decidable (Rule2 tags severity duration) :=
  inferInstanceAs (Decidable ((∃ s ∈ tags, IsSubstring "headache" s ∨ IsSubstring "dizziness" s) ∨
    (severity ≥ 6 ∧ (IsSubstring "days" duration ∨ IsSubstring "week" duration))))

/-- The ISO string of the cutoff, when it is valid. -/
def cutoffIso (now : Int) : String :=
  String.mk (isoChars (now - 604800000))

/-- The history entries kept by the `recentSimilar` filter. -/
def recentList (symptomHistory : List HistoryEntry) (now : Int) (symptoms : List String) :
    List HistoryEntry :=
  symptomHistory.filter
    (fun h => jsStrGt h.date (cutoffIso now) && h.symptoms.any (fun s => symptoms.contains s))

/-- The object returned by the first branch (High), as a function of the list
of recent similar entries. -/
def highResult (recent : List HistoryEntry) : Assessment :=
  { severity := "High"
    recommendation := "Seek immediate medical attention. Your symptoms may indicate a serious condition."
    actions := ["Call emergency services", "Contact your cardiologist", "Monitor vital signs"]
    color := "text-red-600"
    bgColor := "bg-red-50"
    confidence := 0.92
    patterns := if recent.length > 0 then
        some ("Similar symptoms reported " ++ toString recent.length ++ " times recently")
      else none }

/-- The object returned by the second branch (Medium). -/
def mediumResult (recent : List HistoryEntry) : Assessment :=
  { severity := "Medium"
    recommendation := "Monitor symptoms closely and consider contacting your healthcare provider."
    actions := ["Rest in a quiet, dark room", "Stay hydrated", "Track symptom patterns", "Consider OTC pain relief"]
    color := "text-yellow-600"
    bgColor := "bg-yellow-50"
    confidence := 0.78
    patterns := if recent.length > 0 then some "Recurring pattern detected" else none }

/-- The object returned by the last branch (Low). -/
def lowResult (recent : List HistoryEntry) : Assessment :=
  { severity := "Low"
    recommendation := "Continue monitoring. Consider home care remedies and lifestyle adjustments."
    actions := ["Rest and hydration", "Over-the-counter relief if needed", "Monitor for changes", "Maintain regular sleep schedule"]
    color := "text-green-600"
    bgColor := "bg-green-50"
    confidence := 0.65
    patterns := if recent.length > 0 then some "Mild recurring symptoms" else none }

/-- The result of the classifier as a function of the list `recentSimilar`:
the three branches of `getAIRecommendation`. -/
def classify (symptoms : List String) (severity : Int) (duration : String)
    (recent : List HistoryEntry) : Assessment :=
  if symptoms.any (fun s => jsIncludes s "chest pain" || jsIncludes s "heart") ||
      (decide (severity ≥ 8) && (jsIncludes duration "days" || jsIncludes duration "week")) then
    highResult recent
  else if symptoms.any (fun s => jsIncludes s "headache" || jsIncludes s "dizziness") ||
      (decide (severity ≥ 6) && (jsIncludes duration "days" || jsIncludes duration "week")) then
    mediumResult recent
  else lowResult recent

/-! ## The vitals insight stub (`App.tsx`, `getAIHealthInsight`) -/

/-- The interface `Vital`. -/
structure Vital where
  id : String
  type : String
  value : String
  unit : String
  recorded_at : String
  member_id : String
  deriving DecidableEq, Repr

/-- The interface `User`; optional fields are options. -/
structure User where
  user_id : String
  role : String
  name : String
  email : String
  phone : Option String
  age : Int
  gender : String
  family_id : String
  relationship : Option String
  access_token : String
  points : Option Int
  patient_id : Option String
  code : Option String
  deriving DecidableEq, Repr

/-- The object returned by `getAIHealthInsight`. -/
structure HealthInsight where
  risk_level : String
  recommendations : List String
  predicted_trends : String
  confidence : ℚ
  deriving DecidableEq, Repr

/-- The method `String.prototype.split` with a one-character separator, on
character lists. -/
def splitChars (sep : Char) : List Char → List (List Char)
  | [] => [[]]
  | c :: cs =>
    if c = sep then [] :: splitChars sep cs
    else
      match splitChars sep cs with
      | [] => [[c]]
      | p :: ps => (c :: p) :: ps

/-- The method `s.split(sep)` for a one-character separator. -/
def jsSplit (s : String) (sep : Char) : List String :=
  (splitChars sep s.data).map String.mk

/-- ECMAScript `StrWhiteSpaceChar`: white space and line terminators, which
`parseInt` skips at the start of its argument. -/
def isStrWhiteSpaceChar (c : Char) : Bool :=
  let n := c.toNat
  n = 0x9 || n = 0xA || n = 0xB || n = 0xC || n = 0xD || n = 0x20 || n = 0xA0 ||
    n = 0x1680 || (0x2000 ≤ n && n ≤ 0x200A) || n = 0x2028 || n = 0x2029 ||
    n = 0x202F || n = 0x205F || n = 0x3000 || n = 0xFEFF

/-- The value of `c` as a digit in the given radix, if it is one. -/
def digitValue (radix : Nat) (c : Char) : Option Nat :=
  let n := c.toNat
  let v : Option Nat :=
    if 48 ≤ n ∧ n ≤ 57 then some (n - 48)
    else if 97 ≤ n ∧ n ≤ 122 then some (n - 87)
    else if 65 ≤ n ∧ n ≤ 90 then some (n - 55)
    else none
  match v with
  | some d => if d < radix then some d else none
  | none => none

/-- The value of the longest prefix of `cs` made of radix digits, continuing
from `acc`; `seen` records whether a digit was read. -/
def parseDigits (radix : Nat) : List Char → Nat → Bool → Option Nat
  | [], acc, seen => if seen then some acc else none
  | c :: cs, acc, seen =>
    match digitValue radix c with
    | some d => parseDigits radix cs (acc * radix + d) true
    | none => if seen then some acc else none

/-- The function `parseInt(s)` without a radix argument; `none` is `NaN`. The
mathematical integer is returned (the rounding to a double is monotone and does
not change a comparison with 140). -/
def parseInt (s : String) : Option Int :=
  let s1 := s.data.dropWhile isStrWhiteSpaceChar
  let signed : Int × List Char :=
    match s1 with
    | '-' :: r => (-1, r)
    | '+' :: r => (1, r)
    | r => (1, r)
  let prefixed : Nat × List Char :=
    match signed.2 with
    | '0' :: 'x' :: r => (16, r)
    | '0' :: 'X' :: r => (16, r)
    | r => (10, r)
  match parseDigits prefixed.1 prefixed.2 0 false with
  | some m => some (signed.1 * m)
  | none => none

/-- The comparison `x > k` of a possibly-`NaN` number with a number. -/
def jsNumGt (x : Option Int) (k : Int) : Bool :=
  match x with
  | none => false
  | some n => decide (n > k)

/-- The expression `parseInt(v.value.split('/')[0])`. -/
def systolicOf (v : Vital) : Option Int :=
  match (jsSplit v.value '/').head? with
  | none => none
  | some s => parseInt s

/-- The object returned by the `catch` branch of `getAIHealthInsight`. -/
def fallbackInsight : HealthInsight :=
  { risk_level := "unknown"
    recommendations := ["Consult with your healthcare provider"]
    predicted_trends := "Unable to generate predictions at this time"
    confidence := 0 }

/-- The `try` block of `getAIHealthInsight`: it builds `mockInsights`. -/
def mockInsights (vitals : List Vital) : Except String HealthInsight :=
  pure
    { risk_level :=
        if vitals.any (fun v => v.type == "bp" && jsNumGt (systolicOf v) 140) then "high"
        else "low"
      recommendations :=
        ["Monitor blood pressure regularly", "Consider reducing sodium intake",
          "Increase physical activity gradually"]
      predicted_trends :=
        "Blood pressure may increase by 5% over the next month based on current patterns"
      confidence := 0.87 }

/-- The function `getAIHealthInsight` (the value its promise resolves to). -/
def getAIHealthInsight (vitals : List Vital) (_symptoms : List String) (_member : User) :
    HealthInsight :=
  match mockInsights vitals with
  | .ok r => r
  | .error _ => fallbackInsight

/-- The template `${systolic}/${diastolic}` by which the code writes a blood
pressure value (`App.tsx` lines 435 and 540). -/
def bpValue (systolic diastolic : Nat) : String :=
  toString systolic ++ "/" ++ toString diastolic

/-- A decimal digit character. -/
def IsDecDigit (c : Char) : Prop :=
  48 ≤ c.toNat ∧ c.toNat ≤ 57

instance (c : Char) : Decidable (IsDecDigit c) :=
  inferInstanceAs (Decidable (48 ≤ c.toNat ∧ c.toNat ≤ 57))

/-- The value read by `parseDigits` over a list of decimal digits. -/
def decValue (acc : Nat) (l : List Char) : Nat :=
  l.foldl (fun a c => a * 10 + (c.toNat - 48)) acc

/-- The part of `s` before its first `/` (all of `s` when it has none). -/
def beforeFirstSlash (s : String) : String :=
  String.mk (s.data.takeWhile (fun c => c != '/'))

/-- The ISO rendering of the seven date and time fields. -/
def isoRender (y mo d h mi s ms : Nat) : List Char :=
  padDigits 4 y ++ ('-' :: (padDigits 2 mo ++ ('-' :: (padDigits 2 d ++ ('T' :: (padDigits 2 h
    ++ (':' :: (padDigits 2 mi ++ (':' :: (padDigits 2 s ++ ('.' :: (padDigits 3 ms
    ++ ['Z']))))))))))))

/-- The time values whose year has four digits: from 0000-01-01T00:00:00.000Z
to 9999-12-31T23:59:59.999Z. -/
def FourDigitYear (t : Int) : Prop :=
  -62167219200000 ≤ t ∧ t < 253402300800000

instance (t : Int) : Decidable (FourDigitYear t) :=
  inferInstanceAs (Decidable (-62167219200000 ≤ t ∧ t < 253402300800000))

/-- Year of a time value. -/
def isoYear (t : Int) : Int :=
  yearFromDay (t / 86400000)

/-- Day within the year of a time value. -/
def isoDayInYear (t : Int) : Int :=
  t / 86400000 - daysFromYear (isoYear t)

/-- Leap-year indicator of a time value. -/
def isoLeap (t : Int) : Int :=
  if daysInYear (isoYear t) = 366 then 1 else 0

/-! ## JavaScript numbers (exact arithmetic with the IEEE special values) -/

/-- A JavaScript number: a finite value, `Infinity`, `-Infinity` or `NaN`.
Finite values are exact rationals (no rounding) and zero is unsigned (it
behaves as `+0`). -/
inductive JsNum where
  | fin (q : ℚ)
  | posInf
  | negInf
  | nan
  deriving DecidableEq, Repr

namespace JsNum

instance (n : Nat) : OfNat JsNum n := ⟨fin (n : ℚ)⟩

/-- The conversion of an array index or length to a number. -/
def ofNat (n : Nat) : JsNum := fin (n : ℚ)

/-- Unary minus. -/
def neg : JsNum → JsNum
  | fin q => fin (-q)
  | posInf => negInf
  | negInf => posInf
  | nan => nan

/-- The operator `+` on numbers. -/
def add : JsNum → JsNum → JsNum
  | fin a, fin b => fin (a + b)
  | fin _, posInf => posInf
  | fin _, negInf => negInf
  | posInf, fin _ => posInf
  | posInf, posInf => posInf
  | posInf, negInf => nan
  | negInf, fin _ => negInf
  | negInf, posInf => nan
  | negInf, negInf => negInf
  | nan, _ => nan
  | _, nan => nan

/-- The operator `-` on numbers. -/
def sub (a b : JsNum) : JsNum := add a (neg b)

/-- The product of an infinity of sign `s` (true = positive) with `x`. -/
def mulInf (s : Bool) : JsNum → JsNum
  | fin q => if q = 0 then nan else if decide (0 < q) = s then posInf else negInf
  | posInf => if s then posInf else negInf
  | negInf => if s then negInf else posInf
  | nan => nan

/-- The operator `*` on numbers. -/
def mul : JsNum → JsNum → JsNum
  | fin a, fin b => fin (a * b)
  | fin a, posInf => mulInf true (fin a)
  | fin a, negInf => mulInf false (fin a)
  | posInf, b => mulInf true b
  | negInf, b => mulInf false b
  | nan, _ => nan
  | fin _, nan => nan

/-- The operator `/` on numbers: a division by zero does not throw, it gives
`NaN` (for `0/0`) or an infinity. -/
def div : JsNum → JsNum → JsNum
  | fin a, fin b =>
    if b = 0 then (if a = 0 then nan else if 0 < a then posInf else negInf)
    else fin (a / b)
  | fin _, posInf => fin 0
  | fin _, negInf => fin 0
  | posInf, fin b => if b < 0 then negInf else posInf
  | negInf, fin b => if b < 0 then posInf else negInf
  | posInf, posInf => nan
  | posInf, negInf => nan
  | negInf, posInf => nan
  | negInf, negInf => nan
  | nan, _ => nan
  | _, nan => nan

instance : Add JsNum := ⟨add⟩
instance : Sub JsNum := ⟨sub⟩
instance : Mul JsNum := ⟨mul⟩
instance : Div JsNum := ⟨div⟩

/-- The integer part of a rational, rounding toward zero. -/
def truncQ (q : ℚ) : ℤ := if 0 ≤ q then ⌊q⌋ else ⌈q⌉

/-- The operator `%` on numbers (the sign of the result is that of the
dividend). -/
def mod : JsNum → JsNum → JsNum
  | fin a, fin b => if b = 0 then nan else fin (a - b * (truncQ (a / b) : ℚ))
  | fin a, posInf => fin a
  | fin a, negInf => fin a
  | _, _ => nan

/-- ECMAScript `ToBoolean` on a number: `0` and `NaN` are falsy. -/
def truthy : JsNum → Bool
  | fin q => decide (q ≠ 0)
  | posInf => true
  | negInf => true
  | nan => false

/-- The expression `a || b` on numbers. -/
def or (a b : JsNum) : JsNum := if truthy a then a else b

/-- The comparison `a > b` on numbers (false when either is `NaN`). -/
def gt : JsNum → JsNum → Bool
  | fin a, fin b => decide (b < a)
  | fin _, negInf => true
  | posInf, fin _ => true
  | posInf, negInf => true
  | _, _ => false

/-- The comparison `a !== b` on numbers (`NaN` differs from everything). -/
def strictNe : JsNum → JsNum → Bool
  | nan, _ => true
  | _, nan => true
  | a, b => decide (a ≠ b)

/-- The larger of two numbers, `NaN` if either is `NaN`. -/
def max2 : JsNum → JsNum → JsNum
  | nan, _ => nan
  | _, nan => nan
  | a, b => if gt b a then b else a

/-- The smaller of two numbers, `NaN` if either is `NaN`. -/
def min2 : JsNum → JsNum → JsNum
  | nan, _ => nan
  | _, nan => nan
  | a, b => if gt a b then b else a

/-- The call `Math.max(...xs)`: `-Infinity` for no argument. -/
def mathMax (xs : List JsNum) : JsNum := xs.foldl max2 negInf

/-- The call `Math.min(...xs)`: `Infinity` for no argument. -/
def mathMin (xs : List JsNum) : JsNum := xs.foldl min2 posInf

/-- The call `Math.ceil(x)`. -/
def ceil : JsNum → JsNum
  | fin q => fin ((⌈q⌉ : ℤ) : ℚ)
  | x => x

/-- The call `Math.round(x)`: the nearest integer, halves rounded up. -/
def round : JsNum → JsNum
  | fin q => fin ((⌊q + 1 / 2⌋ : ℤ) : ℚ)
  | x => x

/-- The integer nearest to a rational, a tie going to the even neighbour. -/
def roundHalfEven (m : ℚ) : ℤ :=
  if m - (⌊m⌋ : ℚ) < 1 / 2 then ⌊m⌋
  else if 1 / 2 < m - (⌊m⌋ : ℚ) then ⌊m⌋ + 1
  else if ⌊m⌋ % 2 = 0 then ⌊m⌋ else ⌊m⌋ + 1

/-- The exponent of the binade of a double of magnitude `a`: the integer `e`
with `2 ^ e ≤ a < 2 ^ (e + 1)`, and `-1022` for the subnormal numbers and
zero. -/
def doubleExponent (a : ℚ) : ℤ := max (Int.log 2 a) (-1022)

/-- The double nearest to the rational `q` (IEEE 754 binary64, round to
nearest, ties to even): the result that a JavaScript arithmetic operation
returns when its exact result is `q`. -/
def toDoubleQ (q : ℚ) : JsNum :=
  let ulp : ℚ := 2 ^ (doubleExponent |q| - 52)
  let r : ℚ := (roundHalfEven (|q| / ulp) : ℚ) * ulp
  if 2 ^ 1024 ≤ r then (if 0 ≤ q then posInf else negInf)
  else fin (if 0 ≤ q then r else -r)

/-- The rounding of an exact result to a double; the special values are kept. -/
def toDouble : JsNum → JsNum
  | fin q => toDoubleQ q
  | x => x

/-- The value of `Math.PI`, the double nearest to π. -/
def mathPI : JsNum := fin (884279719003555 / 281474976710656)

/-- The call `Math.cos(x)` or `Math.sin(x)` for the platform function `f` on
finite numbers: `NaN` for an infinite or `NaN` argument. -/
def trig (f : ℚ → ℚ) : JsNum → JsNum
  | fin q => fin (f q)
  | _ => nan

/-- The number is finite (not `NaN`, not an infinity). -/
def IsFinite : JsNum → Prop
  | fin _ => True
  | _ => False

instance (x : JsNum) : Decidable (IsFinite x) :=
  match x with
  | fin _ => isTrue trivial
  | posInf => isFalse id
  | negInf => isFalse id
  | nan => isFalse id

end JsNum

/-- The method `xs.map((a, i) => f(a, i))` of arrays: `f` receives the element
and its index. -/
def jsMapIdx {α β : Type} (f : α → Nat → β) (xs : List α) : List β :=
  xs.enum.map (fun p => f p.2 p.1)

/-- The element `xs[i]` of an array of numbers used as a number: `undefined`
(index out of range) converts to `NaN`. -/
def jsIndexNum (xs : List JsNum) (i : Nat) : JsNum :=
  match xs[i]? with
  | some x => x
  | none => JsNum.nan

/-! ## The chart components (`App.tsx`, `LineChart`, `DonutChart`, `BarChart`)

The geometry each component emits is returned as a record; colours, class
names and the title, which are copied to the output unchanged, are left
out. A coordinate pair stands for the text `x,y` or the attributes it is
written to. -/

/-- The geometry emitted by `LineChart`. -/
structure LineChartView where
  normalizedData : List JsNum
  points : List (JsNum × JsNum)
  circles : List (JsNum × JsNum)
  labelTexts : List (Option (JsNum × JsNum × String))
  deriving DecidableEq, Repr

/-- The component `LineChart`: `points` are the `x,y` pairs of the polyline,
`circles` the markers `(cx, cy)`, and `labelTexts` the result of `labels.map`,
`none` being `null` and `some (x, y, label)` a `text` element. -/
def lineChart (data : List JsNum) (labels : List String) : LineChartView :=
  let maxValue := JsNum.mathMax data
  let minValue := JsNum.mathMin data
  let padding : JsNum := 20
  let chartWidth : JsNum := 300
  let chartHeight : JsNum := 150
  let normalizedData := data.map (fun value =>
    chartHeight - padding
      - ((value - minValue) / (JsNum.or (maxValue - minValue) 1)) * (chartHeight - padding * 2))
  let points := jsMapIdx (fun y i =>
    let x := padding
      + (JsNum.ofNat i / (JsNum.ofNat data.length - 1)) * (chartWidth - padding * 2)
    (x, y)) normalizedData
  let circles := jsMapIdx (fun y i =>
    let x := padding
      + (JsNum.ofNat i / (JsNum.ofNat data.length - 1)) * (chartWidth - padding * 2)
    (x, y)) normalizedData
  let labelTexts := jsMapIdx (fun label i =>
    if JsNum.strictNe
        (JsNum.mod (JsNum.ofNat i) (JsNum.ceil (JsNum.ofNat labels.length / 5))) 0 then none
    else
      let x := padding
        + (JsNum.ofNat i / (JsNum.ofNat data.length - 1)) * (chartWidth - padding * 2)
      some (x, chartHeight - 5, label)) labels
  { normalizedData := normalizedData
    points := points
    circles := circles
    labelTexts := labelTexts }

/-- One `path` element of the donut: the angles of the wedge, the arc flag and
the two arc endpoints. -/
structure Wedge where
  angle : JsNum
  largeArcFlag : Nat
  startAngle : JsNum
  endAngle : JsNum
  startX : JsNum
  startY : JsNum
  endX : JsNum
  endY : JsNum
  fill : Option String
  deriving DecidableEq, Repr

/-- One row of the donut legend. -/
structure LegendRow where
  label : String
  backgroundColor : Option String
  percent : JsNum
  deriving DecidableEq, Repr

/-- The geometry emitted by `DonutChart`. -/
structure DonutChartView where
  total : JsNum
  wedges : List Wedge
  legend : List LegendRow
  deriving DecidableEq, Repr

/-- The callback of `values.map` in `DonutChart`, with the mutable variable
`currentAngle` passed explicitly: the wedges of the remaining values, `i`
being the index of the first of them. `cosF` and `sinF` are the platform's
`Math.cos` and `Math.sin` on finite numbers. -/
def donutWedges (cosF sinF : ℚ → ℚ) (total : JsNum) (colors : List String) :
    List JsNum → Nat → JsNum → List Wedge
  | [], _, _ => []
  | value :: rest, i, currentAngle =>
    let center : JsNum := 120 / 2
    let radius : JsNum := center - 10
    let angle := (value / total) * 360
    let largeArcFlag := if JsNum.gt angle 180 then 1 else 0
    let startAngle := currentAngle
    let endAngle := startAngle + angle
    let startX := center + radius * JsNum.trig cosF (startAngle * JsNum.mathPI / 180)
    let startY := center + radius * JsNum.trig sinF (startAngle * JsNum.mathPI / 180)
    let endX := center + radius * JsNum.trig cosF (endAngle * JsNum.mathPI / 180)
    let endY := center + radius * JsNum.trig sinF (endAngle * JsNum.mathPI / 180)
    { angle := angle
      largeArcFlag := largeArcFlag
      startAngle := startAngle
      endAngle := endAngle
      startX := startX
      startY := startY
      endX := endX
      endY := endY
      fill := colors[i]? } :: donutWedges cosF sinF total colors rest (i + 1) endAngle

/-- The expression `values.reduce((sum, value) => sum + value, 0)`. -/
def donutTotal (values : List JsNum) : JsNum :=
  values.foldl (fun sum value => sum + value) 0

/-- The component `DonutChart`. In the legend, `/` and `*` return doubles: the
exact quotient and the exact product are each rounded by `JsNum.toDouble`
before `Math.round` is applied. -/
def donutChart (cosF sinF : ℚ → ℚ) (values : List JsNum) (labels colors : List String) :
    DonutChartView :=
  let total := donutTotal values
  { total := total
    wedges := donutWedges cosF sinF total colors values 0 0
    legend := jsMapIdx (fun label i =>
      { label := label
        backgroundColor := colors[i]?
        percent := JsNum.round
          (JsNum.toDouble (JsNum.toDouble (jsIndexNum values i / total) * 100)) }) labels }

/-- One bar of `BarChart`: the rectangle and, when `h > 0`, the value text
`(x, y, v)` above it. -/
structure Bar where
  x : JsNum
  y : JsNum
  width : JsNum
  height : JsNum
  valueText : Option (JsNum × JsNum × JsNum)
  deriving DecidableEq, Repr

/-- The geometry emitted by `BarChart`. -/
structure BarChartView where
  bars : List Bar
  labelTexts : List (JsNum × JsNum × String)
  deriving DecidableEq, Repr

/-- The normalising denominator `Math.max(...values, 1)` of `BarChart`. -/
def barMaxValue (values : List JsNum) : JsNum :=
  JsNum.mathMax (values ++ [1])

/-- The component `BarChart`. -/
def barChart (values : List JsNum) (labels : List String) : BarChartView :=
  let maxValue := barMaxValue values
  let chartWidth : JsNum := 300
  let chartHeight : JsNum := 150
  let padding : JsNum := 24
  let barWidth := (chartWidth - padding * 2) / JsNum.ofNat values.length - 8
  { bars := jsMapIdx (fun v i =>
      let x := padding + JsNum.ofNat i * (barWidth + 8)
      let h := JsNum.or ((v / maxValue) * (chartHeight - padding * 2)) 0
      let y := chartHeight - padding - h
      { x := x
        y := y
        width := barWidth
        height := h
        valueText := if JsNum.gt h 0 then some (x + barWidth / 2, y - 6, v) else none }) values
    labelTexts := jsMapIdx (fun label i =>
      (padding + JsNum.ofNat i * (barWidth + 8) + barWidth / 2, chartHeight - 6, label)) labels }

/-! ## Specification vocabulary of the charts -/

/-- The `y` coordinate `LineChart` gives the sample `v` of a series with least
value `mn` and greatest value `mx`, in exact arithmetic. -/
def lineY (mn mx v : ℚ) : ℚ :=
  130 - (v - mn) / (mx - mn) * 110

/-- The `x` coordinate `LineChart` gives the sample of index `i` among `n`, in
exact arithmetic. -/
def lineX (n i : Nat) : ℚ :=
  20 + (i : ℚ) / ((n : ℚ) - 1) * 260

/-- The sweep in degrees `DonutChart` gives a value `v` when the values sum to
`total`, in exact arithmetic. -/
def donutSweep (total v : ℚ) : ℚ :=
  v / total * 360

/-- The width `BarChart` gives every bar of an input of `n` values, in exact
arithmetic. -/
def barW (n : Nat) : ℚ :=
  252 / (n : ℚ) - 8

/-- The left edge `BarChart` gives bar `i` of an input of `n` values, in exact
arithmetic. -/
def barX (n i : Nat) : ℚ :=
  24 + (i : ℚ) * (barW n + 8)

/-- The rank of a tier name in the order Low < Medium < High. -/
def tierRank (tier : String) : Option Nat :=
  if tier = "Low" then some 0
  else if tier = "Medium" then some 1
  else if tier = "High" then some 2
  else none

/-! ## Recording an assessment and redeeming a coupon (`App.tsx`) -/

/-- The state update of the handlers `Alert Caregivers` and `Contact Doctor`:
`newEntry = { symptoms, severity: symptomSeverity, date: new Date().toISOString(),
assessment }` and `setSymptomHistory(prev => [newEntry, ...prev].slice(0, 10))`;
`now` is the time of the click. -/
def recordAssessment (symptoms : List String) (symptomSeverity : Int) (now : Int)
    (assessment : Assessment) (prev : List HistoryEntry) : Option (List HistoryEntry) :=
  match toISOString now with
  | none => none
  | some date =>
    some (({ symptoms := symptoms, severity := symptomSeverity, date := date,
             assessment := some assessment } :: prev).take 10)

/-- One click on a recording button: the report, its assessment and the time. -/
structure Recording where
  symptoms : List String
  severity : Int
  now : Int
  assessment : Assessment
  deriving DecidableEq, Repr

/-- The history after a sequence of recordings, the first of the list being
the earliest. -/
def recordAll : List Recording → List HistoryEntry → Option (List HistoryEntry)
  | [], history => some history
  | r :: rs, history =>
    match recordAssessment r.symptoms r.severity r.now r.assessment history with
    | none => none
    | some next => recordAll rs next

/-- The history entry a recording writes when its time is a valid time value. -/
def entryOf (r : Recording) : HistoryEntry :=
  { symptoms := r.symptoms, severity := r.severity, date := String.mk (isoChars r.now),
    assessment := some r.assessment }

/-- The time value is valid for `Date`: within ±8.64e15 ms of the epoch. -/
def ValidTime (t : Int) : Prop :=
  -8640000000000000 ≤ t ∧ t ≤ 8640000000000000

instance (t : Int) : Decidable (ValidTime t) :=
  inferInstanceAs (Decidable (-8640000000000000 ≤ t ∧ t ≤ 8640000000000000))

/-- The interface `Coupon`. -/
structure Coupon where
  id : String
  title : String
  description : String
  points_required : Int
  category : String
  expires_at : String
  deriving DecidableEq, Repr

/-- What a call of `redeemCoupon` leaves behind: the state `currentUser`, the
value written to `localStorage` under `aegis_user` (if any), the text of the
alert, and whether `onClose` was called. -/
structure RedeemOutcome where
  currentUser : Option User
  stored : Option User
  alert : String
  closed : Bool
  deriving DecidableEq, Repr

/-- The function `redeemCoupon` of `PointsStoreModal`, with
`userPoints = currentUser?.points || 0`. -/
def redeemCoupon (currentUser : Option User) (coupon : Coupon) : RedeemOutcome :=
  let userPoints : Int :=
    match currentUser with
    | some u =>
      match u.points with
      | some p => if p = 0 then 0 else p
      | none => 0
    | none => 0
  if userPoints ≥ coupon.points_required then
    let updated : Option User :=
      match currentUser with
      | some u => some { u with points := some (userPoints - coupon.points_required) }
      | none => none
    { currentUser := match updated with
        | some u => some u
        | none => currentUser
      stored := updated
      alert := "Successfully redeemed: " ++ coupon.title ++ "! You now have "
        ++ toString (userPoints - coupon.points_required) ++ " points."
      closed := true }
  else
    { currentUser := currentUser
      stored := none
      alert := "You need " ++ toString (coupon.points_required - userPoints)
        ++ " more points to redeem this coupon."
      closed := false }

/-! ## Specification vocabulary of the full-circle wedge -/

/-- The coordinate `center + radius * f(angle * Math.PI / 180)` of an arc
endpoint of the donut, `f` being the platform cosine (for `x`) or sine (for
`y`), in exact arithmetic on the double `Math.PI`. -/
def donutPoint (f : ℚ → ℚ) (angle : ℚ) : ℚ :=
  60 + 50 * f (angle * (884279719003555 / 281474976710656) / 180)

/-- The number `360 * Math.PI / 180`, that is twice the double `Math.PI`
(6.283185307179586). -/
def twoPi : ℚ :=
  884279719003555 / 140737488355328

/-- A platform cosine that is right at 0 and at `2 * Math.PI`: `Math.cos`
returns 1 at both. -/
def engineCos (_ : ℚ) : ℚ :=
  1

/-- A platform sine that is right at 0 and at `2 * Math.PI`: `Math.sin(0)` is 0
and `Math.sin(6.283185307179586)` is the double `-2.4492935982947064e-16`,
because the double `Math.PI` is not π. -/
def engineSin (x : ℚ) : ℚ :=
  if x = 0 then 0 else -4967757600021511 / 20282409603651670423947251286016

/-! ## Lemmas on the string primitives -/

theorem includesChars_iff (s t : List Char) : includesChars s t = true ↔ t <:+: s := by
  induction s with
  | nil =>
    cases t <;> simp [includesChars, List.isPrefixOf]
  | cons c s ih =>
    simp only [includesChars, Bool.or_eq_true, ih, List.infix_cons_iff,
      List.isPrefixOf_iff_prefix]

theorem jsIncludes_iff (s t : String) : jsIncludes s t = true ↔ IsSubstring t s := by
  unfold jsIncludes IsSubstring
  exact includesChars_iff s.data t.data

theorem hasChestPain_iff (tags : List String) :
    tags.any (fun s => jsIncludes s "chest pain" || jsIncludes s "heart") = true ↔
      ∃ s ∈ tags, IsSubstring "chest pain" s ∨ IsSubstring "heart" s := by
  simp only [List.any_eq_true, Bool.or_eq_true, jsIncludes_iff]

theorem hasHeadache_iff (tags : List String) :
    tags.any (fun s => jsIncludes s "headache" || jsIncludes s "dizziness") = true ↔
      ∃ s ∈ tags, IsSubstring "headache" s ∨ IsSubstring "dizziness" s := by
  simp only [List.any_eq_true, Bool.or_eq_true, jsIncludes_iff]

theorem isLongDuration_iff (duration : String) :
    (jsIncludes duration "days" || jsIncludes duration "week") = true ↔
      (IsSubstring "days" duration ∨ IsSubstring "week" duration) := by
  simp only [Bool.or_eq_true, jsIncludes_iff]

theorem rule1_iff (tags : List String) (severity : Int) (duration : String) :
    (tags.any (fun s => jsIncludes s "chest pain" || jsIncludes s "heart") ||
      (decide (severity ≥ 8) && (jsIncludes duration "days" || jsIncludes duration "week")))
      = true ↔ Rule1 tags severity duration := by
  unfold Rule1
  rw [Bool.or_eq_true, Bool.and_eq_true, hasChestPain_iff, isLongDuration_iff, decide_eq_true_iff]

theorem rule2_iff (tags : List String) (severity : Int) (duration : String) :
    (tags.any (fun s => jsIncludes s "headache" || jsIncludes s "dizziness") ||
      (decide (severity ≥ 6) && (jsIncludes duration "days" || jsIncludes duration "week")))
      = true ↔ Rule2 tags severity duration := by
  unfold Rule2
  rw [Bool.or_eq_true, Bool.and_eq_true, hasHeadache_iff, isLongDuration_iff, decide_eq_true_iff]

/-! ## The classifier does not throw while the cutoff is a valid time -/

theorem toISOString_of_valid (now : Int) (h : CutoffValid now) :
    toISOString (now - 7 * 24 * 60 * 60 * 1000) = some (cutoffIso now) := by
  unfold CutoffValid at h
  unfold toISOString cutoffIso
  have e : now - 7 * 24 * 60 * 60 * 1000 = now - 604800000 := by norm_num
  rw [e, if_neg (by omega)]

theorem filterThrowing_total {α : Type} (p : α → Bool) (l : List α) :
    filterThrowing (fun a => some (p a)) l = some (l.filter p) := by
  induction l with
  | nil => rfl
  | cons a l ih =>
    simp only [filterThrowing, ih, List.filter_cons]

theorem recentSimilar_eq (symptomHistory : List HistoryEntry) (now : Int)
    (symptoms : List String) (h : CutoffValid now) :
    filterThrowing (isRecentSimilar now symptoms) symptomHistory
      = some (recentList symptomHistory now symptoms) := by
  have e : isRecentSimilar now symptoms = fun h =>
      some (jsStrGt h.date (cutoffIso now) && h.symptoms.any (fun s => symptoms.contains s)) := by
    funext x
    simp only [isRecentSimilar, toISOString_of_valid now h]
  rw [e, filterThrowing_total, recentList]

/-- Unfolding of the classifier on a valid clock reading, by rule. -/
theorem getAIRecommendation_cases (symptomHistory : List HistoryEntry) (now : Int)
    (symptoms : List String) (severity : Int) (duration : String) (h : CutoffValid now) :
    (Rule1 symptoms severity duration ∧
        getAIRecommendation symptomHistory now symptoms severity duration
          = some (highResult (recentList symptomHistory now symptoms))) ∨
    (¬ Rule1 symptoms severity duration ∧ Rule2 symptoms severity duration ∧
        getAIRecommendation symptomHistory now symptoms severity duration
          = some (mediumResult (recentList symptomHistory now symptoms))) ∨
    (¬ Rule1 symptoms severity duration ∧ ¬ Rule2 symptoms severity duration ∧
        getAIRecommendation symptomHistory now symptoms severity duration
          = some (lowResult (recentList symptomHistory now symptoms))) := by
  unfold getAIRecommendation
  simp only [recentSimilar_eq symptomHistory now symptoms h]
  by_cases h1 : Rule1 symptoms severity duration
  · left
    refine ⟨h1, ?_⟩
    rw [if_pos ((rule1_iff _ _ _).2 h1)]
    rfl
  · right
    have n1 := mt (rule1_iff symptoms severity duration).1 h1
    by_cases h2 : Rule2 symptoms severity duration
    · left
      refine ⟨h1, h2, ?_⟩
      rw [if_neg n1, if_pos ((rule2_iff _ _ _).2 h2)]
      rfl
    · right
      have n2 := mt (rule2_iff symptoms severity duration).1 h2
      refine ⟨h1, h2, ?_⟩
      rw [if_neg n1, if_neg n2]
      rfl

/-! ## Lemmas on string comparison -/

theorem char_toNat_inj (a b : Char) (h : a.toNat = b.toNat) : a = b := by
  rw [← Char.ofNat_toNat a, ← Char.ofNat_toNat b, h]

theorem ltChars_irrefl (a : List Char) : ltChars a a = false := by
  induction a with
  | nil => rfl
  | cons c cs ih => simp [ltChars, ih]

theorem ltChars_asymm (a b : List Char) : ltChars a b = true → ltChars b a = false := by
  induction a generalizing b with
  | nil =>
    cases b with
    | nil => intro h; rfl
    | cons c cs => intro _; rfl
  | cons x xs ih =>
    cases b with
    | nil => intro h; simp [ltChars] at h
    | cons c cs =>
      intro h
      simp only [ltChars, Bool.or_eq_true, decide_eq_true_eq, Bool.and_eq_true] at h
      simp only [ltChars, Bool.or_eq_false_iff, decide_eq_false_iff_not, Bool.and_eq_false_imp,
        decide_eq_true_eq]
      rcases h with h | ⟨h1, h2⟩
      · exact ⟨by omega, fun e => by omega⟩
      · exact ⟨by omega, fun _ => ih cs h2⟩

theorem ltChars_append_same (p a b : List Char) : ltChars (p ++ a) (p ++ b) = ltChars a b := by
  induction p with
  | nil => rfl
  | cons c cs ih => simp [ltChars, ih]

theorem ltChars_append_lt (p q a b : List Char) (hl : p.length = q.length)
    (h : ltChars p q = true) : ltChars (p ++ a) (q ++ b) = true := by
  induction p generalizing q with
  | nil =>
    cases q with
    | nil => simp [ltChars] at h
    | cons c cs => simp at hl
  | cons x xs ih =>
    cases q with
    | nil => simp at hl
    | cons c cs =>
      simp only [ltChars, Bool.or_eq_true, decide_eq_true_eq, Bool.and_eq_true] at h
      simp only [List.cons_append, ltChars, Bool.or_eq_true, decide_eq_true_eq,
        Bool.and_eq_true]
      rcases h with h | ⟨h1, h2⟩
      · exact Or.inl h
      · exact Or.inr ⟨h1, ih cs (by simpa using hl) h2⟩

theorem digitChar_toNat (n : Nat) : (digitChar n).toNat = 48 + n % 10 := by
  unfold digitChar
  have h : n % 10 < 10 := Nat.mod_lt _ (by norm_num)
  generalize n % 10 = m at h
  interval_cases m <;> rfl

theorem padDigits_length (w n : Nat) : (padDigits w n).length = w := by
  induction w with
  | zero => rfl
  | succ w ih => simp [padDigits, ih]

theorem padDigits_lt_aux (w : Nat) : ∀ a b : Nat, a / 10 ^ w = b / 10 ^ w → a < b →
    ltChars (padDigits w a) (padDigits w b) = true := by
  induction w with
  | zero =>
    intro a b h hab
    simp at h
    omega
  | succ w ih =>
    intro a b h hab
    have ha : a / 10 ^ (w + 1) = a / 10 ^ w / 10 := by
      rw [pow_succ, Nat.div_div_eq_div_mul]
    have hb : b / 10 ^ (w + 1) = b / 10 ^ w / 10 := by
      rw [pow_succ, Nat.div_div_eq_div_mul]
    have hle : a / 10 ^ w ≤ b / 10 ^ w := Nat.div_le_div_right (le_of_lt hab)
    simp only [padDigits, ltChars, digitChar_toNat, Bool.or_eq_true, decide_eq_true_eq,
      Bool.and_eq_true]
    by_cases he : a / 10 ^ w = b / 10 ^ w
    · exact Or.inr ⟨by rw [he], ih a b he hab⟩
    · left
      omega

theorem padDigits_lt (w a b : Nat) (ha : a < 10 ^ w) (hb : b < 10 ^ w) (hab : a < b) :
    ltChars (padDigits w a) (padDigits w b) = true :=
  padDigits_lt_aux w a b (by rw [Nat.div_eq_of_lt ha, Nat.div_eq_of_lt hb]) hab

/-- Comparison of two strings that start with a zero-padded field of the same
width: the smaller field decides. -/
theorem ltChars_field_lt (w a b : Nat) (r1 r2 : List Char) (ha : a < 10 ^ w) (hb : b < 10 ^ w)
    (hab : a < b) : ltChars (padDigits w a ++ r1) (padDigits w b ++ r2) = true :=
  ltChars_append_lt _ _ _ _ (by rw [padDigits_length, padDigits_length])
    (padDigits_lt w a b ha hb hab)

/-! ## `toISOString` is increasing on four-digit years -/

theorem daysFromYear_succ (y : Int) : daysFromYear (y + 1) = daysFromYear y + daysInYear y := by
  unfold daysFromYear daysInYear
  split_ifs <;> omega

theorem daysFromYear_mono (a b : Int) (h : a ≤ b) : daysFromYear a ≤ daysFromYear b := by
  unfold daysFromYear
  omega

theorem yearFromDay_spec (d : Int) :
    daysFromYear (yearFromDay d) ≤ d ∧ d < daysFromYear (yearFromDay d + 1) := by
  unfold yearFromDay
  simp only
  split_ifs with h1 h2
  · rw [sub_add_cancel]
    refine ⟨?_, h1⟩
    unfold daysFromYear at *
    omega
  · refine ⟨h2, ?_⟩
    unfold daysFromYear at *
    omega
  · exact ⟨not_lt.1 h1, not_le.1 h2⟩

theorem yearFromDay_mono (a b : Int) (h : a ≤ b) : yearFromDay a ≤ yearFromDay b := by
  by_contra hc
  have ha := yearFromDay_spec a
  have hb := yearFromDay_spec b
  have := daysFromYear_mono (yearFromDay b + 1) (yearFromDay a) (by omega)
  omega

theorem yearFromDay_range (d : Int) (h0 : -719528 ≤ d) (h1 : d < 2932897) :
    0 ≤ yearFromDay d ∧ yearFromDay d ≤ 9999 := by
  have hs := yearFromDay_spec d
  constructor
  · by_contra hc
    have := daysFromYear_mono (yearFromDay d + 1) 0 (by omega)
    have e : daysFromYear 0 = -719528 := by decide
    omega
  · by_contra hc
    have := daysFromYear_mono 10000 (yearFromDay d) (by omega)
    have e : daysFromYear 10000 = 2932897 := by decide
    omega

theorem isoYear_range (t : Int) (h : FourDigitYear t) : 0 ≤ isoYear t ∧ isoYear t ≤ 9999 := by
  unfold FourDigitYear at h
  exact yearFromDay_range _ (by omega) (by omega)

theorem isoDayInYear_range (t : Int) :
    0 ≤ isoDayInYear t ∧ isoDayInYear t < 365 + isoLeap t ∧ (isoLeap t = 0 ∨ isoLeap t = 1) := by
  have hs := yearFromDay_spec (t / 86400000)
  have e := daysFromYear_succ (isoYear t)
  unfold isoDayInYear isoLeap
  unfold isoYear at *
  have hd : daysInYear (yearFromDay (t / 86400000)) = 365 ∨
      daysInYear (yearFromDay (t / 86400000)) = 366 := by
    unfold daysInYear
    split_ifs <;> simp
  split_ifs with hl
  · omega
  · omega

theorem monthDate_cases (d l : Int) :
    (d < 31 ∧ monthFromDayInYear d l = 0 ∧ dateFromDayInYear d l = d + 1) ∨
    (31 ≤ d ∧ d < 59 + l ∧ monthFromDayInYear d l = 1 ∧ dateFromDayInYear d l = d - 30) ∨
    (59 + l ≤ d ∧ d < 90 + l ∧ monthFromDayInYear d l = 2 ∧ dateFromDayInYear d l = d - 58 - l) ∨
    (90 + l ≤ d ∧ d < 120 + l ∧ monthFromDayInYear d l = 3 ∧ dateFromDayInYear d l = d - 89 - l) ∨
    (120 + l ≤ d ∧ d < 151 + l ∧ monthFromDayInYear d l = 4 ∧ dateFromDayInYear d l = d - 119 - l) ∨
    (151 + l ≤ d ∧ d < 181 + l ∧ monthFromDayInYear d l = 5 ∧ dateFromDayInYear d l = d - 150 - l) ∨
    (181 + l ≤ d ∧ d < 212 + l ∧ monthFromDayInYear d l = 6 ∧ dateFromDayInYear d l = d - 180 - l) ∨
    (212 + l ≤ d ∧ d < 243 + l ∧ monthFromDayInYear d l = 7 ∧ dateFromDayInYear d l = d - 211 - l) ∨
    (243 + l ≤ d ∧ d < 273 + l ∧ monthFromDayInYear d l = 8 ∧ dateFromDayInYear d l = d - 242 - l) ∨
    (273 + l ≤ d ∧ d < 304 + l ∧ monthFromDayInYear d l = 9 ∧ dateFromDayInYear d l = d - 272 - l) ∨
    (304 + l ≤ d ∧ d < 334 + l ∧ monthFromDayInYear d l = 10 ∧ dateFromDayInYear d l = d - 303 - l) ∨
    (334 + l ≤ d ∧ monthFromDayInYear d l = 11 ∧ dateFromDayInYear d l = d - 333 - l) := by
  unfold monthFromDayInYear dateFromDayInYear
  by_cases c0 : d < 31
  · exact Or.inl ⟨c0, by simp only [if_pos c0], by simp only [if_pos c0]⟩
  by_cases c1 : d < 59 + l
  · exact Or.inr (Or.inl ⟨not_lt.1 c0, c1, by simp only [if_neg c0, if_pos c1], by simp only [if_neg c0, if_pos c1]⟩)
  by_cases c2 : d < 90 + l
  · exact Or.inr (Or.inr (Or.inl ⟨not_lt.1 c1, c2, by simp only [if_neg c0, if_neg c1, if_pos c2], by simp only [if_neg c0, if_neg c1, if_pos c2]⟩))
  by_cases c3 : d < 120 + l
  · exact Or.inr (Or.inr (Or.inr (Or.inl ⟨not_lt.1 c2, c3, by simp only [if_neg c0, if_neg c1, if_neg c2, if_pos c3], by simp only [if_neg c0, if_neg c1, if_neg c2, if_pos c3]⟩)))
  by_cases c4 : d < 151 + l
  · exact Or.inr (Or.inr (Or.inr (Or.inr (Or.inl ⟨not_lt.1 c3, c4, by simp only [if_neg c0, if_neg c1, if_neg c2, if_neg c3, if_pos c4], by simp only [if_neg c0, if_neg c1, if_neg c2, if_neg c3, if_pos c4]⟩))))
  by_cases c5 : d < 181 + l
  · exact Or.inr (Or.inr (Or.inr (Or.inr (Or.inr (Or.inl ⟨not_lt.1 c4, c5, by simp only [if_neg c0, if_neg c1, if_neg c2, if_neg c3, if_neg c4, if_pos c5], by simp only [if_neg c0, if_neg c1, if_neg c2, if_neg c3, if_neg c4, if_pos c5]⟩)))))
  by_cases c6 : d < 212 + l
  · exact Or.inr (Or.inr (Or.inr (Or.inr (Or.inr (Or.inr (Or.inl ⟨not_lt.1 c5, c6, by simp only [if_neg c0, if_neg c1, if_neg c2, if_neg c3, if_neg c4, if_neg c5, if_pos c6], by simp only [if_neg c0, if_neg c1, if_neg c2, if_neg c3, if_neg c4, if_neg c5, if_pos c6]⟩))))))
  by_cases c7 : d < 243 + l
  · exact Or.inr (Or.inr (Or.inr (Or.inr (Or.inr (Or.inr (Or.inr (Or.inl ⟨not_lt.1 c6, c7, by simp only [if_neg c0, if_neg c1, if_neg c2, if_neg c3, if_neg c4, if_neg c5, if_neg c6, if_pos c7], by simp only [if_neg c0, if_neg c1, if_neg c2, if_neg c3, if_neg c4, if_neg c5, if_neg c6, if_pos c7]⟩)))))))
  by_cases c8 : d < 273 + l
  · exact Or.inr (Or.inr (Or.inr (Or.inr (Or.inr (Or.inr (Or.inr (Or.inr (Or.inl ⟨not_lt.1 c7, c8, by simp only [if_neg c0, if_neg c1, if_neg c2, if_neg c3, if_neg c4, if_neg c5, if_neg c6, if_neg c7, if_pos c8], by simp only [if_neg c0, if_neg c1, if_neg c2, if_neg c3, if_neg c4, if_neg c5, if_neg c6, if_neg c7, if_pos c8]⟩))))))))
  by_cases c9 : d < 304 + l
  · exact Or.inr (Or.inr (Or.inr (Or.inr (Or.inr (Or.inr (Or.inr (Or.inr (Or.inr (Or.inl ⟨not_lt.1 c8, c9, by simp only [if_neg c0, if_neg c1, if_neg c2, if_neg c3, if_neg c4, if_neg c5, if_neg c6, if_neg c7, if_neg c8, if_pos c9], by simp only [if_neg c0, if_neg c1, if_neg c2, if_neg c3, if_neg c4, if_neg c5, if_neg c6, if_neg c7, if_neg c8, if_pos c9]⟩)))))))))
  by_cases c10 : d < 334 + l
  · exact Or.inr (Or.inr (Or.inr (Or.inr (Or.inr (Or.inr (Or.inr (Or.inr (Or.inr (Or.inr (Or.inl ⟨not_lt.1 c9, c10, by simp only [if_neg c0, if_neg c1, if_neg c2, if_neg c3, if_neg c4, if_neg c5, if_neg c6, if_neg c7, if_neg c8, if_neg c9, if_pos c10], by simp only [if_neg c0, if_neg c1, if_neg c2, if_neg c3, if_neg c4, if_neg c5, if_neg c6, if_neg c7, if_neg c8, if_neg c9, if_pos c10]⟩))))))))))
  exact Or.inr (Or.inr (Or.inr (Or.inr (Or.inr (Or.inr (Or.inr (Or.inr (Or.inr (Or.inr (Or.inr (⟨not_lt.1 c10, by simp only [if_neg c0, if_neg c1, if_neg c2, if_neg c3, if_neg c4, if_neg c5, if_neg c6, if_neg c7, if_neg c8, if_neg c9, if_neg c10], by simp only [if_neg c0, if_neg c1, if_neg c2, if_neg c3, if_neg c4, if_neg c5, if_neg c6, if_neg c7, if_neg c8, if_neg c9, if_neg c10]⟩)))))))))))

theorem monthDate_bounds (d l : Int) (h0 : 0 ≤ d) (h1 : d < 365 + l) (hl : l = 0 ∨ l = 1) :
    0 ≤ monthFromDayInYear d l ∧ monthFromDayInYear d l ≤ 11 ∧
      1 ≤ dateFromDayInYear d l ∧ dateFromDayInYear d l ≤ 31 := by
  rcases monthDate_cases d l with h | h | h | h | h | h | h | h | h | h | h | h <;> omega

theorem monthDate_lt (d e l : Int) (hde : d < e) (h1 : e < 365 + l)
    (hl : l = 0 ∨ l = 1) :
    monthFromDayInYear d l < monthFromDayInYear e l ∨
      (monthFromDayInYear d l = monthFromDayInYear e l ∧
        dateFromDayInYear d l < dateFromDayInYear e l) := by
  rcases monthDate_cases d l with h | h | h | h | h | h | h | h | h | h | h | h <;>
    rcases monthDate_cases e l with g | g | g | g | g | g | g | g | g | g | g | g <;> omega

theorem isoChars_eq (t : Int) (h : FourDigitYear t) :
    isoChars t = isoRender (isoYear t).toNat
      (monthFromDayInYear (isoDayInYear t) (isoLeap t) + 1).toNat
      (dateFromDayInYear (isoDayInYear t) (isoLeap t)).toNat
      (t / 3600000 % 24).toNat (t / 60000 % 60).toNat (t / 1000 % 60).toNat
      (t % 1000).toNat := by
  have hy := isoYear_range t h
  unfold isoYear at hy
  unfold isoChars isoYearChars isoRender isoDayInYear isoLeap isoYear
  simp only [if_pos hy, List.append_assoc, List.cons_append]

theorem isoRender_lt (y1 mo1 d1 h1 mi1 s1 ms1 y2 mo2 d2 h2 mi2 s2 ms2 : Nat)
    (by1 : y1 < 10 ^ 4) (by2 : y2 < 10 ^ 4) (bmo1 : mo1 < 10 ^ 2) (bmo2 : mo2 < 10 ^ 2)
    (bd1 : d1 < 10 ^ 2) (bd2 : d2 < 10 ^ 2) (bh1 : h1 < 10 ^ 2) (bh2 : h2 < 10 ^ 2)
    (bmi1 : mi1 < 10 ^ 2) (bmi2 : mi2 < 10 ^ 2) (bs1 : s1 < 10 ^ 2) (bs2 : s2 < 10 ^ 2)
    (bms1 : ms1 < 10 ^ 3) (bms2 : ms2 < 10 ^ 3)
    (hlex : y1 < y2 ∨ (y1 = y2 ∧ (mo1 < mo2 ∨ (mo1 = mo2 ∧ (d1 < d2 ∨ (d1 = d2 ∧
      (h1 < h2 ∨ (h1 = h2 ∧ (mi1 < mi2 ∨ (mi1 = mi2 ∧ (s1 < s2 ∨ (s1 = s2 ∧
        ms1 < ms2)))))))))))) :
    ltChars (isoRender y1 mo1 d1 h1 mi1 s1 ms1) (isoRender y2 mo2 d2 h2 mi2 s2 ms2) = true := by
  unfold isoRender
  have strip : ∀ (c : Char) (a b : List Char), ltChars (c :: a) (c :: b) = ltChars a b := by
    intro c a b
    simp [ltChars]
  rcases hlex with h | ⟨rfl, hlex⟩
  · exact ltChars_field_lt 4 _ _ _ _ by1 by2 h
  rw [ltChars_append_same, strip]
  rcases hlex with h | ⟨rfl, hlex⟩
  · exact ltChars_field_lt 2 _ _ _ _ bmo1 bmo2 h
  rw [ltChars_append_same, strip]
  rcases hlex with h | ⟨rfl, hlex⟩
  · exact ltChars_field_lt 2 _ _ _ _ bd1 bd2 h
  rw [ltChars_append_same, strip]
  rcases hlex with h | ⟨rfl, hlex⟩
  · exact ltChars_field_lt 2 _ _ _ _ bh1 bh2 h
  rw [ltChars_append_same, strip]
  rcases hlex with h | ⟨rfl, hlex⟩
  · exact ltChars_field_lt 2 _ _ _ _ bmi1 bmi2 h
  rw [ltChars_append_same, strip]
  rcases hlex with h | ⟨rfl, hlex⟩
  · exact ltChars_field_lt 2 _ _ _ _ bs1 bs2 h
  rw [ltChars_append_same, strip]
  exact ltChars_field_lt 3 _ _ _ _ bms1 bms2 hlex

theorem timeOfDay_decomp (t : Int) :
    t = t / 86400000 * 86400000 + t / 3600000 % 24 * 3600000 + t / 60000 % 60 * 60000
      + t / 1000 % 60 * 1000 + t % 1000 ∧
    (0 ≤ t / 3600000 % 24 ∧ t / 3600000 % 24 < 24) ∧
    (0 ≤ t / 60000 % 60 ∧ t / 60000 % 60 < 60) ∧
    (0 ≤ t / 1000 % 60 ∧ t / 1000 % 60 < 60) ∧ (0 ≤ t % 1000 ∧ t % 1000 < 1000) := by
  omega

theorem timeOfDay_lex (D a1 b1 c1 e1 a2 b2 c2 e2 : Int)
    (ha1 : 0 ≤ a1 ∧ a1 < 24) (hb1 : 0 ≤ b1 ∧ b1 < 60) (hc1 : 0 ≤ c1 ∧ c1 < 60)
    (he1 : 0 ≤ e1 ∧ e1 < 1000)
    (ha2 : 0 ≤ a2 ∧ a2 < 24) (hb2 : 0 ≤ b2 ∧ b2 < 60) (hc2 : 0 ≤ c2 ∧ c2 < 60)
    (he2 : 0 ≤ e2 ∧ e2 < 1000)
    (h : D * 86400000 + a1 * 3600000 + b1 * 60000 + c1 * 1000 + e1
      < D * 86400000 + a2 * 3600000 + b2 * 60000 + c2 * 1000 + e2) :
    a1.toNat < a2.toNat ∨ (a1.toNat = a2.toNat ∧ (b1.toNat < b2.toNat ∨ (b1.toNat = b2.toNat ∧
      (c1.toNat < c2.toNat ∨ (c1.toNat = c2.toNat ∧ e1.toNat < e2.toNat))))) := by
  omega

/-- On four-digit years the ISO strings of two time values compare as the time
values do. -/
theorem isoChars_lt (t1 t2 : Int) (r1 : FourDigitYear t1) (r2 : FourDigitYear t2)
    (h : t1 < t2) : ltChars (isoChars t1) (isoChars t2) = true := by
  rw [isoChars_eq t1 r1, isoChars_eq t2 r2]
  have hy1 := isoYear_range t1 r1
  have hy2 := isoYear_range t2 r2
  have hd1 := isoDayInYear_range t1
  have hd2 := isoDayInYear_range t2
  have hm1 := monthDate_bounds _ _ hd1.1 hd1.2.1 hd1.2.2
  have hm2 := monthDate_bounds _ _ hd2.1 hd2.2.1 hd2.2.2
  have hyle : isoYear t1 ≤ isoYear t2 := yearFromDay_mono _ _ (by omega)
  apply isoRender_lt
  · omega
  · omega
  · omega
  · omega
  · omega
  · omega
  · omega
  · omega
  · omega
  · omega
  · omega
  · omega
  · omega
  · omega
  rcases lt_or_eq_of_le hyle with hlt | heq
  · left
    omega
  right
  refine ⟨by omega, ?_⟩
  have hl : isoLeap t1 = isoLeap t2 := by
    unfold isoLeap
    rw [heq]
  have hdd : isoDayInYear t1 ≤ isoDayInYear t2 := by
    unfold isoDayInYear
    rw [heq]
    omega
  rcases lt_or_eq_of_le hdd with hlt | hde
  · have := monthDate_lt (isoDayInYear t1) (isoDayInYear t2) (isoLeap t2) hlt hd2.2.1 hd2.2.2
    rw [hl] at hm1 ⊢
    omega
  · have hday : t1 / 86400000 = t2 / 86400000 := by
      unfold isoDayInYear at hde
      rw [heq] at hde
      omega
    rw [hl, hde]
    right
    refine ⟨rfl, Or.inr ⟨rfl, ?_⟩⟩
    obtain ⟨e1, a1, b1, c1, f1⟩ := timeOfDay_decomp t1
    obtain ⟨e2, a2, b2, c2, f2⟩ := timeOfDay_decomp t2
    apply timeOfDay_lex (t2 / 86400000) _ _ _ _ _ _ _ _ a1 b1 c1 f1 a2 b2 c2 f2
    rw [hday] at e1
    rw [← e1, ← e2]
    exact h

theorem jsStrGt_iso_iff (t c : Int) (rt : FourDigitYear t) (rc : FourDigitYear c) :
    jsStrGt (String.mk (isoChars t)) (String.mk (isoChars c)) = true ↔ c < t := by
  unfold jsStrGt
  constructor
  · intro h
    by_contra hn
    rcases lt_or_eq_of_le (not_lt.1 hn) with hlt | heq
    · have := ltChars_asymm _ _ (isoChars_lt t c rt rc hlt)
      simp only [this] at h
      exact absurd h (by decide)
    · rw [heq, ltChars_irrefl] at h
      exact absurd h (by decide)
  · exact isoChars_lt c t rc rt

/-! ## Claims on the decision table -/

/-- C1: on a valid clock reading the classifier returns a result, and that
result is the High one (tier `High`, confidence 0.92, the fixed recommendation
and the three fixed actions) if and only if some tag contains `chest pain` or
`heart`, or severity is at least 8 and the duration contains `days` or `week`. -/
theorem C1_high_iff_rule1 (symptomHistory : List HistoryEntry) (now : Int)
    (symptoms : List String) (severity : Int) (duration : String) (hclock : CutoffValid now) :
    ∃ r, getAIRecommendation symptomHistory now symptoms severity duration = some r ∧
      ((r.severity = "High" ∧ r.confidence = 0.92 ∧
        r.recommendation
          = "Seek immediate medical attention. Your symptoms may indicate a serious condition." ∧
        r.actions = ["Call emergency services", "Contact your cardiologist", "Monitor vital signs"])
        ↔ ((∃ s ∈ symptoms, IsSubstring "chest pain" s ∨ IsSubstring "heart" s) ∨
            (severity ≥ 8 ∧ (IsSubstring "days" duration ∨ IsSubstring "week" duration)))) := by
  rcases getAIRecommendation_cases symptomHistory now symptoms severity duration hclock with
    ⟨h1, e⟩ | ⟨h1, _, e⟩ | ⟨h1, _, e⟩
  · exact ⟨_, e, fun _ => h1, fun _ => ⟨rfl, rfl, rfl, rfl⟩⟩
  · refine ⟨_, e, fun h => ?_, fun h => absurd h h1⟩
    exact absurd h.1 (show ¬ ("Medium" : String) = "High" by decide)
  · refine ⟨_, e, fun h => ?_, fun h => absurd h h1⟩
    exact absurd h.1 (show ¬ ("Low" : String) = "High" by decide)

/-- Witness of C1: tags `["chest pain"]`, severity 9, duration `1-3 days` give
High with confidence 0.92. -/
theorem C1_high_iff_rule1_witness :
    CutoffValid 1700000000000 ∧
      ∃ r, getAIRecommendation [] 1700000000000 ["chest pain"] 9 "1-3 days" = some r ∧
        r.severity = "High" ∧ r.confidence = 0.92 := by
  have hv : CutoffValid 1700000000000 := by
    unfold CutoffValid
    norm_num
  obtain ⟨r, e, h⟩ := C1_high_iff_rule1 [] 1700000000000 ["chest pain"] 9 "1-3 days" hv
  have h1 := h.2 (Or.inl ⟨"chest pain", by simp, Or.inl ⟨[], [], rfl⟩⟩)
  exact ⟨hv, r, e, h1.1, h1.2.1⟩

/-- C2: on a valid clock reading the classifier returns the Medium result (tier
`Medium`, confidence 0.78, the fixed recommendation and four fixed actions) if
and only if the condition of rule 1 fails and some tag contains `headache` or
`dizziness`, or severity is at least 6 and the duration contains `days` or
`week`. -/
theorem C2_medium_iff_rule2 (symptomHistory : List HistoryEntry) (now : Int)
    (symptoms : List String) (severity : Int) (duration : String) (hclock : CutoffValid now) :
    ∃ r, getAIRecommendation symptomHistory now symptoms severity duration = some r ∧
      ((r.severity = "Medium" ∧ r.confidence = 0.78 ∧
        r.recommendation
          = "Monitor symptoms closely and consider contacting your healthcare provider." ∧
        r.actions = ["Rest in a quiet, dark room", "Stay hydrated", "Track symptom patterns",
          "Consider OTC pain relief"])
        ↔ (¬ ((∃ s ∈ symptoms, IsSubstring "chest pain" s ∨ IsSubstring "heart" s) ∨
              (severity ≥ 8 ∧ (IsSubstring "days" duration ∨ IsSubstring "week" duration))) ∧
            ((∃ s ∈ symptoms, IsSubstring "headache" s ∨ IsSubstring "dizziness" s) ∨
              (severity ≥ 6 ∧ (IsSubstring "days" duration ∨ IsSubstring "week" duration))))) := by
  rcases getAIRecommendation_cases symptomHistory now symptoms severity duration hclock with
    ⟨h1, e⟩ | ⟨h1, h2, e⟩ | ⟨_, h2, e⟩
  · refine ⟨_, e, fun h => ?_, fun h => absurd h1 h.1⟩
    exact absurd h.1 (show ¬ ("High" : String) = "Medium" by decide)
  · exact ⟨_, e, fun _ => ⟨h1, h2⟩, fun _ => ⟨rfl, rfl, rfl, rfl⟩⟩
  · refine ⟨_, e, fun h => ?_, fun h => absurd h.2 h2⟩
    exact absurd h.1 (show ¬ ("Low" : String) = "Medium" by decide)

/-- Witness of C2: tag `dizziness`, severity 3, duration `1-6 hours` is Medium. -/
theorem C2_medium_iff_rule2_witness :
    CutoffValid 1700000000000 ∧
      ∃ r, getAIRecommendation [] 1700000000000 ["dizziness"] 3 "1-6 hours" = some r ∧
        r.severity = "Medium" ∧ r.confidence = 0.78 := by
  have hv : CutoffValid 1700000000000 := by
    unfold CutoffValid
    norm_num
  obtain ⟨r, e, h⟩ := C2_medium_iff_rule2 [] 1700000000000 ["dizziness"] 3 "1-6 hours" hv
  have n1 : ¬ ((∃ s ∈ ["dizziness"], IsSubstring "chest pain" s ∨ IsSubstring "heart" s) ∨
      ((3 : Int) ≥ 8 ∧ (IsSubstring "days" "1-6 hours" ∨ IsSubstring "week" "1-6 hours"))) := by
    rw [← Rule1, ← rule1_iff]
    decide
  have h1 := h.2 ⟨n1, Or.inl ⟨"dizziness", by simp, Or.inr ⟨[], [], rfl⟩⟩⟩
  exact ⟨hv, r, e, h1.1, h1.2.1⟩

/-- C3: on a valid clock reading the classifier returns the Low result (tier
`Low`, confidence 0.65, the fixed recommendation and four fixed actions) if and
only if neither the condition of rule 1 nor that of rule 2 holds. -/
theorem C3_low_iff_neither (symptomHistory : List HistoryEntry) (now : Int)
    (symptoms : List String) (severity : Int) (duration : String) (hclock : CutoffValid now) :
    ∃ r, getAIRecommendation symptomHistory now symptoms severity duration = some r ∧
      ((r.severity = "Low" ∧ r.confidence = 0.65 ∧
        r.recommendation
          = "Continue monitoring. Consider home care remedies and lifestyle adjustments." ∧
        r.actions = ["Rest and hydration", "Over-the-counter relief if needed",
          "Monitor for changes", "Maintain regular sleep schedule"])
        ↔ (¬ ((∃ s ∈ symptoms, IsSubstring "chest pain" s ∨ IsSubstring "heart" s) ∨
              (severity ≥ 8 ∧ (IsSubstring "days" duration ∨ IsSubstring "week" duration))) ∧
            ¬ ((∃ s ∈ symptoms, IsSubstring "headache" s ∨ IsSubstring "dizziness" s) ∨
              (severity ≥ 6 ∧ (IsSubstring "days" duration ∨ IsSubstring "week" duration))))) := by
  rcases getAIRecommendation_cases symptomHistory now symptoms severity duration hclock with
    ⟨h1, e⟩ | ⟨_, h2, e⟩ | ⟨h1, h2, e⟩
  · refine ⟨_, e, fun h => ?_, fun h => absurd h1 h.1⟩
    exact absurd h.1 (show ¬ ("High" : String) = "Low" by decide)
  · refine ⟨_, e, fun h => ?_, fun h => absurd h2 h.2⟩
    exact absurd h.1 (show ¬ ("Medium" : String) = "Low" by decide)
  · exact ⟨_, e, fun _ => ⟨h1, h2⟩, fun _ => ⟨rfl, rfl, rfl, rfl⟩⟩

/-- Witness of C3: tag `nausea`, severity 7, duration `6-24 hours` is Low. -/
theorem C3_low_iff_neither_witness :
    CutoffValid 1700000000000 ∧
      ∃ r, getAIRecommendation [] 1700000000000 ["nausea"] 7 "6-24 hours" = some r ∧
        r.severity = "Low" ∧ r.confidence = 0.65 := by
  have hv : CutoffValid 1700000000000 := by
    unfold CutoffValid
    norm_num
  obtain ⟨r, e, h⟩ := C3_low_iff_neither [] 1700000000000 ["nausea"] 7 "6-24 hours" hv
  have n1 : ¬ ((∃ s ∈ ["nausea"], IsSubstring "chest pain" s ∨ IsSubstring "heart" s) ∨
      ((7 : Int) ≥ 8 ∧ (IsSubstring "days" "6-24 hours" ∨ IsSubstring "week" "6-24 hours"))) := by
    rw [← Rule1, ← rule1_iff]
    decide
  have n2 : ¬ ((∃ s ∈ ["nausea"], IsSubstring "headache" s ∨ IsSubstring "dizziness" s) ∨
      ((7 : Int) ≥ 6 ∧ (IsSubstring "days" "6-24 hours" ∨ IsSubstring "week" "6-24 hours"))) := by
    rw [← Rule2, ← rule2_iff]
    decide
  have h1 := h.2 ⟨n1, n2⟩
  exact ⟨hv, r, e, h1.1, h1.2.1⟩

/-- C4: on a valid clock reading the classifier returns a result for every tag
list, integer severity and duration string; its tier is exactly one of `High`,
`Medium`, `Low`; and when the conditions of rule 1 and rule 2 both hold the
result is the High one of rule 1, not Medium. -/
theorem C4_total_first_match (symptomHistory : List HistoryEntry) (now : Int)
    (symptoms : List String) (severity : Int) (duration : String) (hclock : CutoffValid now) :
    ∃ r, getAIRecommendation symptomHistory now symptoms severity duration = some r ∧
      ((r.severity = "High" ∧ r.severity ≠ "Medium" ∧ r.severity ≠ "Low") ∨
        (r.severity ≠ "High" ∧ r.severity = "Medium" ∧ r.severity ≠ "Low") ∨
        (r.severity ≠ "High" ∧ r.severity ≠ "Medium" ∧ r.severity = "Low")) ∧
      (Rule1 symptoms severity duration ∧ Rule2 symptoms severity duration →
        r.severity = "High" ∧ r.confidence = 0.92 ∧
        r.recommendation
          = "Seek immediate medical attention. Your symptoms may indicate a serious condition." ∧
        r.actions
          = ["Call emergency services", "Contact your cardiologist", "Monitor vital signs"]) := by
  rcases getAIRecommendation_cases symptomHistory now symptoms severity duration hclock with
    ⟨_, e⟩ | ⟨h1, _, e⟩ | ⟨h1, _, e⟩
  · refine ⟨_, e, Or.inl ⟨rfl, ?_, ?_⟩, fun _ => ⟨rfl, rfl, rfl, rfl⟩⟩
    · exact (show ¬ ("High" : String) = "Medium" by decide)
    · exact (show ¬ ("High" : String) = "Low" by decide)
  · refine ⟨_, e, Or.inr (Or.inl ⟨?_, rfl, ?_⟩), fun h => absurd h.1 h1⟩
    · exact (show ¬ ("Medium" : String) = "High" by decide)
    · exact (show ¬ ("Medium" : String) = "Low" by decide)
  · refine ⟨_, e, Or.inr (Or.inr ⟨?_, ?_, rfl⟩), fun h => absurd h.1 h1⟩
    · exact (show ¬ ("Low" : String) = "High" by decide)
    · exact (show ¬ ("Low" : String) = "Medium" by decide)

/-- Witness of C4: the empty tag list with an out-of-range severity and an
unrecognised duration still gets a tier, and tags `chest pain`, `headache`
(both rules match) get High. -/
theorem C4_total_first_match_witness :
    CutoffValid 1700000000000 ∧
      (∃ r, getAIRecommendation [] 1700000000000 [] (-3) "forever" = some r) ∧
      ∃ r, getAIRecommendation [] 1700000000000 ["chest pain", "headache"] 5 "" = some r ∧
        r.severity = "High" := by
  have hv : CutoffValid 1700000000000 := by
    unfold CutoffValid
    norm_num
  obtain ⟨r0, e0, _⟩ := C4_total_first_match [] 1700000000000 [] (-3) "forever" hv
  obtain ⟨r, e, _, h⟩ :=
    C4_total_first_match [] 1700000000000 ["chest pain", "headache"] 5 "" hv
  have h1 : Rule1 ["chest pain", "headache"] 5 "" :=
    Or.inl ⟨"chest pain", by simp, Or.inl ⟨[], [], rfl⟩⟩
  have h2 : Rule2 ["chest pain", "headache"] 5 "" :=
    Or.inl ⟨"headache", by simp, Or.inl ⟨[], [], rfl⟩⟩
  exact ⟨hv, ⟨r0, e0⟩, r, e, (h ⟨h1, h2⟩).1⟩

/-- C5, the claim fails: the only tag is `headache`, severity 8 lies in 1..10
and `1-3 days` is one of the duration buckets, yet the result is High (rule 1
fires on severity and duration), not Medium. -/
theorem C5_headache_high_counterexample :
    (1 : Int) ≤ 8 ∧ (8 : Int) ≤ 10 ∧ "1-3 days" ∈ durationBuckets ∧
      ∃ r, getAIRecommendation [] 1700000000000 ["headache"] 8 "1-3 days" = some r ∧
        r.severity = "High" ∧ r.severity ≠ "Medium" := by
  refine ⟨by decide, by decide, by decide, highResult [], rfl, rfl, ?_⟩
  exact (show ¬ ("High" : String) = "Medium" by decide)

/-- C5 as amended: a report whose only tag is `headache` is never Low; it is
Medium (confidence 0.78) for every severity and duration except when severity
is at least 8 and the duration contains `days` or `week`, in which case rule 1
makes it High. -/
theorem C5_headache_only (symptomHistory : List HistoryEntry) (now : Int)
    (severity : Int) (duration : String) (hclock : CutoffValid now) :
    ∃ r, getAIRecommendation symptomHistory now ["headache"] severity duration = some r ∧
      r.severity ≠ "Low" ∧
      (¬ (severity ≥ 8 ∧ (IsSubstring "days" duration ∨ IsSubstring "week" duration)) →
        r.severity = "Medium" ∧ r.confidence = 0.78) ∧
      ((severity ≥ 8 ∧ (IsSubstring "days" duration ∨ IsSubstring "week" duration)) →
        r.severity = "High" ∧ r.confidence = 0.92) := by
  have hr2 : Rule2 ["headache"] severity duration :=
    Or.inl ⟨"headache", by simp, Or.inl ⟨[], [], rfl⟩⟩
  have hr1 : Rule1 ["headache"] severity duration ↔
      (severity ≥ 8 ∧ (IsSubstring "days" duration ∨ IsSubstring "week" duration)) := by
    unfold Rule1
    have hn : ¬ ∃ s ∈ ["headache"], IsSubstring "chest pain" s ∨ IsSubstring "heart" s := by
      rw [← hasChestPain_iff]
      decide
    constructor
    · rintro (h | h)
      · exact absurd h hn
      · exact h
    · exact Or.inr
  rcases getAIRecommendation_cases symptomHistory now ["headache"] severity duration hclock with
    ⟨h1, e⟩ | ⟨h1, _, e⟩ | ⟨_, h2, _⟩
  · refine ⟨_, e, ?_, fun h => absurd (hr1.1 h1) h, fun _ => ⟨rfl, rfl⟩⟩
    exact (show ¬ ("High" : String) = "Low" by decide)
  · refine ⟨_, e, ?_, fun _ => ⟨rfl, rfl⟩, fun h => absurd (hr1.2 h) h1⟩
    exact (show ¬ ("Medium" : String) = "Low" by decide)
  · exact absurd hr2 h2

/-- Witness of C5: tag `headache`, severity 5, duration `1-6 hours` is Medium. -/
theorem C5_headache_only_witness :
    CutoffValid 1700000000000 ∧
      ∃ r, getAIRecommendation [] 1700000000000 ["headache"] 5 "1-6 hours" = some r ∧
        r.severity = "Medium" ∧ r.confidence = 0.78 := by
  have hv : CutoffValid 1700000000000 := by
    unfold CutoffValid
    norm_num
  obtain ⟨r, e, _, h, _⟩ := C5_headache_only [] 1700000000000 5 "1-6 hours" hv
  exact ⟨hv, r, e, h (fun hc => absurd hc.1 (by decide))⟩

/-! ## Claims on the pattern note -/

theorem cutoffValid_of_fourDigitYear (now : Int) (h : FourDigitYear (now - 604800000)) :
    CutoffValid now := by
  unfold FourDigitYear at h
  unfold CutoffValid
  omega

theorem date_of_toISOString (t : Int) (d : String) (h : toISOString t = some d) :
    d = String.mk (isoChars t) := by
  unfold toISOString at h
  split_ifs at h
  exact (Option.some.inj h).symm

/-- When every history date was written by `toISOString` at a four-digit-year
time, the string comparison of `recentSimilar` is the comparison of the times. -/
theorem recentList_chrono (symptomHistory : List HistoryEntry) (recordedAt : HistoryEntry → Int)
    (now : Int) (symptoms : List String) (hnow : FourDigitYear (now - 604800000))
    (hdates : ∀ h ∈ symptomHistory,
      FourDigitYear (recordedAt h) ∧ toISOString (recordedAt h) = some h.date) :
    recentList symptomHistory now symptoms
      = symptomHistory.filter (fun h => decide (recordedAt h > now - 604800000) &&
          h.symptoms.any (fun s => symptoms.contains s)) := by
  unfold recentList
  apply List.filter_congr
  intro h hh
  obtain ⟨r, e⟩ := hdates h hh
  have hd := date_of_toISOString _ _ e
  have hc : jsStrGt h.date (cutoffIso now) = decide (recordedAt h > now - 604800000) := by
    rw [Bool.eq_iff_iff, hd, cutoffIso, jsStrGt_iso_iff _ _ r hnow, decide_eq_true_iff]
  rw [hc]

theorem recent_pos_iff (symptomHistory : List HistoryEntry) (recordedAt : HistoryEntry → Int)
    (c : Int) (symptoms : List String) :
    (symptomHistory.filter (fun h => decide (recordedAt h > c) &&
        h.symptoms.any (fun s => symptoms.contains s))).length > 0 ↔
      ∃ h ∈ symptomHistory, recordedAt h > c ∧ ∃ s ∈ h.symptoms, s ∈ symptoms := by
  rw [gt_iff_lt, List.length_pos_iff_exists_mem]
  simp only [List.mem_filter, Bool.and_eq_true, decide_eq_true_iff, List.any_eq_true,
    List.elem_iff, List.contains]

theorem patterns_ne_none_iff (recent : List HistoryEntry) :
    ((highResult recent).patterns ≠ none ↔ recent.length > 0) ∧
    ((mediumResult recent).patterns ≠ none ↔ recent.length > 0) ∧
    ((lowResult recent).patterns ≠ none ↔ recent.length > 0) := by
  unfold highResult mediumResult lowResult
  by_cases h : recent.length > 0
  · simp only [h, if_true]
    simp
  · simp only [h, if_false]
    simp

/-- C6: when the history dates were written by `toISOString` at their recording
times (four-digit years) the classifier returns a result whose pattern note is
non-null if and only if some history entry was recorded later than
`now - 7 days` and shares a tag with the current tag list, whatever the tier. -/
theorem C6_pattern_note_iff (symptomHistory : List HistoryEntry)
    (recordedAt : HistoryEntry → Int) (now : Int) (symptoms : List String) (severity : Int)
    (duration : String) (hnow : FourDigitYear (now - 604800000))
    (hdates : ∀ h ∈ symptomHistory,
      FourDigitYear (recordedAt h) ∧ toISOString (recordedAt h) = some h.date) :
    ∃ r, getAIRecommendation symptomHistory now symptoms severity duration = some r ∧
      (r.patterns ≠ none ↔
        ∃ h ∈ symptomHistory, recordedAt h > now - 604800000 ∧
          ∃ s ∈ h.symptoms, s ∈ symptoms) := by
  have hclock := cutoffValid_of_fourDigitYear now hnow
  have hp := patterns_ne_none_iff (recentList symptomHistory now symptoms)
  have hr := recent_pos_iff symptomHistory recordedAt (now - 604800000) symptoms
  rw [← recentList_chrono symptomHistory recordedAt now symptoms hnow hdates] at hr
  rcases getAIRecommendation_cases symptomHistory now symptoms severity duration hclock with
    ⟨_, e⟩ | ⟨_, _, e⟩ | ⟨_, _, e⟩
  · exact ⟨_, e, hp.1.trans hr⟩
  · exact ⟨_, e, hp.2.1.trans hr⟩
  · exact ⟨_, e, hp.2.2.trans hr⟩

/-- Witness of C6: an entry tagged `headache` recorded 2 days before `now` and a
current report tagged `headache` (severity 5, `1-6 hours`) give a Medium result
with a non-null pattern note. -/
theorem C6_pattern_note_iff_witness :
    toISOString (1700000000000 - 2 * 86400000) = some "2023-11-12T22:13:20.000Z" ∧
      ∃ r, getAIRecommendation [⟨["headache"], 5, "2023-11-12T22:13:20.000Z", none⟩]
          1700000000000 ["headache"] 5 "1-6 hours" = some r ∧
        r.severity = "Medium" ∧ r.patterns ≠ none := by
  have hiso : toISOString (1700000000000 - 2 * 86400000) = some "2023-11-12T22:13:20.000Z" := by
    decide
  obtain ⟨r, e, h⟩ := C6_pattern_note_iff
    [⟨["headache"], 5, "2023-11-12T22:13:20.000Z", none⟩]
    (fun _ => 1700000000000 - 2 * 86400000) 1700000000000 ["headache"] 5 "1-6 hours"
    (by unfold FourDigitYear; norm_num)
    (by
      intro x hx
      rw [List.mem_singleton] at hx
      rw [hx]
      exact ⟨by unfold FourDigitYear; norm_num, hiso⟩)
  have e2 : getAIRecommendation [⟨["headache"], 5, "2023-11-12T22:13:20.000Z", none⟩]
      1700000000000 ["headache"] 5 "1-6 hours"
      = some (mediumResult [⟨["headache"], 5, "2023-11-12T22:13:20.000Z", none⟩]) := rfl
  have hr : r = mediumResult [⟨["headache"], 5, "2023-11-12T22:13:20.000Z", none⟩] :=
    Option.some.inj (e.symm.trans e2)
  refine ⟨hiso, r, e, by rw [hr]; rfl, h.2 ⟨_, List.mem_singleton.2 rfl, by norm_num, ?_⟩⟩
  exact ⟨"headache", by simp, by simp⟩

/-- C7: under the hypotheses of C6, a pattern note that is present is determined
by the tier: for High it is `Similar symptoms reported N times recently` with N
the number of history entries recorded later than `now - 7 days` that share a
tag with the current report, for Medium it is `Recurring pattern detected`,
for Low it is `Mild recurring symptoms`. -/
theorem C7_pattern_note_text (symptomHistory : List HistoryEntry)
    (recordedAt : HistoryEntry → Int) (now : Int) (symptoms : List String) (severity : Int)
    (duration : String) (hnow : FourDigitYear (now - 604800000))
    (hdates : ∀ h ∈ symptomHistory,
      FourDigitYear (recordedAt h) ∧ toISOString (recordedAt h) = some h.date) :
    ∃ r, getAIRecommendation symptomHistory now symptoms severity duration = some r ∧
      ∀ note, r.patterns = some note →
        (r.severity = "High" →
          note = "Similar symptoms reported " ++
            toString (symptomHistory.filter (fun h =>
              decide (recordedAt h > now - 604800000) &&
                h.symptoms.any (fun s => symptoms.contains s))).length ++
            " times recently") ∧
        (r.severity = "Medium" → note = "Recurring pattern detected") ∧
        (r.severity = "Low" → note = "Mild recurring symptoms") := by
  have hclock := cutoffValid_of_fourDigitYear now hnow
  have hc := recentList_chrono symptomHistory recordedAt now symptoms hnow hdates
  rcases getAIRecommendation_cases symptomHistory now symptoms severity duration hclock with
    ⟨_, e⟩ | ⟨_, _, e⟩ | ⟨_, _, e⟩
  · refine ⟨_, e, fun note hn => ⟨fun _ => ?_, fun h => ?_, fun h => ?_⟩⟩
    · rw [← hc]
      unfold highResult at hn
      simp only at hn
      split_ifs at hn
      exact (Option.some.inj hn).symm
    · exact absurd h (show ¬ ("High" : String) = "Medium" by decide)
    · exact absurd h (show ¬ ("High" : String) = "Low" by decide)
  · refine ⟨_, e, fun note hn => ⟨fun h => ?_, fun _ => ?_, fun h => ?_⟩⟩
    · exact absurd h (show ¬ ("Medium" : String) = "High" by decide)
    · unfold mediumResult at hn
      simp only at hn
      split_ifs at hn
      exact (Option.some.inj hn).symm
    · exact absurd h (show ¬ ("Medium" : String) = "Low" by decide)
  · refine ⟨_, e, fun note hn => ⟨fun h => ?_, fun h => ?_, fun _ => ?_⟩⟩
    · exact absurd h (show ¬ ("Low" : String) = "High" by decide)
    · exact absurd h (show ¬ ("Low" : String) = "Medium" by decide)
    · unfold lowResult at hn
      simp only at hn
      split_ifs at hn
      exact (Option.some.inj hn).symm

/-- Witness of C7: two of three `chest pain` entries are within 7 days, and the
High note reports the count 2. -/
theorem C7_pattern_note_text_witness :
    ∃ r, getAIRecommendation
        [⟨["chest pain"], 9, "2023-11-13T22:13:20.000Z", none⟩,
          ⟨["chest pain"], 9, "2023-11-11T22:13:20.000Z", none⟩,
          ⟨["chest pain"], 9, "2023-11-04T22:13:20.000Z", none⟩]
        1700000000000 ["chest pain"] 5 "" = some r ∧
      r.severity = "High" ∧
      ∀ note, r.patterns = some note → note = "Similar symptoms reported 2 times recently" := by
  obtain ⟨r, e, h⟩ := C7_pattern_note_text
    [⟨["chest pain"], 9, "2023-11-13T22:13:20.000Z", none⟩,
      ⟨["chest pain"], 9, "2023-11-11T22:13:20.000Z", none⟩,
      ⟨["chest pain"], 9, "2023-11-04T22:13:20.000Z", none⟩]
    (fun h => if h.date = "2023-11-13T22:13:20.000Z" then 1699913600000
      else if h.date = "2023-11-11T22:13:20.000Z" then 1699740800000 else 1699136000000)
    1700000000000 ["chest pain"] 5 ""
    (by unfold FourDigitYear; norm_num)
    (by
      intro x hx
      simp only [List.mem_cons, List.mem_singleton, List.not_mem_nil, or_false] at hx
      rcases hx with rfl | rfl | rfl
      · exact ⟨by unfold FourDigitYear; decide, by decide⟩
      · exact ⟨by unfold FourDigitYear; decide, by decide⟩
      · exact ⟨by unfold FourDigitYear; decide, by decide⟩)
  have e2 : getAIRecommendation
      [⟨["chest pain"], 9, "2023-11-13T22:13:20.000Z", none⟩,
        ⟨["chest pain"], 9, "2023-11-11T22:13:20.000Z", none⟩,
        ⟨["chest pain"], 9, "2023-11-04T22:13:20.000Z", none⟩]
      1700000000000 ["chest pain"] 5 ""
      = some (highResult [⟨["chest pain"], 9, "2023-11-13T22:13:20.000Z", none⟩,
          ⟨["chest pain"], 9, "2023-11-11T22:13:20.000Z", none⟩]) := rfl
  have hr := Option.some.inj (e.symm.trans e2)
  have hs : r.severity = "High" := by rw [hr]; rfl
  refine ⟨r, e, hs, fun note hn => ?_⟩
  rw [((h note hn).1 hs)]
  decide

/-- C10, the claim fails: with the same history, tags, severity and duration,
a call made on 2023-11-14 returns the note `Recurring pattern detected` and a
call made 30 days later returns no note, so the two results differ. -/
theorem C10_time_dependence_counterexample :
    (∃ r1 r2,
      getAIRecommendation [⟨["headache"], 5, "2023-11-12T22:13:20.000Z", none⟩]
        1700000000000 ["headache"] 5 "1-6 hours" = some r1 ∧
      getAIRecommendation [⟨["headache"], 5, "2023-11-12T22:13:20.000Z", none⟩]
        1702592000000 ["headache"] 5 "1-6 hours" = some r2 ∧
      r1.patterns = some "Recurring pattern detected" ∧ r2.patterns = none) ∧
    getAIRecommendation [⟨["headache"], 5, "2023-11-12T22:13:20.000Z", none⟩]
        1700000000000 ["headache"] 5 "1-6 hours"
      ≠ getAIRecommendation [⟨["headache"], 5, "2023-11-12T22:13:20.000Z", none⟩]
        1702592000000 ["headache"] 5 "1-6 hours" := by
  have e1 : getAIRecommendation [⟨["headache"], 5, "2023-11-12T22:13:20.000Z", none⟩]
      1700000000000 ["headache"] 5 "1-6 hours"
      = some (mediumResult [⟨["headache"], 5, "2023-11-12T22:13:20.000Z", none⟩]) := rfl
  have e2 : getAIRecommendation [⟨["headache"], 5, "2023-11-12T22:13:20.000Z", none⟩]
      1702592000000 ["headache"] 5 "1-6 hours" = some (mediumResult []) := rfl
  refine ⟨⟨_, _, e1, e2, rfl, rfl⟩, ?_⟩
  rw [e1, e2]
  intro h
  have hp := congrArg Assessment.patterns (Option.some.inj h)
  exact absurd hp (show ¬ (some "Recurring pattern detected" : Option String) = none by decide)

theorem getAIRecommendation_eq_classify (symptomHistory : List HistoryEntry) (now : Int)
    (symptoms : List String) (severity : Int) (duration : String) (h : CutoffValid now) :
    getAIRecommendation symptomHistory now symptoms severity duration
      = some (classify symptoms severity duration (recentList symptomHistory now symptoms)) := by
  unfold getAIRecommendation classify
  simp only [recentSimilar_eq symptomHistory now symptoms h]
  by_cases c1 : (symptoms.any (fun s => jsIncludes s "chest pain" || jsIncludes s "heart") ||
      (decide (severity ≥ 8) && (jsIncludes duration "days" || jsIncludes duration "week")))
      = true
  · rw [if_pos c1, if_pos c1]
    rfl
  · rw [if_neg c1, if_neg c1]
    by_cases c2 : (symptoms.any (fun s => jsIncludes s "headache" || jsIncludes s "dizziness") ||
        (decide (severity ≥ 6) && (jsIncludes duration "days" || jsIncludes duration "week")))
        = true
    · rw [if_pos c2, if_pos c2]
      rfl
    · rw [if_neg c2, if_neg c2]
      rfl

theorem classify_fields (symptoms : List String) (severity : Int) (duration : String)
    (l1 l2 : List HistoryEntry) :
    (classify symptoms severity duration l1).severity
        = (classify symptoms severity duration l2).severity ∧
      (classify symptoms severity duration l1).recommendation
        = (classify symptoms severity duration l2).recommendation ∧
      (classify symptoms severity duration l1).actions
        = (classify symptoms severity duration l2).actions ∧
      (classify symptoms severity duration l1).confidence
        = (classify symptoms severity duration l2).confidence := by
  unfold classify
  split_ifs <;> exact ⟨rfl, rfl, rfl, rfl⟩

/-- C10 as amended: two calls with the same history, tags, severity and duration
made at two moments return results with the same tier, recommendation, actions
and confidence; and the whole results (pattern note included) are identical
when every history entry lies on the same side of the two 7-day cutoffs. -/
theorem C10_same_result_same_window (symptomHistory : List HistoryEntry)
    (recordedAt : HistoryEntry → Int) (now1 now2 : Int) (symptoms : List String)
    (severity : Int) (duration : String)
    (hnow1 : FourDigitYear (now1 - 604800000)) (hnow2 : FourDigitYear (now2 - 604800000))
    (hdates : ∀ h ∈ symptomHistory,
      FourDigitYear (recordedAt h) ∧ toISOString (recordedAt h) = some h.date) :
    ∃ r1 r2,
      getAIRecommendation symptomHistory now1 symptoms severity duration = some r1 ∧
      getAIRecommendation symptomHistory now2 symptoms severity duration = some r2 ∧
      r1.severity = r2.severity ∧ r1.recommendation = r2.recommendation ∧
      r1.actions = r2.actions ∧ r1.confidence = r2.confidence ∧
      ((∀ h ∈ symptomHistory,
          (recordedAt h > now1 - 604800000 ↔ recordedAt h > now2 - 604800000)) →
        r1 = r2) := by
  have e1 := getAIRecommendation_eq_classify symptomHistory now1 symptoms severity duration
    (cutoffValid_of_fourDigitYear now1 hnow1)
  have e2 := getAIRecommendation_eq_classify symptomHistory now2 symptoms severity duration
    (cutoffValid_of_fourDigitYear now2 hnow2)
  have hf := classify_fields symptoms severity duration
    (recentList symptomHistory now1 symptoms) (recentList symptomHistory now2 symptoms)
  refine ⟨_, _, e1, e2, hf.1, hf.2.1, hf.2.2.1, hf.2.2.2, fun hside => ?_⟩
  have hl : recentList symptomHistory now1 symptoms = recentList symptomHistory now2 symptoms := by
    rw [recentList_chrono symptomHistory recordedAt now1 symptoms hnow1 hdates,
      recentList_chrono symptomHistory recordedAt now2 symptoms hnow2 hdates]
    apply List.filter_congr
    intro h hh
    have : decide (recordedAt h > now1 - 604800000) = decide (recordedAt h > now2 - 604800000) :=
      decide_eq_decide.2 (hside h hh)
    rw [this]
  rw [hl]

/-- Witness of C10: two calls one second apart, with a history entry recorded 2
days earlier, return the same result. -/
theorem C10_same_result_same_window_witness :
    getAIRecommendation [⟨["headache"], 5, "2023-11-12T22:13:20.000Z", none⟩]
        1700000000000 ["headache"] 5 "1-6 hours"
      = getAIRecommendation [⟨["headache"], 5, "2023-11-12T22:13:20.000Z", none⟩]
        1700000001000 ["headache"] 5 "1-6 hours" := by
  obtain ⟨r1, r2, e1, e2, _, _, _, _, h⟩ := C10_same_result_same_window
    [⟨["headache"], 5, "2023-11-12T22:13:20.000Z", none⟩]
    (fun _ => 1699827200000) 1700000000000 1700000001000 ["headache"] 5 "1-6 hours"
    (by unfold FourDigitYear; norm_num) (by unfold FourDigitYear; norm_num)
    (by
      intro x hx
      rw [List.mem_singleton] at hx
      rw [hx]
      exact ⟨by unfold FourDigitYear; norm_num, by decide⟩)
  rw [e1, e2, h (fun _ _ => by norm_num)]

/-! ## Lemmas on `split`, `parseInt` and decimal numerals -/

theorem splitChars_head (sep : Char) (l : List Char) :
    (splitChars sep l).head? = some (l.takeWhile (fun c => c != sep)) := by
  induction l with
  | nil => rfl
  | cons c cs ih =>
    by_cases h : c = sep
    · simp [splitChars, h]
    · cases hs : splitChars sep cs with
      | nil => simp [hs] at ih
      | cons p ps =>
        simp only [hs, List.head?_cons, Option.some.injEq] at ih
        simp [splitChars, h, hs, ih]

theorem digitValue_digitChar (m : Nat) (h : m < 10) :
    digitValue 10 (Nat.digitChar m) = some m ∧ IsDecDigit (Nat.digitChar m) := by
  unfold IsDecDigit
  interval_cases m <;> exact ⟨rfl, by decide⟩

theorem digitValue_of_isDecDigit (c : Char) (h : IsDecDigit c) :
    digitValue 10 c = some (c.toNat - 48) := by
  unfold IsDecDigit at h
  unfold digitValue
  simp only [h.1, h.2, and_self, if_true]
  rw [if_pos (by omega)]

theorem parseDigits_append (pre rest : List Char) (hpre : ∀ c ∈ pre, IsDecDigit c)
    (acc : Nat) (seen : Bool) :
    parseDigits 10 (pre ++ rest) acc seen
      = parseDigits 10 rest (decValue acc pre) (seen || !pre.isEmpty) := by
  induction pre generalizing acc seen with
  | nil => simp [decValue]
  | cons c cs ih =>
    have hc := digitValue_of_isDecDigit c (hpre c (by simp))
    rw [List.cons_append, parseDigits]
    simp only [hc]
    rw [ih (fun x hx => hpre x (List.mem_cons_of_mem _ hx))]
    simp [decValue]

theorem toDigitsCore_spec (fuel : Nat) : ∀ (n : Nat) (ds : List Char), n < fuel →
    ∃ pre, Nat.toDigitsCore 10 fuel n ds = pre ++ ds ∧ pre ≠ [] ∧
      (∀ c ∈ pre, IsDecDigit c) ∧ ∀ acc, decValue acc pre = acc * 10 ^ pre.length + n := by
  induction fuel with
  | zero => intro n ds h; omega
  | succ fuel ih =>
    intro n ds h
    have hd := digitValue_digitChar (n % 10) (Nat.mod_lt _ (by norm_num))
    have hv : (Nat.digitChar (n % 10)).toNat - 48 = n % 10 := by
      have := digitValue_of_isDecDigit _ hd.2
      rw [hd.1] at this
      exact (Option.some.inj this).symm
    unfold Nat.toDigitsCore
    by_cases h0 : n / 10 = 0
    · refine ⟨[Nat.digitChar (n % 10)], by simp [h0], by simp, ?_, ?_⟩
      · intro c hc
        rw [List.mem_singleton] at hc
        exact hc ▸ hd.2
      · intro acc
        simp only [decValue, List.foldl_cons, List.foldl_nil, hv, List.length_singleton, pow_one]
        omega
    · obtain ⟨pre, e, _, hall, hval⟩ := ih (n / 10) (Nat.digitChar (n % 10) :: ds) (by omega)
      refine ⟨pre ++ [Nat.digitChar (n % 10)], by simp [h0, e], by simp, ?_, ?_⟩
      · intro c hc
        rw [List.mem_append, List.mem_singleton] at hc
        rcases hc with hc | hc
        · exact hall c hc
        · exact hc ▸ hd.2
      · intro acc
        have := hval acc
        simp only [decValue] at this
        simp only [decValue, List.foldl_append, List.foldl_cons, List.foldl_nil, hv, this,
          List.length_append, List.length_singleton, pow_succ]
        have := Nat.div_add_mod n 10
        nlinarith

theorem isDecDigit_not_space (c : Char) (h : IsDecDigit c) : isStrWhiteSpaceChar c = false := by
  unfold IsDecDigit at h
  unfold isStrWhiteSpaceChar
  simp only [Bool.or_eq_false_iff, decide_eq_false_iff_not, Bool.and_eq_false_imp,
    decide_eq_true_eq]
  omega

theorem isDecDigit_ne (c : Char) (h : IsDecDigit c) (k : Char) (hk : k.toNat < 48 ∨ 57 < k.toNat) :
    c ≠ k := by
  unfold IsDecDigit at h
  rintro rfl
  omega

theorem parseInt_of_digits (pre : List Char) (hne : pre ≠ []) (hall : ∀ c ∈ pre, IsDecDigit c) :
    parseInt (String.mk pre) = some ((decValue 0 pre : Nat) : Int) := by
  cases pre with
  | nil => exact absurd rfl hne
  | cons c cs =>
    have hc := hall c (by simp)
    have hm : c ≠ '-' := isDecDigit_ne c hc _ (by decide)
    have hp : c ≠ '+' := isDecDigit_ne c hc _ (by decide)
    have hx : ∀ r, cs ≠ 'x' :: r := by
      rintro r rfl
      exact isDecDigit_ne _ (hall 'x' (by simp)) 'x' (by decide) rfl
    have hX : ∀ r, cs ≠ 'X' :: r := by
      rintro r rfl
      exact isDecDigit_ne _ (hall 'X' (by simp)) 'X' (by decide) rfl
    have hd : (c :: cs).dropWhile isStrWhiteSpaceChar = c :: cs := by
      simp [List.dropWhile, isDecDigit_not_space c hc]
    have hs : (match c :: cs with
        | '-' :: r => ((-1 : Int), r)
        | '+' :: r => (1, r)
        | r => (1, r)) = (1, c :: cs) := by
      split
      · rename_i heq
        exact absurd (List.cons.inj heq).1 hm
      · rename_i heq
        exact absurd (List.cons.inj heq).1 hp
      · rfl
    have hr : (match c :: cs with
        | '0' :: 'x' :: r => (16, r)
        | '0' :: 'X' :: r => (16, r)
        | r => (10, r)) = (10, c :: cs) := by
      split
      · rename_i heq
        exact absurd (List.cons.inj heq).2 (hx _)
      · rename_i heq
        exact absurd (List.cons.inj heq).2 (hX _)
      · rfl
    unfold parseInt
    simp only [hd, hs, hr]
    have := parseDigits_append (c :: cs) [] hall 0 false
    rw [List.append_nil] at this
    rw [this]
    simp [parseDigits]

theorem toString_nat_data (n : Nat) :
    ∃ pre, (toString n).data = pre ∧ pre ≠ [] ∧ (∀ c ∈ pre, IsDecDigit c) ∧
      decValue 0 pre = n := by
  obtain ⟨pre, e, hne, hall, hval⟩ := toDigitsCore_spec (n + 1) n [] (by omega)
  refine ⟨pre, ?_, hne, hall, ?_⟩
  · show (Nat.repr n).data = pre
    unfold Nat.repr Nat.toDigits
    rw [e, List.append_nil]
    rfl
  · have := hval 0
    omega

theorem systolicOf_bpValue (v : Vital) (systolic : Nat) (rest : String)
    (hv : v.value = toString systolic ++ "/" ++ rest) :
    systolicOf v = some (systolic : Int) := by
  obtain ⟨pre, e, hne, hall, hval⟩ := toString_nat_data systolic
  have hdata : v.value.data = pre ++ '/' :: rest.data := by
    rw [hv, String.data_append, String.data_append, e]
    simp
  have htw : (pre ++ '/' :: rest.data).takeWhile (fun c => c != '/') = pre := by
    rw [List.takeWhile_append_of_pos]
    · simp
    · intro c hc
      have := isDecDigit_ne c (hall c hc) '/' (by decide)
      simpa using this
  unfold systolicOf jsSplit
  rw [List.head?_map, splitChars_head, hdata, htw]
  simp only [Option.map_some']
  rw [parseInt_of_digits pre hne hall, hval]

theorem systolicOf_eq (v : Vital) : systolicOf v = parseInt (beforeFirstSlash v.value) := by
  unfold systolicOf jsSplit beforeFirstSlash
  rw [List.head?_map, splitChars_head]
  rfl

theorem jsNumGt_iff (x : Option Int) (k : Int) :
    jsNumGt x k = true ↔ ∃ n : Int, x = some n ∧ n > k := by
  cases x with
  | none => simp [jsNumGt]
  | some n => simp [jsNumGt]

theorem risk_level_eq (vitals : List Vital) (symptoms : List String) (member : User) :
    (getAIHealthInsight vitals symptoms member).risk_level
      = if vitals.any (fun v => v.type == "bp" && jsNumGt (systolicOf v) 140) then "high"
        else "low" := rfl

theorem risk_high_iff (vitals : List Vital) (symptoms : List String) (member : User) :
    (getAIHealthInsight vitals symptoms member).risk_level = "high" ↔
      ∃ v ∈ vitals, v.type = "bp" ∧ jsNumGt (systolicOf v) 140 = true := by
  rw [risk_level_eq]
  by_cases h : vitals.any (fun v => v.type == "bp" && jsNumGt (systolicOf v) 140) = true
  · rw [if_pos h]
    simp only [List.any_eq_true, Bool.and_eq_true, beq_iff_eq] at h
    simpa using h
  · rw [if_neg h]
    simp only [List.any_eq_true, Bool.and_eq_true, beq_iff_eq] at h
    constructor
    · intro e
      exact absurd e (by decide)
    · intro e
      exact absurd e h

/-! ## Claims on the vitals insight stub -/

/-- C8: `getAIHealthInsight` reports risk level `high` exactly when some vital
has type `bp` and `parseInt` of the part of its value before the first `/` is
greater than 140, and `low` otherwise; vitals of another type do not affect the
result; and when every `bp` value is written `systolic/rest` with a decimal
systolic number, the level is `high` exactly when some `bp` systolic exceeds
140. -/
theorem C8_risk_level (vitals : List Vital) (symptoms : List String) (member : User) :
    ((getAIHealthInsight vitals symptoms member).risk_level = "high" ↔
      ∃ v ∈ vitals, v.type = "bp" ∧
        ∃ n : Int, parseInt (beforeFirstSlash v.value) = some n ∧ n > 140) ∧
    ((getAIHealthInsight vitals symptoms member).risk_level ≠ "high" →
      (getAIHealthInsight vitals symptoms member).risk_level = "low") ∧
    ((getAIHealthInsight vitals symptoms member).risk_level
      = (getAIHealthInsight (vitals.filter (fun v => v.type == "bp")) symptoms
          member).risk_level) ∧
    (∀ systolic : Vital → Nat,
      (∀ v ∈ vitals, v.type = "bp" → ∃ rest, v.value = toString (systolic v) ++ "/" ++ rest) →
      ((getAIHealthInsight vitals symptoms member).risk_level = "high" ↔
        ∃ v ∈ vitals, v.type = "bp" ∧ systolic v > 140)) := by
  refine ⟨?_, ?_, ?_, ?_⟩
  · rw [risk_high_iff]
    simp only [jsNumGt_iff, systolicOf_eq]
  · intro h
    rw [risk_level_eq] at h ⊢
    by_cases c : vitals.any (fun v => v.type == "bp" && jsNumGt (systolicOf v) 140) = true
    · rw [if_pos c] at h
      exact absurd rfl h
    · rw [if_neg c]
  · have e : (vitals.filter (fun v => v.type == "bp")).any
        (fun v => v.type == "bp" && jsNumGt (systolicOf v) 140)
        = vitals.any (fun v => v.type == "bp" && jsNumGt (systolicOf v) 140) := by
      induction vitals with
      | nil => rfl
      | cons v vs ih =>
        by_cases hb : (v.type == "bp") = true
        · simp only [List.filter_cons, hb, if_true, List.any_cons, ih]
        · simp only [List.filter_cons, hb, if_false, List.any_cons, ih]
          simp [hb]
    rw [risk_level_eq, risk_level_eq, e]
  · intro systolic hform
    rw [risk_high_iff]
    constructor
    · rintro ⟨v, hv, hb, hg⟩
      obtain ⟨rest, hr⟩ := hform v hv hb
      rw [systolicOf_bpValue v (systolic v) rest hr] at hg
      refine ⟨v, hv, hb, ?_⟩
      simpa [jsNumGt] using hg
    · rintro ⟨v, hv, hb, hg⟩
      obtain ⟨rest, hr⟩ := hform v hv hb
      refine ⟨v, hv, hb, ?_⟩
      rw [systolicOf_bpValue v (systolic v) rest hr]
      simpa [jsNumGt] using hg

/-- Witness of C8: a `bp` reading `145/90` gives `high`; readings `140/90` and
`120/80` together with a weight of 200 give `low`. -/
theorem C8_risk_level_witness :
    (getAIHealthInsight [⟨"1", "bp", "145/90", "mmHg", "", "u"⟩] []
        ⟨"u", "patient", "n", "e", none, 30, "male", "f", none, "t", none, none, none⟩).risk_level
      = "high" ∧
    (getAIHealthInsight
        [⟨"1", "bp", "140/90", "mmHg", "", "u"⟩, ⟨"2", "weight", "200", "kg", "", "u"⟩,
          ⟨"3", "bp", "120/80", "mmHg", "", "u"⟩] []
        ⟨"u", "patient", "n", "e", none, 30, "male", "f", none, "t", none, none, none⟩).risk_level
      = "low" := by
  constructor
  · exact ((C8_risk_level [⟨"1", "bp", "145/90", "mmHg", "", "u"⟩] []
      ⟨"u", "patient", "n", "e", none, 30, "male", "f", none, "t", none, none, none⟩).2.2.2
      (fun _ => 145) (by
        intro v hv _
        rw [List.mem_singleton] at hv
        exact ⟨"90", by rw [hv]; decide⟩)).2 ⟨_, List.mem_singleton.2 rfl, rfl, by decide⟩
  · apply (C8_risk_level _ [] _).2.1
    decide

/-- C9: for every vitals list, symptom list and member, `getAIHealthInsight`
returns the same three recommendations, the same trend sentence and confidence
0.87, and its result is never the fallback (`unknown`, confidence 0). -/
theorem C9_fixed_fields (vitals : List Vital) (symptoms : List String) (member : User) :
    (getAIHealthInsight vitals symptoms member).recommendations
      = ["Monitor blood pressure regularly", "Consider reducing sodium intake",
          "Increase physical activity gradually"] ∧
    (getAIHealthInsight vitals symptoms member).predicted_trends
      = "Blood pressure may increase by 5% over the next month based on current patterns" ∧
    (getAIHealthInsight vitals symptoms member).confidence = 0.87 ∧
    (getAIHealthInsight vitals symptoms member).risk_level ≠ "unknown" ∧
    (getAIHealthInsight vitals symptoms member).confidence ≠ 0 ∧
    getAIHealthInsight vitals symptoms member ≠ fallbackInsight := by
  have hc : (getAIHealthInsight vitals symptoms member).confidence = 0.87 := rfl
  have hr : (getAIHealthInsight vitals symptoms member).risk_level ≠ "unknown" := by
    rw [risk_level_eq]
    split <;> decide
  refine ⟨rfl, rfl, hc, hr, ?_, ?_⟩
  · rw [hc]
    norm_num
  · intro h
    rw [h] at hr
    exact hr rfl

/-! ## Lemmas on JavaScript numbers and array maps -/

namespace JsNum

theorem lit_eq (n : Nat) : (OfNat.ofNat n : JsNum) = fin (n : ℚ) := rfl

theorem ofNat_eq (n : Nat) : ofNat n = fin (n : ℚ) := rfl

theorem fin_add (a b : ℚ) : fin a + fin b = fin (a + b) := rfl

theorem fin_sub (a b : ℚ) : fin a - fin b = fin (a - b) := by
  show add (fin a) (neg (fin b)) = fin (a - b)
  simp only [neg, add, sub_eq_add_neg]

theorem fin_mul (a b : ℚ) : fin a * fin b = fin (a * b) := rfl

theorem fin_div (a b : ℚ) (h : b ≠ 0) : fin a / fin b = fin (a / b) := by
  show div (fin a) (fin b) = fin (a / b)
  simp only [div, h, if_false]

theorem zero_div_zero : fin 0 / fin 0 = nan := by
  show div (fin 0) (fin 0) = nan
  simp [div]

theorem nan_add (x : JsNum) : nan + x = nan := by
  cases x <;> rfl

theorem add_nan (x : JsNum) : x + nan = nan := by
  cases x <;> rfl

theorem nan_mul (x : JsNum) : nan * x = nan := rfl

theorem mul_nan (x : JsNum) : x * nan = nan := by
  cases x <;> rfl

theorem nan_div (x : JsNum) : nan / x = nan := by
  cases x <;> rfl

theorem nan_sub (x : JsNum) : nan - x = nan := by
  cases x <;> rfl

theorem sub_nan (x : JsNum) : x - nan = nan := by
  cases x <;> rfl

theorem or_fin (a : ℚ) (b : JsNum) : JsNum.or (fin a) b = if a = 0 then b else fin a := by
  unfold JsNum.or truthy
  by_cases h : a = 0 <;> simp [h]

theorem max2_fin (a b : ℚ) : max2 (fin a) (fin b) = fin (max a b) := by
  unfold max2 gt
  by_cases h : a < b
  · simp [h, max_eq_right (le_of_lt h)]
  · simp [h, max_eq_left (not_lt.1 h)]

theorem min2_fin (a b : ℚ) : min2 (fin a) (fin b) = fin (min a b) := by
  unfold min2 gt
  by_cases h : b < a
  · simp [h, min_eq_right (le_of_lt h)]
  · simp [h, min_eq_left (not_lt.1 h)]

theorem foldl_max2_fin (l : List ℚ) (a : ℚ) :
    (l.map fin).foldl max2 (fin a) = fin (l.foldl max a) := by
  induction l generalizing a with
  | nil => rfl
  | cons v vs ih => simp only [List.map_cons, List.foldl_cons, max2_fin, ih]

theorem foldl_min2_fin (l : List ℚ) (a : ℚ) :
    (l.map fin).foldl min2 (fin a) = fin (l.foldl min a) := by
  induction l generalizing a with
  | nil => rfl
  | cons v vs ih => simp only [List.map_cons, List.foldl_cons, min2_fin, ih]

end JsNum

theorem foldl_max_spec (l : List ℚ) (a : ℚ) :
    (l.foldl max a = a ∨ l.foldl max a ∈ l) ∧ a ≤ l.foldl max a ∧ ∀ x ∈ l, x ≤ l.foldl max a := by
  induction l generalizing a with
  | nil => simp
  | cons v vs ih =>
    obtain ⟨h1, h2, h3⟩ := ih (max a v)
    simp only [List.foldl_cons, List.mem_cons]
    refine ⟨?_, le_trans (le_max_left a v) h2, ?_⟩
    · rcases h1 with h | h
      · rcases max_choice a v with c | c
        · left; rw [h, c]
        · right; left; rw [h, c]
      · right; right; exact h
    · rintro x (rfl | hx)
      · exact le_trans (le_max_right a x) h2
      · exact h3 x hx

theorem foldl_min_spec (l : List ℚ) (a : ℚ) :
    (l.foldl min a = a ∨ l.foldl min a ∈ l) ∧ l.foldl min a ≤ a ∧ ∀ x ∈ l, l.foldl min a ≤ x := by
  induction l generalizing a with
  | nil => simp
  | cons v vs ih =>
    obtain ⟨h1, h2, h3⟩ := ih (min a v)
    simp only [List.foldl_cons, List.mem_cons]
    refine ⟨?_, le_trans h2 (min_le_left a v), ?_⟩
    · rcases h1 with h | h
      · rcases min_choice a v with c | c
        · left; rw [h, c]
        · right; left; rw [h, c]
      · right; right; exact h
    · rintro x (rfl | hx)
      · exact le_trans h2 (min_le_right a x)
      · exact h3 x hx

/-- `Math.max` of a non-empty list of finite numbers is its greatest element. -/
theorem mathMax_fin (l : List ℚ) (mx : ℚ) (hmem : mx ∈ l) (hmax : ∀ v ∈ l, v ≤ mx) :
    JsNum.mathMax (l.map JsNum.fin) = JsNum.fin mx := by
  cases l with
  | nil => simp at hmem
  | cons v vs =>
    have e : JsNum.mathMax ((v :: vs).map JsNum.fin) = JsNum.fin (vs.foldl max v) := by
      unfold JsNum.mathMax
      rw [List.map_cons, List.foldl_cons]
      have : JsNum.max2 JsNum.negInf (JsNum.fin v) = JsNum.fin v := rfl
      rw [this, JsNum.foldl_max2_fin]
    rw [e]
    congr 1
    obtain ⟨h1, h2, h3⟩ := foldl_max_spec vs v
    apply le_antisymm
    · rcases h1 with h | h
      · rw [h]; exact hmax v (by simp)
      · exact hmax _ (List.mem_cons_of_mem _ h)
    · rcases List.mem_cons.1 hmem with h | h
      · rw [h]; exact h2
      · exact h3 mx h

/-- `Math.min` of a non-empty list of finite numbers is its least element. -/
theorem mathMin_fin (l : List ℚ) (mn : ℚ) (hmem : mn ∈ l) (hmin : ∀ v ∈ l, mn ≤ v) :
    JsNum.mathMin (l.map JsNum.fin) = JsNum.fin mn := by
  cases l with
  | nil => simp at hmem
  | cons v vs =>
    have e : JsNum.mathMin ((v :: vs).map JsNum.fin) = JsNum.fin (vs.foldl min v) := by
      unfold JsNum.mathMin
      rw [List.map_cons, List.foldl_cons]
      have : JsNum.min2 JsNum.posInf (JsNum.fin v) = JsNum.fin v := rfl
      rw [this, JsNum.foldl_min2_fin]
    rw [e]
    congr 1
    obtain ⟨h1, h2, h3⟩ := foldl_min_spec vs v
    apply le_antisymm
    · rcases List.mem_cons.1 hmem with h | h
      · rw [h]; exact h2
      · exact h3 mn h
    · rcases h1 with h | h
      · rw [h]; exact hmin v (by simp)
      · exact hmin _ (List.mem_cons_of_mem _ h)

theorem jsMapIdx_length {α β : Type} (f : α → Nat → β) (xs : List α) :
    (jsMapIdx f xs).length = xs.length := by
  simp [jsMapIdx]

theorem jsMapIdx_getElem? {α β : Type} (f : α → Nat → β) (xs : List α) (i : Nat) :
    (jsMapIdx f xs)[i]? = xs[i]?.map (fun a => f a i) := by
  simp [jsMapIdx, List.getElem?_enum]
  cases xs[i]? <;> rfl

/-- The `y` coordinates of `LineChart` on a series of finite numbers with least
element `mn` and greatest element `mx`. -/
theorem lineChart_normalizedData (data : List ℚ) (labels : List String) (mn mx : ℚ)
    (hmn : mn ∈ data) (hmin : ∀ v ∈ data, mn ≤ v) (hmx : mx ∈ data) (hmax : ∀ v ∈ data, v ≤ mx) :
    (lineChart (data.map JsNum.fin) labels).normalizedData
      = data.map (fun v =>
          JsNum.fin (130 - (v - mn) / (if mx - mn = 0 then 1 else mx - mn) * 110)) := by
  unfold lineChart
  simp only [mathMax_fin data mx hmx hmax, mathMin_fin data mn hmn hmin, List.map_map]
  apply List.map_congr_left
  intro v _
  simp only [Function.comp, JsNum.lit_eq, JsNum.fin_sub, JsNum.fin_mul, JsNum.or_fin]
  by_cases h : mx - mn = 0
  · simp only [h, if_true]
    rw [JsNum.fin_div _ _ (by norm_num), JsNum.fin_mul, JsNum.fin_sub]
    norm_num
  · simp only [h, if_false]
    rw [JsNum.fin_div _ _ h, JsNum.fin_mul, JsNum.fin_sub]
    norm_num

/-! ## Claims on `LineChart` -/

theorem lineChart_points_snd (data : List JsNum) (labels : List String) :
    (lineChart data labels).points.map Prod.snd = (lineChart data labels).normalizedData := by
  unfold lineChart jsMapIdx
  simp only [List.map_map]
  exact List.enum_map_snd _

theorem lineChart_normalizedData_length (data : List JsNum) (labels : List String) :
    (lineChart data labels).normalizedData.length = data.length := by
  unfold lineChart
  simp only [List.length_map]

theorem lineChart_x (n i : Nat) (hn : 2 ≤ n) :
    (20 : JsNum) + (JsNum.ofNat i / (JsNum.ofNat n - 1)) * (300 - 20 * 2)
      = JsNum.fin (lineX n i) := by
  have h : ((n : ℚ) - ((1 : ℕ) : ℚ)) ≠ 0 := by
    have : (2 : ℚ) ≤ n := by exact_mod_cast hn
    norm_num
    intro e
    linarith
  simp only [JsNum.lit_eq, JsNum.ofNat_eq, JsNum.fin_sub, JsNum.fin_mul]
  rw [JsNum.fin_div _ _ h, JsNum.fin_mul, JsNum.fin_add]
  unfold lineX
  norm_num

theorem lineChart_points_fst (data : List JsNum) (labels : List String) :
    (lineChart data labels).points.map Prod.fst
      = (List.range data.length).map (fun i =>
          (20 : JsNum) + (JsNum.ofNat i / (JsNum.ofNat data.length - 1)) * (300 - 20 * 2)) := by
  have hl := lineChart_normalizedData_length data labels
  unfold lineChart at hl ⊢
  unfold jsMapIdx
  simp only [List.map_map]
  rw [← hl, ← List.enum_map_fst, List.map_map]
  rfl

/-- C11, the code diverges: for a series of one sample `LineChart` emits exactly
one point and one marker, but their `x` coordinate is `20 + (0/0) * 260`, that
is `NaN`, not the centre 150: the division `i / (data.length - 1)` is a
division of zero by zero. -/
theorem C11_single_sample_x_is_nan (v : JsNum) (labels : List String) :
    (lineChart [v] labels).points.length = 1 ∧
      (lineChart [v] labels).points.map Prod.fst = [JsNum.nan] ∧
      (lineChart [v] labels).circles.map Prod.fst = [JsNum.nan] ∧
      JsNum.ofNat 0 / (JsNum.ofNat [v].length - 1) = JsNum.nan ∧
      JsNum.nan ≠ JsNum.fin 150 := by
  have hx : JsNum.ofNat 0 / (JsNum.ofNat [v].length - 1) = JsNum.nan := by
    simp only [List.length_singleton, JsNum.lit_eq, JsNum.ofNat_eq, JsNum.fin_sub]
    norm_num
    exact JsNum.zero_div_zero
  have hp : (lineChart [v] labels).points.map Prod.fst = [JsNum.nan] := by
    rw [lineChart_points_fst]
    have hr : List.range 1 = [0] := rfl
    simp only [List.length_singleton, hr, List.map_cons, List.map_nil]
    rw [List.length_singleton] at hx
    rw [hx, JsNum.nan_mul, JsNum.add_nan]
  refine ⟨?_, hp, ?_, hx, by decide⟩
  · have := congrArg List.length hp
    simpa using this
  · exact hp

/-- C12: for a non-empty series whose values are all equal, the effective range
`maxValue - minValue || 1` is 1 and every point gets the finite `y` coordinate
130 (`chartHeight - padding`). -/
theorem C12_flat_series_y (data : List ℚ) (labels : List String) (c : ℚ)
    (hne : data ≠ []) (hall : ∀ v ∈ data, v = c) :
    JsNum.or (JsNum.mathMax (data.map JsNum.fin) - JsNum.mathMin (data.map JsNum.fin)) 1
        = JsNum.fin 1 ∧
      (lineChart (data.map JsNum.fin) labels).normalizedData
        = List.replicate data.length (JsNum.fin 130) ∧
      (∀ p ∈ (lineChart (data.map JsNum.fin) labels).points,
        p.2 = JsNum.fin 130 ∧ JsNum.IsFinite p.2) ∧
      (∀ p ∈ (lineChart (data.map JsNum.fin) labels).circles,
        p.2 = JsNum.fin 130 ∧ JsNum.IsFinite p.2) := by
  have hc : c ∈ data := by
    cases data with
    | nil => exact absurd rfl hne
    | cons v vs =>
      have := hall v (by simp)
      rw [← this]
      simp
  have hle : ∀ v ∈ data, c ≤ v := fun v hv => le_of_eq (hall v hv).symm
  have hge : ∀ v ∈ data, v ≤ c := fun v hv => le_of_eq (hall v hv)
  have hnd : (lineChart (data.map JsNum.fin) labels).normalizedData
      = List.replicate data.length (JsNum.fin 130) := by
    rw [lineChart_normalizedData data labels c c hc hle hc hge, List.eq_replicate_iff]
    refine ⟨by simp, ?_⟩
    intro b hb
    obtain ⟨v, hv, rfl⟩ := List.mem_map.1 hb
    rw [hall v hv]
    norm_num
  have hy : ∀ y ∈ (lineChart (data.map JsNum.fin) labels).normalizedData,
      y = JsNum.fin 130 ∧ JsNum.IsFinite y := by
    intro y hy
    rw [hnd] at hy
    rw [(List.mem_replicate.1 hy).2]
    exact ⟨rfl, trivial⟩
  refine ⟨?_, hnd, ?_, ?_⟩
  · rw [mathMax_fin data c hc hge, mathMin_fin data c hc hle, JsNum.fin_sub, JsNum.or_fin]
    simp
    rfl
  · intro p hp
    apply hy
    rw [← lineChart_points_snd]
    exact List.mem_map_of_mem _ hp
  · intro p hp
    apply hy
    rw [← lineChart_points_snd]
    exact List.mem_map_of_mem _ hp

/-- Witness of C12: the series 5, 5, 5. -/
theorem C12_flat_series_y_witness :
    (lineChart ([5, 5, 5].map JsNum.fin) ["a", "b", "c"]).normalizedData
      = [JsNum.fin 130, JsNum.fin 130, JsNum.fin 130] :=
  (C12_flat_series_y [5, 5, 5] ["a", "b", "c"] 5 (by simp) (by simp)).2.1

/-- C13: for a series of finite numbers with least value `mn` and greatest value
`mx`, `mn < mx`, `LineChart` maps the sample `v` to
`y = 130 - (v - mn) / (mx - mn) * 110`: the least sample lands on 130, the
greatest on 20, every `y` lies in `[20, 130]`, and the map reverses order. -/
theorem C13_y_interpolation (data : List ℚ) (labels : List String) (mn mx : ℚ)
    (hmn : mn ∈ data) (hmin : ∀ v ∈ data, mn ≤ v) (hmx : mx ∈ data) (hmax : ∀ v ∈ data, v ≤ mx)
    (hlt : mn < mx) :
    (lineChart (data.map JsNum.fin) labels).normalizedData
        = data.map (fun v => JsNum.fin (lineY mn mx v)) ∧
      (∀ v, lineY mn mx v = 130 - (v - mn) / (mx - mn) * 110) ∧
      lineY mn mx mn = 130 ∧ lineY mn mx mx = 20 ∧
      (∀ v ∈ data, 20 ≤ lineY mn mx v ∧ lineY mn mx v ≤ 130) ∧
      (∀ v w, v ≤ w → lineY mn mx w ≤ lineY mn mx v) := by
  have hpos : 0 < mx - mn := sub_pos.2 hlt
  have hne : mx - mn ≠ 0 := ne_of_gt hpos
  refine ⟨?_, fun _ => rfl, ?_, ?_, ?_, ?_⟩
  · rw [lineChart_normalizedData data labels mn mx hmn hmin hmx hmax]
    apply List.map_congr_left
    intro v _
    rw [if_neg hne]
    rfl
  · unfold lineY
    simp
  · unfold lineY
    rw [div_self hne]
    norm_num
  · intro v hv
    unfold lineY
    have h0 : 0 ≤ (v - mn) / (mx - mn) := div_nonneg (sub_nonneg.2 (hmin v hv)) (le_of_lt hpos)
    have h1 : (v - mn) / (mx - mn) ≤ 1 := by
      rw [div_le_one hpos]
      linarith [hmax v hv]
    constructor <;> linarith
  · intro v w hvw
    unfold lineY
    have : (v - mn) / (mx - mn) ≤ (w - mn) / (mx - mn) :=
      div_le_div_of_nonneg_right (by linarith) (le_of_lt hpos)
    linarith

/-- Witness of C13: the series 1, 3, 2 is drawn at `y` = 130, 20, 75. -/
theorem C13_y_interpolation_witness :
    (lineChart ([1, 3, 2].map JsNum.fin) []).normalizedData
      = [JsNum.fin 130, JsNum.fin 20, JsNum.fin 75] := by
  have h := (C13_y_interpolation [1, 3, 2] [] 1 3 (by simp) (by norm_num) (by simp)
    (by norm_num) (by norm_num)).1
  rw [h]
  simp only [List.map_cons, List.map_nil, lineY]
  norm_num

/-- C14: for a series of `n ≥ 2` samples `LineChart` places sample `i` at
`x_i = 20 + (i / (n - 1)) * 260`: the first point is at 20, the last at 280,
the `x` coordinates increase strictly and consecutive points are `260/(n-1)`
apart. -/
theorem C14_x_interpolation (data : List JsNum) (labels : List String)
    (hn : 2 ≤ data.length) :
    (lineChart data labels).points.map Prod.fst
        = (List.range data.length).map (fun i => JsNum.fin (lineX data.length i)) ∧
      (lineChart data labels).circles.map Prod.fst
        = (List.range data.length).map (fun i => JsNum.fin (lineX data.length i)) ∧
      (∀ i, lineX data.length i = 20 + (i : ℚ) / ((data.length : ℚ) - 1) * 260) ∧
      lineX data.length 0 = 20 ∧ lineX data.length (data.length - 1) = 280 ∧
      (∀ i j, i < j → lineX data.length i < lineX data.length j) ∧
      (∀ i, lineX data.length (i + 1) - lineX data.length i = 260 / ((data.length : ℚ) - 1)) := by
  have hq : (2 : ℚ) ≤ (data.length : ℚ) := by exact_mod_cast hn
  have hpos : (0 : ℚ) < (data.length : ℚ) - 1 := by linarith
  have hp : (lineChart data labels).points.map Prod.fst
      = (List.range data.length).map (fun i => JsNum.fin (lineX data.length i)) := by
    rw [lineChart_points_fst]
    apply List.map_congr_left
    intro i _
    exact lineChart_x data.length i hn
  refine ⟨hp, hp, fun _ => rfl, ?_, ?_, ?_, ?_⟩
  · unfold lineX
    simp
  · unfold lineX
    have h1 : ((data.length - 1 : ℕ) : ℚ) = (data.length : ℚ) - 1 := by
      rw [Nat.cast_sub (by omega)]
      simp
    rw [h1, div_self (ne_of_gt hpos)]
    norm_num
  · intro i j hij
    unfold lineX
    have hc : (i : ℚ) < (j : ℚ) := by exact_mod_cast hij
    have : (i : ℚ) / ((data.length : ℚ) - 1) < (j : ℚ) / ((data.length : ℚ) - 1) :=
      div_lt_div_of_pos_right hc hpos
    linarith
  · intro i
    unfold lineX
    push_cast
    ring

/-- Witness of C14: three samples are placed at `x` = 20, 150, 280. -/
theorem C14_x_interpolation_witness :
    (lineChart [JsNum.fin 7, JsNum.nan, JsNum.fin 9] []).points.map Prod.fst
      = [JsNum.fin 20, JsNum.fin 150, JsNum.fin 280] := by
  have h := (C14_x_interpolation [JsNum.fin 7, JsNum.nan, JsNum.fin 9] [] (by simp)).1
  rw [h]
  have hr : List.range 3 = [0, 1, 2] := rfl
  simp only [List.length_cons, List.length_nil, hr, List.map_cons, List.map_nil, lineX]
  norm_num

/-- The test `i % Math.ceil(n / 5) !== 0` of the label decimation, for `n ≥ 1`
labels, in terms of natural numbers. -/
theorem label_skipped_iff (n i : Nat) (hn : 1 ≤ n) :
    JsNum.strictNe (JsNum.mod (JsNum.ofNat i) (JsNum.ceil (JsNum.ofNat n / 5))) 0 = true ↔
      i % ⌈(n : ℚ) / 5⌉₊ ≠ 0 := by
  have hq : (0 : ℚ) < (n : ℚ) / 5 := by
    have : (1 : ℚ) ≤ n := by exact_mod_cast hn
    positivity
  have hk : 0 < ⌈(n : ℚ) / 5⌉₊ := Nat.ceil_pos.2 hq
  have hc : (⌈(n : ℚ) / 5⌉ : ℤ) = ((⌈(n : ℚ) / 5⌉₊ : ℕ) : ℤ) :=
    (Int.natCast_ceil_eq_ceil (le_of_lt hq)).symm
  generalize ⌈(n : ℚ) / 5⌉₊ = k at hk hc
  have h5 : JsNum.ofNat n / 5 = JsNum.fin ((n : ℚ) / 5) := by
    rw [JsNum.ofNat_eq, JsNum.lit_eq, JsNum.fin_div _ _ (by norm_num)]
    norm_num
  have hkq : (k : ℚ) ≠ 0 := by
    have : 0 < (k : ℚ) := by exact_mod_cast hk
    exact ne_of_gt this
  have hm : JsNum.mod (JsNum.ofNat i) (JsNum.fin (k : ℚ)) = JsNum.fin ((i % k : ℕ) : ℚ) := by
    rw [JsNum.ofNat_eq]
    have hmod : JsNum.mod (JsNum.fin (i : ℚ)) (JsNum.fin (k : ℚ))
        = JsNum.fin ((i : ℚ) - (k : ℚ) * (JsNum.truncQ ((i : ℚ) / (k : ℚ)) : ℚ)) := by
      simp only [JsNum.mod, hkq, if_false]
    rw [hmod]
    congr 1
    have hnn : (0 : ℚ) ≤ (i : ℚ) / (k : ℚ) := by positivity
    unfold JsNum.truncQ
    rw [if_pos hnn, Rat.floor_natCast_div_natCast]
    have := Nat.mod_add_div i k
    have hcast : ((i % k : ℕ) : ℚ) + (k : ℚ) * ((i / k : ℕ) : ℚ) = (i : ℚ) := by
      exact_mod_cast this
    rw [← Int.natCast_div, Int.cast_natCast]
    linarith
  rw [h5]
  unfold JsNum.ceil
  simp only
  rw [hc]
  simp only [Int.cast_natCast, hm, JsNum.lit_eq]
  unfold JsNum.strictNe
  simp

theorem lineChart_labelTexts_getElem? (data : List JsNum) (labels : List String) (i : Nat) :
    (lineChart data labels).labelTexts[i]? = labels[i]?.map (fun label =>
      if JsNum.strictNe
          (JsNum.mod (JsNum.ofNat i) (JsNum.ceil (JsNum.ofNat labels.length / 5))) 0 then none
      else some ((20 : JsNum)
        + (JsNum.ofNat i / (JsNum.ofNat data.length - 1)) * (300 - 20 * 2), 150 - 5, label)) := by
  unfold lineChart
  simp only [jsMapIdx_getElem?]

/-- Among the indices below `n ≤ 5 * k`, at most 5 are multiples of `k`. -/
theorem multiples_le_five (n k : Nat) (hk : 0 < k) (hnk : n ≤ 5 * k) :
    ((List.range n).filter (fun i => i % k = 0)).length ≤ 5 := by
  have hnd : (((List.range n).filter (fun i => i % k = 0)).map (fun i => i / k)).Nodup := by
    apply List.Nodup.map_on
    · intro a ha b hb hab
      have ha2 := (List.mem_filter.1 ha).2
      have hb2 := (List.mem_filter.1 hb).2
      simp only [decide_eq_true_eq] at ha2 hb2
      have e1 := Nat.mod_add_div a k
      have e2 := Nat.mod_add_div b k
      simp only at hab
      rw [ha2, hab] at e1
      rw [hb2] at e2
      omega
    · exact (List.nodup_range n).filter _
  have hsub : ((List.range n).filter (fun i => i % k = 0)).map (fun i => i / k)
      ⊆ List.range 5 := by
    intro x hx
    obtain ⟨a, ha, rfl⟩ := List.mem_map.1 hx
    have hlt := List.mem_range.1 (List.mem_filter.1 ha).1
    rw [List.mem_range]
    exact (Nat.div_lt_iff_lt_mul hk).2 (by omega)
  have := (hnd.subperm hsub).length_le
  simpa using this

theorem countP_jsMapIdx {α β : Type} (f : α → Nat → β) (p : β → Bool) (q : Nat → Bool)
    (xs : List α) (h : ∀ a i, p (f a i) = q i) :
    ((jsMapIdx f xs).filter p).length = ((List.range xs.length).filter q).length := by
  unfold jsMapIdx
  rw [← List.enum_map_fst xs, List.filter_map, List.filter_map, List.length_map, List.length_map]
  congr 1
  apply List.filter_congr
  intro x _
  simp only [Function.comp]
  exact h x.2 x.1

theorem lineChart_labelTexts_eq (data : List JsNum) (labels : List String) :
    (lineChart data labels).labelTexts = jsMapIdx (fun label i =>
      if JsNum.strictNe
          (JsNum.mod (JsNum.ofNat i) (JsNum.ceil (JsNum.ofNat labels.length / 5))) 0 then none
      else some ((20 : JsNum)
        + (JsNum.ofNat i / (JsNum.ofNat data.length - 1)) * (300 - 20 * 2), 150 - 5, label))
      labels := rfl

/-- C15: for `n ≥ 1` labels `LineChart` renders the label of index `i` exactly
when `i % ceil(n / 5) = 0` and renders `null` otherwise; index 0 is always
rendered and at most 5 labels are rendered. -/
theorem C15_label_decimation (data : List JsNum) (labels : List String)
    (hn : 1 ≤ labels.length) :
    (lineChart data labels).labelTexts.length = labels.length ∧
      (∀ i (hi : i < labels.length),
        (i % ⌈(labels.length : ℚ) / 5⌉₊ = 0 →
          ∃ x y, (lineChart data labels).labelTexts[i]? = some (some (x, y, labels[i]))) ∧
        (i % ⌈(labels.length : ℚ) / 5⌉₊ ≠ 0 →
          (lineChart data labels).labelTexts[i]? = some none)) ∧
      (∃ x y, (lineChart data labels).labelTexts[0]? = some (some (x, y, labels[0]))) ∧
      ((lineChart data labels).labelTexts.filter Option.isSome).length ≤ 5 := by
  have hrow : ∀ i (hi : i < labels.length),
      (i % ⌈(labels.length : ℚ) / 5⌉₊ = 0 →
        ∃ x y, (lineChart data labels).labelTexts[i]? = some (some (x, y, labels[i]))) ∧
      (i % ⌈(labels.length : ℚ) / 5⌉₊ ≠ 0 →
        (lineChart data labels).labelTexts[i]? = some none) := by
    intro i hi
    rw [lineChart_labelTexts_getElem?, List.getElem?_eq_getElem hi, Option.map_some']
    constructor
    · intro h0
      have hs := mt (label_skipped_iff labels.length i hn).1 (not_not.2 h0)
      rw [if_neg hs]
      exact ⟨_, _, rfl⟩
    · intro h0
      rw [if_pos ((label_skipped_iff labels.length i hn).2 h0)]
  refine ⟨?_, hrow, ?_, ?_⟩
  · rw [lineChart_labelTexts_eq, jsMapIdx_length]
  · exact (hrow 0 (by omega)).1 (Nat.zero_mod _)
  · have hq : (0 : ℚ) < (labels.length : ℚ) / 5 := by
      have : (1 : ℚ) ≤ labels.length := by exact_mod_cast hn
      positivity
    have hk : 0 < ⌈(labels.length : ℚ) / 5⌉₊ := Nat.ceil_pos.2 hq
    have hle : labels.length ≤ 5 * ⌈(labels.length : ℚ) / 5⌉₊ := by
      have h1 : (labels.length : ℚ) / 5 ≤ (⌈(labels.length : ℚ) / 5⌉₊ : ℚ) := Nat.le_ceil _
      have h2 : (labels.length : ℚ) ≤ 5 * (⌈(labels.length : ℚ) / 5⌉₊ : ℚ) := by linarith
      exact_mod_cast h2
    rw [lineChart_labelTexts_eq,
      countP_jsMapIdx _ Option.isSome (fun i => decide (i % ⌈(labels.length : ℚ) / 5⌉₊ = 0))]
    · exact multiples_le_five _ _ hk hle
    · intro label i
      by_cases h0 : i % ⌈(labels.length : ℚ) / 5⌉₊ = 0
      · have hs := mt (label_skipped_iff labels.length i hn).1 (not_not.2 h0)
        rw [if_neg hs]
        simp [h0]
      · rw [if_pos ((label_skipped_iff labels.length i hn).2 h0)]
        simp [h0]

/-- Witness of C15: of six labels, those of index 0, 2 and 4 are rendered. -/
theorem C15_label_decimation_witness :
    ((lineChart [] ["a", "b", "c", "d", "e", "f"]).labelTexts.map Option.isSome)
      = [true, false, true, false, true, false] ∧
    ((lineChart [] ["a", "b", "c", "d", "e", "f"]).labelTexts.filter Option.isSome).length
      ≤ 5 := by
  refine ⟨?_, (C15_label_decimation [] ["a", "b", "c", "d", "e", "f"] (by simp)).2.2.2⟩
  have hk : ⌈((["a", "b", "c", "d", "e", "f"] : List String).length : ℚ) / 5⌉₊ = 2 := by
    rw [Nat.ceil_eq_iff (by norm_num)]
    norm_num
  have h := (C15_label_decimation [] ["a", "b", "c", "d", "e", "f"] (by simp)).2.1
  rw [hk] at h
  apply List.ext_getElem?
  intro i
  rw [List.getElem?_map]
  rcases Nat.lt_or_ge i 6 with hi | hi
  · interval_cases i
    · obtain ⟨x, y, e⟩ := (h 0 (by simp)).1 (by norm_num)
      rw [e]; rfl
    · rw [(h 1 (by simp)).2 (by norm_num)]; rfl
    · obtain ⟨x, y, e⟩ := (h 2 (by simp)).1 (by norm_num)
      rw [e]; rfl
    · rw [(h 3 (by simp)).2 (by norm_num)]; rfl
    · obtain ⟨x, y, e⟩ := (h 4 (by simp)).1 (by norm_num)
      rw [e]; rfl
    · rw [(h 5 (by simp)).2 (by norm_num)]; rfl
  · have hl : (lineChart [] ["a", "b", "c", "d", "e", "f"]).labelTexts.length = 6 :=
      (C15_label_decimation [] ["a", "b", "c", "d", "e", "f"] (by simp)).1
    rw [List.getElem?_eq_none (by omega), List.getElem?_eq_none (by simp; omega)]
    rfl

/-! ## Claims on `DonutChart` -/

theorem donutTotal_fin_aux (l : List ℚ) (a : ℚ) :
    (l.map JsNum.fin).foldl (fun sum value => sum + value) (JsNum.fin a)
      = JsNum.fin (a + l.sum) := by
  induction l generalizing a with
  | nil => simp
  | cons v vs ih =>
    simp only [List.map_cons, List.foldl_cons, JsNum.fin_add, ih, List.sum_cons, add_assoc]

theorem donutTotal_fin (l : List ℚ) : donutTotal (l.map JsNum.fin) = JsNum.fin l.sum := by
  unfold donutTotal
  rw [JsNum.lit_eq, donutTotal_fin_aux]
  simp

theorem donutSweep_sum (total : ℚ) (l : List ℚ) :
    (l.map (donutSweep total)).sum = l.sum / total * 360 := by
  induction l with
  | nil => simp
  | cons v vs ih =>
    simp only [List.map_cons, List.sum_cons, ih, donutSweep]
    ring

theorem donut_angle_fin (total v : ℚ) (h : total ≠ 0) :
    (JsNum.fin v / JsNum.fin total) * 360 = JsNum.fin (donutSweep total v) := by
  rw [JsNum.fin_div _ _ h, JsNum.lit_eq, JsNum.fin_mul]
  unfold donutSweep
  norm_num

/-- The angles of the wedges `donutWedges` builds from finite values, a non-zero
total and the running angle `a`. -/
theorem donutWedges_angles (cosF sinF : ℚ → ℚ) (total : ℚ) (colors : List String)
    (h : total ≠ 0) (vs : List ℚ) :
    ∀ (i : Nat) (a : ℚ) (j : Nat),
      (donutWedges cosF sinF (JsNum.fin total) colors (vs.map JsNum.fin) i (JsNum.fin a))[j]?.map
          (fun w => (w.angle, w.startAngle, w.endAngle))
        = vs[j]?.map (fun v =>
            (JsNum.fin (donutSweep total v),
              JsNum.fin (a + ((vs.take j).map (donutSweep total)).sum),
              JsNum.fin (a + ((vs.take (j + 1)).map (donutSweep total)).sum))) := by
  induction vs with
  | nil =>
    intro i a j
    simp [donutWedges]
  | cons v rest ih =>
    intro i a j
    cases j with
    | zero =>
      simp only [List.map_cons, donutWedges, List.getElem?_cons_zero, Option.map_some',
        donut_angle_fin total v h, JsNum.fin_add, List.take_zero, List.map_nil, List.sum_nil,
        add_zero, List.take_succ_cons, List.sum_cons]
    | succ j =>
      simp only [List.map_cons, donutWedges, List.getElem?_cons_succ,
        donut_angle_fin total v h, JsNum.fin_add]
      rw [ih (i + 1) (a + donutSweep total v) j]
      cases rest[j]? with
      | none => rfl
      | some x =>
        simp only [Option.map_some', List.take_succ_cons, List.map_cons, List.sum_cons]
        simp only [add_assoc]

theorem donutWedges_length (cosF sinF : ℚ → ℚ) (total : JsNum) (colors : List String)
    (vs : List JsNum) : ∀ (i : Nat) (a : JsNum),
      (donutWedges cosF sinF total colors vs i a).length = vs.length := by
  induction vs with
  | nil => intro i a; rfl
  | cons v rest ih =>
    intro i a
    simp only [donutWedges, List.length_cons, ih]

theorem donutChart_wedges_fin (cosF sinF : ℚ → ℚ) (values : List ℚ) (labels colors : List String) :
    (donutChart cosF sinF (values.map JsNum.fin) labels colors).wedges
      = donutWedges cosF sinF (JsNum.fin values.sum) colors (values.map JsNum.fin) 0
          (JsNum.fin 0) := by
  unfold donutChart
  simp only [donutTotal_fin]
  rfl

/-- C16: for values with a non-zero total (in particular non-negative values
with total > 0) `DonutChart` gives wedge `i` the sweep `value_i / total * 360`,
starts it at the sum of the sweeps of the wedges before it (0 for the first,
the end angle of the previous wedge for the others) and ends it that sweep
further; the sweeps sum to 360, so the last wedge ends at 360. -/
theorem C16_donut_sweeps (cosF sinF : ℚ → ℚ) (values : List ℚ) (labels colors : List String)
    (htotal : values.sum ≠ 0) :
    (donutChart cosF sinF (values.map JsNum.fin) labels colors).wedges.length = values.length ∧
      (∀ i (hi : i < values.length),
        (donutChart cosF sinF (values.map JsNum.fin) labels colors).wedges[i]?.map
            (fun w => (w.angle, w.startAngle, w.endAngle))
          = some (JsNum.fin (values[i] / values.sum * 360),
              JsNum.fin ((values.take i).map (fun v => v / values.sum * 360)).sum,
              JsNum.fin ((values.take (i + 1)).map (fun v => v / values.sum * 360)).sum)) ∧
      (∀ i, i + 1 < values.length →
        (donutChart cosF sinF (values.map JsNum.fin) labels colors).wedges[i + 1]?.map
            (fun w => w.startAngle)
          = (donutChart cosF sinF (values.map JsNum.fin) labels colors).wedges[i]?.map
            (fun w => w.endAngle)) ∧
      (values.map (fun v => v / values.sum * 360)).sum = 360 ∧
      (donutChart cosF sinF (values.map JsNum.fin) labels colors).wedges.head?.map
          (fun w => w.startAngle) = some (JsNum.fin 0) ∧
      (donutChart cosF sinF (values.map JsNum.fin) labels colors).wedges.getLast?.map
          (fun w => w.endAngle) = some (JsNum.fin 360) := by
  have hlen : (donutChart cosF sinF (values.map JsNum.fin) labels colors).wedges.length
      = values.length := by
    rw [donutChart_wedges_fin, donutWedges_length, List.length_map]
  have hsum : (values.map (fun v => v / values.sum * 360)).sum = 360 := by
    have := donutSweep_sum values.sum values
    unfold donutSweep at this
    rw [this, div_self htotal]
    norm_num
  have hrow : ∀ i (hi : i < values.length),
      (donutChart cosF sinF (values.map JsNum.fin) labels colors).wedges[i]?.map
          (fun w => (w.angle, w.startAngle, w.endAngle))
        = some (JsNum.fin (values[i] / values.sum * 360),
            JsNum.fin ((values.take i).map (fun v => v / values.sum * 360)).sum,
            JsNum.fin ((values.take (i + 1)).map (fun v => v / values.sum * 360)).sum) := by
    intro i hi
    rw [donutChart_wedges_fin, donutWedges_angles cosF sinF values.sum colors htotal values 0 0 i,
      List.getElem?_eq_getElem hi, Option.map_some']
    simp only [zero_add]
    rfl
  have hproj : ∀ (o : Option Wedge) (x y z : JsNum),
      o.map (fun w => (w.angle, w.startAngle, w.endAngle)) = some (x, y, z) →
        o.map (fun w => w.startAngle) = some y ∧ o.map (fun w => w.endAngle) = some z := by
    intro o x y z ho
    cases o with
    | none => simp at ho
    | some w =>
      simp only [Option.map_some', Option.some.injEq, Prod.mk.injEq] at ho
      simp only [Option.map_some', ho.2.1, ho.2.2, and_self]
  have hnil : values ≠ [] := by
    rintro rfl
    exact htotal rfl
  have hpos : 0 < values.length := List.length_pos.2 hnil
  refine ⟨hlen, hrow, ?_, hsum, ?_, ?_⟩
  · intro i hi
    rw [(hproj _ _ _ _ (hrow (i + 1) hi)).1, (hproj _ _ _ _ (hrow i (by omega))).2]
  · have := (hproj _ _ _ _ (hrow 0 hpos)).1
    rw [List.head?_eq_getElem?, this]
    simp
  · have := (hproj _ _ _ _ (hrow (values.length - 1) (by omega))).2
    rw [List.getLast?_eq_getElem?, hlen, this]
    have e : values.length - 1 + 1 = values.length := by omega
    rw [e, List.take_length, hsum]

/-- Witness of C16: the values 1, 1, 2 get the sweeps 90, 90, 180 starting at
0, 90, 180. -/
theorem C16_donut_sweeps_witness :
    (donutChart (fun _ => 0) (fun _ => 0) ([1, 1, 2].map JsNum.fin) ["A", "B", "C"]
        []).wedges.map (fun w => (w.angle, w.startAngle, w.endAngle))
      = [(JsNum.fin 90, JsNum.fin 0, JsNum.fin 90), (JsNum.fin 90, JsNum.fin 90, JsNum.fin 180),
          (JsNum.fin 180, JsNum.fin 180, JsNum.fin 360)] := by
  have h := C16_donut_sweeps (fun _ => 0) (fun _ => 0) [1, 1, 2] ["A", "B", "C"] []
    (by norm_num)
  apply List.ext_getElem?
  intro i
  rw [List.getElem?_map]
  rcases Nat.lt_or_ge i 3 with hi | hi
  · interval_cases i
    · rw [h.2.1 0 (by simp)]
      norm_num
    · rw [h.2.1 1 (by simp)]
      norm_num
    · rw [h.2.1 2 (by simp)]
      norm_num
  · have hl := h.1
    rw [List.getElem?_eq_none (by rw [hl]; exact hi), List.getElem?_eq_none hi]
    rfl

theorem jsIndexNum_fin (values : List ℚ) (i : Nat) (hi : i < values.length) :
    jsIndexNum (values.map JsNum.fin) i = JsNum.fin values[i] := by
  unfold jsIndexNum
  rw [List.getElem?_map, List.getElem?_eq_getElem hi]
  rfl

theorem donutChart_legend_getElem? (cosF sinF : ℚ → ℚ) (values : List JsNum)
    (labels colors : List String) (i : Nat) :
    (donutChart cosF sinF values labels colors).legend[i]?.map (fun r => r.percent)
      = labels[i]?.map (fun _ =>
          JsNum.round (JsNum.toDouble
            (JsNum.toDouble (jsIndexNum values i / donutTotal values) * 100))) := by
  unfold donutChart
  simp only [jsMapIdx_getElem?, Option.map_map]
  rfl

/-! ### Rounding to doubles in the legend percentage -/

theorem roundHalfEven_sub_abs (m : ℚ) : |(JsNum.roundHalfEven m : ℚ) - m| ≤ 1 / 2 := by
  unfold JsNum.roundHalfEven
  have h1 := Int.floor_le m
  have h2 := Int.lt_floor_add_one m
  rw [abs_le]
  split_ifs with a b c
  · constructor <;> linarith
  · push_cast
    constructor <;> linarith
  · constructor <;> linarith
  · push_cast
    constructor <;> linarith

theorem roundHalfEven_eq_of_lt (m : ℚ) (n : ℤ) (h : |m - (n : ℚ)| < 1 / 2) :
    JsNum.roundHalfEven m = n := by
  have h0 := roundHalfEven_sub_abs m
  rw [abs_lt] at h
  rw [abs_le] at h0
  have h3 : ((JsNum.roundHalfEven m : ℤ) : ℚ) < (n : ℚ) + 1 := by linarith
  have h4 : (n : ℚ) - 1 < ((JsNum.roundHalfEven m : ℤ) : ℚ) := by linarith
  have h5 : JsNum.roundHalfEven m < n + 1 := by exact_mod_cast h3
  have h6 : n - 1 < JsNum.roundHalfEven m := by exact_mod_cast h4
  omega

theorem doubleExponent_eq (a : ℚ) (e : ℤ) (he : -1022 ≤ e) (h1 : (2 : ℚ) ^ e ≤ a)
    (h2 : a < (2 : ℚ) ^ (e + 1)) : JsNum.doubleExponent a = e := by
  have hpos : 0 < a := lt_of_lt_of_le (by positivity) h1
  have hl : Int.log 2 a = e := by
    apply le_antisymm
    · have := (Int.lt_zpow_iff_log_lt (by norm_num : 1 < 2) hpos).1 (by exact_mod_cast h2)
      omega
    · exact (Int.zpow_le_iff_le_log (by norm_num : 1 < 2) hpos).1 (by exact_mod_cast h1)
  unfold JsNum.doubleExponent
  rw [hl]
  exact max_eq_left he

theorem two_zpow_mono {a b : ℤ} (h : a ≤ b) : (2 : ℚ) ^ a ≤ (2 : ℚ) ^ b :=
  zpow_le_zpow_right₀ (by norm_num) h

/-- The value of `toDoubleQ` at a positive rational of the normal range. -/
theorem toDoubleQ_pos (q : ℚ) (e : ℤ) (he : -1022 ≤ e) (he2 : e ≤ 1022)
    (h1 : (2 : ℚ) ^ e ≤ q) (h2 : q < (2 : ℚ) ^ (e + 1)) :
    JsNum.toDoubleQ q
      = JsNum.fin ((JsNum.roundHalfEven (q / (2 : ℚ) ^ (e - 52)) : ℚ) * (2 : ℚ) ^ (e - 52)) := by
  have hpos : 0 < q := lt_of_lt_of_le (by positivity) h1
  have hu : (0 : ℚ) < (2 : ℚ) ^ (e - 52) := by positivity
  have hr := roundHalfEven_sub_abs (q / (2 : ℚ) ^ (e - 52))
  rw [abs_le] at hr
  have hr2 : (JsNum.roundHalfEven (q / (2 : ℚ) ^ (e - 52)) : ℚ) * (2 : ℚ) ^ (e - 52)
      ≤ q + (2 : ℚ) ^ (e - 52) / 2 := by
    have : (JsNum.roundHalfEven (q / (2 : ℚ) ^ (e - 52)) : ℚ)
        ≤ q / (2 : ℚ) ^ (e - 52) + 1 / 2 := by linarith
    calc (JsNum.roundHalfEven (q / (2 : ℚ) ^ (e - 52)) : ℚ) * (2 : ℚ) ^ (e - 52)
        ≤ (q / (2 : ℚ) ^ (e - 52) + 1 / 2) * (2 : ℚ) ^ (e - 52) :=
          mul_le_mul_of_nonneg_right this hu.le
      _ = q + (2 : ℚ) ^ (e - 52) / 2 := by
          field_simp
          ring
  have hb1 : (2 : ℚ) ^ (e + 1) ≤ (2 : ℚ) ^ (1023 : ℤ) := two_zpow_mono (by omega)
  have hb2 : (2 : ℚ) ^ (e - 52) ≤ (2 : ℚ) ^ (1023 : ℤ) := two_zpow_mono (by omega)
  have hb3 : (2 : ℚ) ^ (1023 : ℤ) + (2 : ℚ) ^ (1023 : ℤ) / 2 < (2 : ℚ) ^ (1024 : ℕ) := by
    norm_num
  unfold JsNum.toDoubleQ
  simp only [abs_of_pos hpos, doubleExponent_eq q e he h1 h2]
  rw [if_neg (by linarith), if_pos hpos.le]

/-- The value of `toDoubleQ` at a positive rational of the normal range, from
its binade and the rounded significand. -/
theorem toDoubleQ_eq (q : ℚ) (e n : ℤ) (he : -1022 ≤ e) (he2 : e ≤ 1022)
    (h1 : (2 : ℚ) ^ e ≤ q) (h2 : q < (2 : ℚ) ^ (e + 1))
    (hn : |q / (2 : ℚ) ^ (e - 52) - (n : ℚ)| < 1 / 2) :
    JsNum.toDoubleQ q = JsNum.fin ((n : ℚ) * (2 : ℚ) ^ (e - 52)) := by
  rw [toDoubleQ_pos q e he he2 h1 h2, roundHalfEven_eq_of_lt _ n hn]

/-- The relative error of the rounding to a double is at most `2 ^ (-53)` in
the normal range. -/
theorem toDoubleQ_error (q : ℚ) (hq1 : (2 : ℚ) ^ (-1022 : ℤ) ≤ q)
    (hq2 : q < (2 : ℚ) ^ (1023 : ℤ)) :
    ∃ r : ℚ, JsNum.toDoubleQ q = JsNum.fin r ∧ |r - q| ≤ q / 2 ^ 53 := by
  have hpos : 0 < q := lt_of_lt_of_le (by positivity) hq1
  have h1 : (2 : ℚ) ^ (Int.log 2 q) ≤ q := Int.zpow_log_le_self (by norm_num) hpos
  have h2 : q < (2 : ℚ) ^ (Int.log 2 q + 1) := Int.lt_zpow_succ_log_self (by norm_num) q
  have he : -1022 ≤ Int.log 2 q :=
    (Int.zpow_le_iff_le_log (by norm_num : 1 < 2) hpos).1 (by exact_mod_cast hq1)
  have he2 : Int.log 2 q < 1023 :=
    (Int.lt_zpow_iff_log_lt (by norm_num : 1 < 2) hpos).1 (by exact_mod_cast hq2)
  generalize Int.log 2 q = e at h1 h2 he he2
  refine ⟨_, toDoubleQ_pos q e he (by omega) h1 h2, ?_⟩
  have hu : (0 : ℚ) < (2 : ℚ) ^ (e - 52) := by positivity
  have hr := roundHalfEven_sub_abs (q / (2 : ℚ) ^ (e - 52))
  have e1 : (JsNum.roundHalfEven (q / (2 : ℚ) ^ (e - 52)) : ℚ) * (2 : ℚ) ^ (e - 52) - q
      = ((JsNum.roundHalfEven (q / (2 : ℚ) ^ (e - 52)) : ℚ) - q / (2 : ℚ) ^ (e - 52))
          * (2 : ℚ) ^ (e - 52) := by
    field_simp
  have e2 : (2 : ℚ) ^ (e - 52) = (2 : ℚ) ^ e / 2 ^ 52 := by
    rw [zpow_sub₀ (by norm_num)]
    norm_num
  rw [e1, abs_mul, abs_of_pos hu]
  calc |(JsNum.roundHalfEven (q / (2 : ℚ) ^ (e - 52)) : ℚ) - q / (2 : ℚ) ^ (e - 52)|
        * (2 : ℚ) ^ (e - 52)
      ≤ 1 / 2 * (2 : ℚ) ^ (e - 52) := mul_le_mul_of_nonneg_right hr hu.le
    _ = (2 : ℚ) ^ e / 2 ^ 53 := by rw [e2]; ring
    _ ≤ q / 2 ^ 53 := by
        apply div_le_div_of_nonneg_right h1
        positivity

theorem toDoubleQ_zero : JsNum.toDoubleQ 0 = JsNum.fin 0 := by
  unfold JsNum.toDoubleQ JsNum.roundHalfEven
  simp

/-- The double product `(v / t) * 100` of a count `v` and a total `t`, both
operations rounded, is within `201 / 2 ^ 53` of the exact value. -/
theorem double_percent_error (v t : ℕ) (ht : 0 < t) (hv : v ≤ t) (hlt : t < 2 ^ 40) :
    ∃ q d : ℚ, JsNum.toDoubleQ ((v : ℚ) / (t : ℚ)) = JsNum.fin q ∧
      JsNum.toDoubleQ (q * 100) = JsNum.fin d ∧
      |d - (v : ℚ) / (t : ℚ) * 100| ≤ 201 / 2 ^ 53 := by
  have hT : (0 : ℚ) < (t : ℚ) := by exact_mod_cast ht
  rcases Nat.eq_zero_or_pos v with h0 | hvpos
  · subst h0
    refine ⟨0, 0, ?_, ?_, ?_⟩
    · simp [toDoubleQ_zero]
    · simp [toDoubleQ_zero]
    · norm_num
  · have hV : (1 : ℚ) ≤ (v : ℚ) := by exact_mod_cast hvpos
    have hVT : (v : ℚ) ≤ (t : ℚ) := by exact_mod_cast hv
    have hT2 : (t : ℚ) < 2 ^ 40 := by exact_mod_cast hlt
    have hy1 : (v : ℚ) / (t : ℚ) ≤ 1 := (div_le_one hT).2 hVT
    have hy0 : (1 : ℚ) / 2 ^ 40 ≤ (v : ℚ) / (t : ℚ) := by
      rw [div_le_div_iff₀ (by positivity) hT]
      nlinarith
    obtain ⟨q, hq, hqe⟩ := toDoubleQ_error ((v : ℚ) / (t : ℚ))
      (le_trans (by norm_num) hy0) (lt_of_le_of_lt hy1 (by norm_num))
    rw [abs_le] at hqe
    have hq0 : (1 : ℚ) / 2 ^ 41 ≤ q := by
      have : (v : ℚ) / (t : ℚ) / 2 ^ 53 ≤ (v : ℚ) / (t : ℚ) / 2 := by
        apply div_le_div_of_nonneg_left (le_trans (by norm_num) hy0) (by norm_num) (by norm_num)
      have e : (1 : ℚ) / 2 ^ 41 = 1 / 2 ^ 40 / 2 := by norm_num
      rw [e]
      linarith
    have hyb : (v : ℚ) / (t : ℚ) / 2 ^ 53 ≤ 1 / 2 ^ 53 :=
      div_le_div_of_nonneg_right hy1 (by norm_num)
    have hq1 : q ≤ 1 + 1 / 2 ^ 53 := by linarith
    obtain ⟨d, hd, hde⟩ := toDoubleQ_error (q * 100)
      (le_trans (by norm_num) (by linarith : (1 : ℚ) / 2 ^ 41 ≤ q * 100))
      (lt_of_le_of_lt (by linarith : q * 100 ≤ (1 + 1 / 2 ^ 53) * 100) (by norm_num))
    refine ⟨q, d, hq, hd, ?_⟩
    rw [abs_le] at hde
    have hpb : q * 100 / 2 ^ 53 ≤ 101 / 2 ^ 53 := by
      apply div_le_div_of_nonneg_right _ (by norm_num)
      have : (1 + 1 / 2 ^ 53 : ℚ) * 100 ≤ 101 := by norm_num
      linarith
    rw [abs_le]
    constructor
    · have : (201 : ℚ) / 2 ^ 53 = 101 / 2 ^ 53 + 100 * (1 / 2 ^ 53) := by norm_num
      linarith
    · have : (201 : ℚ) / 2 ^ 53 = 101 / 2 ^ 53 + 100 * (1 / 2 ^ 53) := by norm_num
      linarith

/-- Rounding half up is stable under an error of `201 / 2 ^ 53` unless the
exact percentage lies half-way between two integers, where the result may be
one less. -/
theorem round_percent_stable (v t : ℕ) (ht : 0 < t) (hlt : t < 2 ^ 40) (d : ℚ)
    (hd : |d - (v : ℚ) / (t : ℚ) * 100| ≤ 201 / 2 ^ 53) :
    (⌊d + 1 / 2⌋ = ⌊(v : ℚ) / (t : ℚ) * 100 + 1 / 2⌋ ∨
        ⌊d + 1 / 2⌋ = ⌊(v : ℚ) / (t : ℚ) * 100 + 1 / 2⌋ - 1) ∧
      ((∀ k : ℤ, (v : ℚ) / (t : ℚ) * 100 ≠ (k : ℚ) + 1 / 2) →
        ⌊d + 1 / 2⌋ = ⌊(v : ℚ) / (t : ℚ) * 100 + 1 / 2⌋) := by
  have hT : (0 : ℚ) < (t : ℚ) := by exact_mod_cast ht
  have hT2 : (t : ℚ) < 2 ^ 40 := by exact_mod_cast hlt
  have hx : (v : ℚ) / (t : ℚ) * 100 * (t : ℚ) = 100 * (v : ℚ) := by
    field_simp
    ring
  generalize (v : ℚ) / (t : ℚ) * 100 = x at hd hx ⊢
  have hk1 := Int.floor_le (x + 1 / 2)
  have hk2 := Int.lt_floor_add_one (x + 1 / 2)
  generalize ⌊x + 1 / 2⌋ = k at hk1 hk2 ⊢
  rw [abs_le] at hd
  have heps : (201 : ℚ) / 2 ^ 53 < 1 / 2 := by norm_num
  by_cases hhalf : x + 1 / 2 = (k : ℚ)
  · constructor
    · by_cases hge : (k : ℚ) ≤ d + 1 / 2
      · left
        rw [Int.floor_eq_iff]
        constructor <;> linarith
      · right
        rw [Int.floor_eq_iff]
        push_cast
        constructor <;> linarith
    · intro hne
      exfalso
      apply hne (k - 1)
      push_cast
      linarith
  · have hlt1 : (k : ℚ) < x + 1 / 2 := lt_of_le_of_ne hk1 (Ne.symm hhalf)
    have hsmall : (201 : ℚ) / 2 ^ 53 * (2 * (t : ℚ)) < 1 := by
      have : (201 : ℚ) / 2 ^ 53 * (2 * (t : ℚ)) < 201 / 2 ^ 53 * (2 * 2 ^ 40) := by
        apply mul_lt_mul_of_pos_left _ (by norm_num)
        linarith
      have e : (201 : ℚ) / 2 ^ 53 * (2 * 2 ^ 40) < 1 := by norm_num
      linarith
    -- the distances of `x + 1/2` to `k` and to `k + 1` are multiples of `1 / (2 t)`
    have hz1 : (1 : ℚ) ≤ (x + 1 / 2 - (k : ℚ)) * (2 * (t : ℚ)) := by
      have e : (x + 1 / 2 - (k : ℚ)) * (2 * (t : ℚ))
          = ((200 * (v : ℤ) + (t : ℤ) - 2 * (t : ℤ) * k : ℤ) : ℚ) := by
        push_cast
        linear_combination 2 * hx
      have hp : (0 : ℚ) < (x + 1 / 2 - (k : ℚ)) * (2 * (t : ℚ)) :=
        mul_pos (by linarith) (by linarith)
      rw [e] at hp ⊢
      have hp2 : (0 : ℤ) < 200 * (v : ℤ) + (t : ℤ) - 2 * (t : ℤ) * k := by exact_mod_cast hp
      exact_mod_cast hp2
    have hz2 : (1 : ℚ) ≤ ((k : ℚ) + 1 - (x + 1 / 2)) * (2 * (t : ℚ)) := by
      have e : ((k : ℚ) + 1 - (x + 1 / 2)) * (2 * (t : ℚ))
          = ((2 * (t : ℤ) * k + (t : ℤ) - 200 * (v : ℤ) : ℤ) : ℚ) := by
        push_cast
        linear_combination (-2) * hx
      have hp : (0 : ℚ) < ((k : ℚ) + 1 - (x + 1 / 2)) * (2 * (t : ℚ)) :=
        mul_pos (by linarith) (by linarith)
      rw [e] at hp ⊢
      have hp2 : (0 : ℤ) < 2 * (t : ℤ) * k + (t : ℤ) - 200 * (v : ℤ) := by exact_mod_cast hp
      exact_mod_cast hp2
    have hfl : ⌊d + 1 / 2⌋ = k := by
      rw [Int.floor_eq_iff]
      have h2T : (0 : ℚ) < 2 * (t : ℚ) := by linarith
      constructor
      · by_contra hcon
        push_neg at hcon
        have : (x + 1 / 2 - (k : ℚ)) * (2 * (t : ℚ)) < 201 / 2 ^ 53 * (2 * (t : ℚ)) :=
          mul_lt_mul_of_pos_right (by linarith) h2T
        linarith
      · by_contra hcon
        push_neg at hcon
        have : ((k : ℚ) + 1 - (x + 1 / 2)) * (2 * (t : ℚ)) ≤ 201 / 2 ^ 53 * (2 * (t : ℚ)) :=
          mul_le_mul_of_nonneg_right (by linarith) h2T.le
        linarith
    exact ⟨Or.inl hfl, fun _ => hfl⟩

theorem nat_values_sum (values : List ℚ) (h : ∀ v ∈ values, ∃ n : ℕ, v = (n : ℚ)) :
    ∃ T : ℕ, values.sum = (T : ℚ) ∧
      ∀ i (hi : i < values.length), ∃ n : ℕ, values[i] = (n : ℚ) ∧ n ≤ T := by
  induction values with
  | nil => exact ⟨0, by simp, fun i hi => absurd hi (by simp)⟩
  | cons a l ih =>
    obtain ⟨n, hn⟩ := h a (List.mem_cons_self _ _)
    obtain ⟨T, hT, hall⟩ := ih (fun v hv => h v (List.mem_cons_of_mem _ hv))
    refine ⟨n + T, by rw [List.sum_cons, hn, hT]; push_cast; rfl, ?_⟩
    intro i hi
    cases i with
    | zero => exact ⟨n, by simpa using hn, by omega⟩
    | succ j =>
      obtain ⟨m, hm, hmT⟩ := hall j (by simpa using hi)
      exact ⟨m, by simpa using hm, by omega⟩

/-- The legend percentage of a count `v` in a total `t` below `2 ^ 40`: the
integer that `Math.round` returns on the double product is the exact
percentage rounded half up, or one less when the exact percentage lies
half-way between two integers. -/
theorem legend_percent_nat (v t : ℕ) (ht : 0 < t) (hv : v ≤ t) (hlt : t < 2 ^ 40) :
    ∃ p : ℤ,
      JsNum.round (JsNum.toDouble (JsNum.toDouble (JsNum.fin ((v : ℚ) / (t : ℚ))) * 100))
          = JsNum.fin (p : ℚ) ∧
        (p = ⌊(v : ℚ) / (t : ℚ) * 100 + 1 / 2⌋ ∨
          p = ⌊(v : ℚ) / (t : ℚ) * 100 + 1 / 2⌋ - 1) ∧
        ((∀ k : ℤ, (v : ℚ) / (t : ℚ) * 100 ≠ (k : ℚ) + 1 / 2) →
          p = ⌊(v : ℚ) / (t : ℚ) * 100 + 1 / 2⌋) := by
  obtain ⟨q, d, hq, hd, he⟩ := double_percent_error v t ht hv hlt
  refine ⟨⌊d + 1 / 2⌋, ?_, round_percent_stable v t ht hlt d he⟩
  simp only [JsNum.toDouble, hq, JsNum.lit_eq, JsNum.fin_mul, Nat.cast_ofNat, hd, JsNum.round]

/-- C17: when the total is not zero (in particular when it is positive) the
legend percentage of segment `i` is `Math.round` of the double
`(value_i / total) * 100`, the quotient and the product each rounded to the
nearest double. When the values are natural numbers of total below `2 ^ 40`,
it is `value_i / total * 100` rounded to the nearest integer, halves up
(`floor(value_i / total * 100 + 1/2)`), except that it can be one less when
`value_i / total * 100` is exactly half-way between two integers. -/
theorem C17_legend_percent (cosF sinF : ℚ → ℚ) (values : List ℚ) (labels colors : List String)
    (htotal : values.sum ≠ 0) :
    (donutChart cosF sinF (values.map JsNum.fin) labels colors).legend.length = labels.length ∧
      (∀ i (hi : i < values.length), i < labels.length →
        (donutChart cosF sinF (values.map JsNum.fin) labels colors).legend[i]?.map
            (fun r => r.percent)
          = some (JsNum.round (JsNum.toDouble
              (JsNum.toDouble (JsNum.fin (values[i] / values.sum)) * 100)))) ∧
      ((∀ v ∈ values, ∃ n : ℕ, v = (n : ℚ)) → values.sum < 2 ^ 40 →
        ∀ i (hi : i < values.length), i < labels.length →
          ((donutChart cosF sinF (values.map JsNum.fin) labels colors).legend[i]?.map
                (fun r => r.percent)
              = some (JsNum.fin ((⌊values[i] / values.sum * 100 + 1 / 2⌋ : ℤ) : ℚ)) ∨
            (donutChart cosF sinF (values.map JsNum.fin) labels colors).legend[i]?.map
                (fun r => r.percent)
              = some (JsNum.fin ((⌊values[i] / values.sum * 100 + 1 / 2⌋ - 1 : ℤ) : ℚ))) ∧
          ((∀ k : ℤ, values[i] / values.sum * 100 ≠ (k : ℚ) + 1 / 2) →
            (donutChart cosF sinF (values.map JsNum.fin) labels colors).legend[i]?.map
                (fun r => r.percent)
              = some (JsNum.fin ((⌊values[i] / values.sum * 100 + 1 / 2⌋ : ℤ) : ℚ)))) := by
  have key : ∀ i (hi : i < values.length), i < labels.length →
      (donutChart cosF sinF (values.map JsNum.fin) labels colors).legend[i]?.map
          (fun r => r.percent)
        = some (JsNum.round (JsNum.toDouble
            (JsNum.toDouble (JsNum.fin (values[i] / values.sum)) * 100))) := by
    intro i hi hl
    rw [donutChart_legend_getElem?, List.getElem?_eq_getElem hl, Option.map_some',
      jsIndexNum_fin values i hi, donutTotal_fin, JsNum.fin_div _ _ htotal]
  refine ⟨?_, key, ?_⟩
  · unfold donutChart
    simp only [jsMapIdx_length]
  · intro hnat hlt i hi hl
    obtain ⟨T, hT, hall⟩ := nat_values_sum values hnat
    obtain ⟨n, hn, hnT⟩ := hall i hi
    have hTpos : 0 < T := by
      rcases Nat.eq_zero_or_pos T with h0 | h0
      · exfalso
        apply htotal
        rw [hT, h0]
        rfl
      · exact h0
    have hTlt : T < 2 ^ 40 := by
      rw [hT] at hlt
      exact_mod_cast hlt
    obtain ⟨p, hp, hor, hex⟩ := legend_percent_nat n T hTpos hnT hTlt
    rw [key i hi hl, hn, hT, hp]
    constructor
    · rcases hor with h | h
      · left
        rw [h]
      · right
        rw [h]
    · intro hk
      rw [hex hk]

/-- Witness of C17: the values 1, 1, 2 get the percentages 25, 25, 50. -/
theorem C17_legend_percent_witness :
    ([1, 1, 2] : List ℚ).sum ≠ 0 ∧
      (donutChart (fun _ => 0) (fun _ => 0) ([1, 1, 2].map JsNum.fin) ["A", "B", "C"]
          []).legend.map (fun r => r.percent)
        = [JsNum.fin 25, JsNum.fin 25, JsNum.fin 50] := by
  have hs : ([1, 1, 2] : List ℚ).sum ≠ 0 := by norm_num
  refine ⟨hs, ?_⟩
  have h := C17_legend_percent (fun _ => 0) (fun _ => 0) [1, 1, 2] ["A", "B", "C"] [] hs
  have hnat : ∀ v ∈ ([1, 1, 2] : List ℚ), ∃ n : ℕ, v = (n : ℚ) := by
    intro v hv
    simp only [List.mem_cons, List.mem_singleton, List.not_mem_nil, or_false] at hv
    rcases hv with rfl | rfl | rfl
    · exact ⟨1, by norm_num⟩
    · exact ⟨1, by norm_num⟩
    · exact ⟨2, by norm_num⟩
  have h3 := h.2.2 hnat (by norm_num)
  have e0 : (⌊([1, 1, 2] : List ℚ)[0] / ([1, 1, 2] : List ℚ).sum * 100 + 1 / 2⌋ : ℤ) = 25 := by
    rw [Int.floor_eq_iff]
    norm_num
  have e1 : (⌊([1, 1, 2] : List ℚ)[1] / ([1, 1, 2] : List ℚ).sum * 100 + 1 / 2⌋ : ℤ) = 25 := by
    rw [Int.floor_eq_iff]
    norm_num
  have e2 : (⌊([1, 1, 2] : List ℚ)[2] / ([1, 1, 2] : List ℚ).sum * 100 + 1 / 2⌋ : ℤ) = 50 := by
    rw [Int.floor_eq_iff]
    norm_num
  have n0 : ∀ k : ℤ, ([1, 1, 2] : List ℚ)[0] / ([1, 1, 2] : List ℚ).sum * 100
      ≠ (k : ℚ) + 1 / 2 := by
    intro k hk
    have e : (2 * k + 1 : ℚ) = 50 := by
      norm_num at hk
      linarith
    have e2 : (2 * k + 1 : ℤ) = 50 := by exact_mod_cast e
    omega
  have n1 : ∀ k : ℤ, ([1, 1, 2] : List ℚ)[1] / ([1, 1, 2] : List ℚ).sum * 100
      ≠ (k : ℚ) + 1 / 2 := by
    intro k hk
    have e : (2 * k + 1 : ℚ) = 50 := by
      norm_num at hk
      linarith
    have e2 : (2 * k + 1 : ℤ) = 50 := by exact_mod_cast e
    omega
  have n2 : ∀ k : ℤ, ([1, 1, 2] : List ℚ)[2] / ([1, 1, 2] : List ℚ).sum * 100
      ≠ (k : ℚ) + 1 / 2 := by
    intro k hk
    have e : (2 * k + 1 : ℚ) = 100 := by
      norm_num at hk
      linarith
    have e2 : (2 * k + 1 : ℤ) = 100 := by exact_mod_cast e
    omega
  apply List.ext_getElem?
  intro i
  rcases Nat.lt_or_ge i 3 with hi | hi
  · interval_cases i
    · rw [List.getElem?_map, (h3 0 (by simp) (by simp)).2 n0, e0]
      rfl
    · rw [List.getElem?_map, (h3 1 (by simp) (by simp)).2 n1, e1]
      rfl
    · rw [List.getElem?_map, (h3 2 (by simp) (by simp)).2 n2, e2]
      rfl
  · have hl := h.1
    rw [List.getElem?_map, List.getElem?_eq_none (by rw [hl]; exact hi),
      List.getElem?_eq_none hi]
    rfl

theorem toDoubleQ_23_40 :
    JsNum.toDoubleQ (23 / 40) = JsNum.fin (2589569785738035 / 4503599627370496) := by
  rw [toDoubleQ_eq (23 / 40) (-1) 5179139571476070 (by norm_num) (by norm_num) (by norm_num)
    (by norm_num) (by rw [abs_lt]; norm_num)]
  norm_num

theorem toDoubleQ_23_40_mul_100 :
    JsNum.toDoubleQ (2589569785738035 / 4503599627370496 * 100)
      = JsNum.fin (8092405580431359 / 140737488355328) := by
  rw [toDoubleQ_eq (2589569785738035 / 4503599627370496 * 100) 5 8092405580431359 (by norm_num)
    (by norm_num) (by norm_num) (by norm_num) (by rw [abs_lt]; norm_num)]
  norm_num

/-- C17, the claim as stated fails: for the values 23 and 17 the exact
percentage of the first segment is `23 / 40 * 100 = 57.5`, which rounds half up
to 58, while the double product `(23 / 40) * 100` is
`8092405580431359 / 2 ^ 47 = 57.49999999999999...` and the legend shows 57. -/
theorem C17_half_way_percent_counterexample :
    ([23, 17] : List ℚ).sum ≠ 0 ∧
      (donutChart (fun _ => 0) (fun _ => 0) ([23, 17].map JsNum.fin) ["A", "B"]
          []).legend[0]?.map (fun r => r.percent) = some (JsNum.fin 57) ∧
      (⌊(23 : ℚ) / ([23, 17] : List ℚ).sum * 100 + 1 / 2⌋ : ℤ) = 58 ∧
      JsNum.fin 57 ≠ JsNum.fin (((58 : ℤ)) : ℚ) := by
  refine ⟨by norm_num, ?_, ?_, ?_⟩
  · rw [donutChart_legend_getElem?, jsIndexNum_fin [23, 17] 0 (by simp), donutTotal_fin,
      JsNum.fin_div _ _ (by norm_num)]
    have e : ([23, 17] : List ℚ)[0] / ([23, 17] : List ℚ).sum = 23 / 40 := by norm_num
    rw [e]
    simp only [JsNum.toDouble, toDoubleQ_23_40, JsNum.lit_eq, JsNum.fin_mul, Nat.cast_ofNat,
      toDoubleQ_23_40_mul_100, JsNum.round]
    have f : (⌊(8092405580431359 / 140737488355328 : ℚ) + 1 / 2⌋ : ℤ) = 57 := by
      rw [Int.floor_eq_iff]
      norm_num
    rw [f]
    rfl
  · rw [Int.floor_eq_iff]
    norm_num
  · intro h
    injection h with h
    norm_num at h

theorem donutWedges_zero_total (cosF sinF : ℚ → ℚ) (colors : List String) (n : Nat) :
    ∀ (i : Nat) (a : JsNum),
      ∀ w ∈ donutWedges cosF sinF (JsNum.fin 0) colors (List.replicate n (JsNum.fin 0)) i a,
        w.angle = JsNum.nan ∧ w.endAngle = JsNum.nan ∧ w.endX = JsNum.nan ∧
          w.endY = JsNum.nan := by
  induction n with
  | zero =>
    intro i a w hw
    simp [donutWedges] at hw
  | succ n ih =>
    intro i a w hw
    rw [List.replicate_succ, donutWedges, List.mem_cons] at hw
    rcases hw with rfl | hw
    · simp only [JsNum.zero_div_zero, JsNum.nan_mul, JsNum.add_nan, JsNum.nan_div, JsNum.trig,
        JsNum.mul_nan, and_self]
    · exact ih _ _ w hw

/-- C18, the code diverges: for a non-empty donut input whose values are all 0
the total is 0 and nothing is substituted for it: every wedge has sweep `0/0`,
that is `NaN`, and `NaN` end angle and arc end point, and every legend
percentage is `NaN`. -/
theorem C18_zero_total_is_nan (cosF sinF : ℚ → ℚ) (n : Nat) (labels colors : List String) :
    (donutChart cosF sinF (List.replicate (n + 1) (JsNum.fin 0)) labels colors).total
        = JsNum.fin 0 ∧
      (donutChart cosF sinF (List.replicate (n + 1) (JsNum.fin 0)) labels colors).wedges.length
        = n + 1 ∧
      (∀ w ∈ (donutChart cosF sinF (List.replicate (n + 1) (JsNum.fin 0)) labels colors).wedges,
        w.angle = JsNum.nan ∧ w.endAngle = JsNum.nan ∧ w.endX = JsNum.nan ∧
          w.endY = JsNum.nan) ∧
      (donutChart cosF sinF (List.replicate (n + 1) (JsNum.fin 0)) labels colors).legend.length
        = labels.length ∧
      (∀ r ∈ (donutChart cosF sinF (List.replicate (n + 1) (JsNum.fin 0)) labels colors).legend,
        r.percent = JsNum.nan) ∧
      ¬ JsNum.IsFinite JsNum.nan := by
  have ht : donutTotal (List.replicate (n + 1) (JsNum.fin 0)) = JsNum.fin 0 := by
    have e : List.replicate (n + 1) (JsNum.fin 0) = (List.replicate (n + 1) (0 : ℚ)).map JsNum.fin := by
      simp
    rw [e, donutTotal_fin]
    simp
  have hw : (donutChart cosF sinF (List.replicate (n + 1) (JsNum.fin 0)) labels colors).wedges
      = donutWedges cosF sinF (JsNum.fin 0) colors (List.replicate (n + 1) (JsNum.fin 0)) 0 0 := by
    unfold donutChart
    simp only [ht]
  refine ⟨ht, ?_, ?_, ?_, ?_, id⟩
  · rw [hw, donutWedges_length, List.length_replicate]
  · rw [hw]
    exact donutWedges_zero_total cosF sinF colors (n + 1) 0 0
  · unfold donutChart
    simp only [jsMapIdx_length]
  · intro r hr
    obtain ⟨i, hi⟩ := List.getElem?_of_mem hr
    have := donutChart_legend_getElem? cosF sinF (List.replicate (n + 1) (JsNum.fin 0)) labels
      colors i
    rw [hi, ht, Option.map_some'] at this
    cases hl : labels[i]? with
    | none => rw [hl] at this; simp at this
    | some l =>
      rw [hl, Option.map_some', Option.some.injEq] at this
      rw [this]
      have hz : jsIndexNum (List.replicate (n + 1) (JsNum.fin 0)) i / JsNum.fin 0 = JsNum.nan := by
        unfold jsIndexNum
        cases hx : (List.replicate (n + 1) (JsNum.fin 0))[i]? with
        | none => exact JsNum.nan_div _
        | some x =>
          have := List.eq_of_mem_replicate (List.getElem?_mem hx)
          simp only [this]
          exact JsNum.zero_div_zero
      rw [hz]
      rfl

theorem jsMapIdx_map {α β γ : Type} (f : α → Nat → β) (g : β → γ) (xs : List α) :
    (jsMapIdx f xs).map g = jsMapIdx (fun a i => g (f a i)) xs := by
  unfold jsMapIdx
  simp only [List.map_map]
  rfl

theorem jsMapIdx_const {α β : Type} (h : α → β) (xs : List α) :
    jsMapIdx (fun a _ => h a) xs = xs.map h := by
  unfold jsMapIdx
  have e : (fun p : Nat × α => (fun a _ => h a) p.2 p.1) = h ∘ Prod.snd := rfl
  rw [e, ← List.map_map, List.enum_map_snd]

/-- The denominator of `BarChart` on finite values: the greatest of the values
and 1. -/
theorem barMaxValue_fin (values : List ℚ) :
    ∃ m : ℚ, barMaxValue (values.map JsNum.fin) = JsNum.fin m ∧ 1 ≤ m ∧
      (∀ v ∈ values, v ≤ m) ∧ (m = 1 ∨ m ∈ values) := by
  obtain ⟨h1, h2, h3⟩ := foldl_max_spec values 1
  refine ⟨values.foldl max 1, ?_, h2, h3, h1⟩
  have e : values.map JsNum.fin ++ [(1 : JsNum)] = (values ++ [1]).map JsNum.fin := by
    rw [List.map_append, List.map_singleton, JsNum.lit_eq]
    norm_num
  unfold barMaxValue
  rw [e]
  apply mathMax_fin
  · rcases h1 with h | h
    · rw [h]; simp
    · exact List.mem_append_left _ h
  · intro v hv
    rcases List.mem_append.1 hv with h | h
    · exact h3 v h
    · rw [List.mem_singleton.1 h]; exact h2

/-- Height and top edge of the bars of `BarChart` on finite values, `m` being
the denominator. -/
theorem barChart_bars_fin (values : List ℚ) (labels : List String) (m : ℚ)
    (hm : barMaxValue (values.map JsNum.fin) = JsNum.fin m) (hm0 : m ≠ 0) :
    (barChart (values.map JsNum.fin) labels).bars.map (fun b => (b.height, b.y))
      = values.map (fun v => (JsNum.fin (v / m * 102), JsNum.fin (126 - v / m * 102))) := by
  unfold barChart
  simp only [hm, jsMapIdx_map, jsMapIdx_const, List.map_map]
  apply List.map_congr_left
  intro v _
  simp only [Function.comp, JsNum.lit_eq, JsNum.fin_sub, JsNum.fin_mul]
  rw [JsNum.fin_div _ _ hm0, JsNum.fin_mul, JsNum.or_fin]
  by_cases hz : v / m * (((150 : ℕ) : ℚ) - ((24 : ℕ) : ℚ) * ((2 : ℕ) : ℚ)) = 0
  · rw [if_pos hz, JsNum.fin_sub]
    have hz2 : v / m * 102 = 0 := by
      norm_num at hz ⊢
      exact hz
    rw [hz2]
    norm_num
  · rw [if_neg hz, JsNum.fin_sub]
    norm_num

/-! ## Claims on `BarChart` -/

theorem barChart_bars_length (values : List JsNum) (labels : List String) :
    (barChart values labels).bars.length = values.length := by
  unfold barChart
  simp only [jsMapIdx_length]

/-- C19: on finite values the denominator `Math.max(...values, 1)` of `BarChart`
is a finite number `m ≥ 1` (the greatest of the values and 1), so no bar height
divides by zero; and when all values are 0 every bar has height 0. -/
theorem C19_bar_denominator (values : List ℚ) (labels : List String) :
    (∃ m : ℚ, barMaxValue (values.map JsNum.fin) = JsNum.fin m ∧ 1 ≤ m ∧ m ≠ 0 ∧
        (∀ v ∈ values, v ≤ m) ∧ (m = 1 ∨ m ∈ values)) ∧
      (barChart (values.map JsNum.fin) labels).bars.length = values.length ∧
      ((∀ v ∈ values, v = 0) →
        ∀ b ∈ (barChart (values.map JsNum.fin) labels).bars, b.height = JsNum.fin 0) := by
  obtain ⟨m, hm, h1, hle, hmem⟩ := barMaxValue_fin values
  have hm0 : m ≠ 0 := by
    intro h
    rw [h] at h1
    norm_num at h1
  refine ⟨⟨m, hm, h1, hm0, hle, hmem⟩, ?_, ?_⟩
  · rw [barChart_bars_length, List.length_map]
  · intro hz b hb
    have hmap := barChart_bars_fin values labels m hm hm0
    have : (b.height, b.y) ∈ values.map
        (fun v => (JsNum.fin (v / m * 102), JsNum.fin (126 - v / m * 102))) := by
      rw [← hmap]
      exact List.mem_map_of_mem _ hb
    obtain ⟨v, hv, e⟩ := List.mem_map.1 this
    rw [hz v hv] at e
    have := (Prod.mk.inj e).1
    rw [← this]
    norm_num

/-- Witness of C19: the input 0, 0, 0 gives three bars of height 0. -/
theorem C19_bar_denominator_witness :
    (barChart ([0, 0, 0].map JsNum.fin) ["a", "b", "c"]).bars.length = 3 ∧
      ∀ b ∈ (barChart ([0, 0, 0].map JsNum.fin) ["a", "b", "c"]).bars,
        b.height = JsNum.fin 0 :=
  ⟨(C19_bar_denominator [0, 0, 0] ["a", "b", "c"]).2.1,
    (C19_bar_denominator [0, 0, 0] ["a", "b", "c"]).2.2 (by simp)⟩

/-- C20: for non-negative values, with `m` the greatest of the values and 1,
`BarChart` gives the bar of value `v` the height `h = v / m * 102` and the top
edge `y = 126 - h`; so `0 ≤ h ≤ 102`, the bottom edge `y + h` is the baseline
126, and a larger value never gets a shorter bar. -/
theorem C20_bar_heights (values : List ℚ) (labels : List String)
    (hnonneg : ∀ v ∈ values, 0 ≤ v) :
    ∃ m : ℚ, barMaxValue (values.map JsNum.fin) = JsNum.fin m ∧ 1 ≤ m ∧
      (∀ v ∈ values, v ≤ m) ∧ (m = 1 ∨ m ∈ values) ∧
      (barChart (values.map JsNum.fin) labels).bars.map (fun b => (b.height, b.y))
        = values.map (fun v => (JsNum.fin (v / m * 102), JsNum.fin (126 - v / m * 102))) ∧
      (∀ v ∈ values, 0 ≤ v / m * 102 ∧ v / m * 102 ≤ 102 ∧
        (126 - v / m * 102) + v / m * 102 = 126) ∧
      (∀ v w : ℚ, v ≤ w → v / m * 102 ≤ w / m * 102) := by
  obtain ⟨m, hm, h1, hle, hmem⟩ := barMaxValue_fin values
  have hpos : 0 < m := lt_of_lt_of_le one_pos h1
  refine ⟨m, hm, h1, hle, hmem, barChart_bars_fin values labels m hm (ne_of_gt hpos), ?_, ?_⟩
  · intro v hv
    have h0 : 0 ≤ v / m := div_nonneg (hnonneg v hv) (le_of_lt hpos)
    have h2 : v / m ≤ 1 := (div_le_one hpos).2 (hle v hv)
    refine ⟨by linarith, by linarith, by ring⟩
  · intro v w hvw
    have : v / m ≤ w / m := div_le_div_of_nonneg_right hvw (le_of_lt hpos)
    linarith

/-- Witness of C20: the values 2, 4 give heights 51, 102 and top edges 75, 24. -/
theorem C20_bar_heights_witness :
    (barChart ([2, 4].map JsNum.fin) ["a", "b"]).bars.map (fun b => (b.height, b.y))
      = [(JsNum.fin 51, JsNum.fin 75), (JsNum.fin 102, JsNum.fin 24)] := by
  obtain ⟨m, _, h1, hle, hmem, hb, _, _⟩ := C20_bar_heights [2, 4] ["a", "b"] (by norm_num)
  have hm : m = 4 := by
    have h4 := hle 4 (by simp)
    rcases hmem with h | h
    · rw [h] at h4
      norm_num at h4
    · simp only [List.mem_cons, List.mem_singleton, List.not_mem_nil, or_false] at h
      rcases h with h | h
      · rw [h] at h4
        norm_num at h4
      · exact h
  rw [hb, hm]
  simp only [List.map_cons, List.map_nil]
  norm_num

/-! ## Further claims on `BarChart` -/

theorem jsMapIdx_index {α β : Type} (g : Nat → β) (xs : List α) :
    jsMapIdx (fun _ i => g i) xs = (List.range xs.length).map g := by
  unfold jsMapIdx
  have e : (fun p : Nat × α => (fun _ i => g i) p.2 p.1) = g ∘ Prod.fst := rfl
  rw [e, ← List.map_map, List.enum_map_fst]

theorem barWidth_fin (n : Nat) (hn : 1 ≤ n) :
    ((300 : JsNum) - 24 * 2) / JsNum.ofNat n - 8 = JsNum.fin (barW n) := by
  have h : (n : ℚ) ≠ 0 := by
    have : (1 : ℚ) ≤ n := by exact_mod_cast hn
    intro e
    linarith
  simp only [JsNum.lit_eq, JsNum.ofNat_eq, JsNum.fin_sub, JsNum.fin_mul]
  rw [JsNum.fin_div _ _ h, JsNum.fin_sub]
  unfold barW
  norm_num

theorem barX_fin (n i : Nat) :
    (24 : JsNum) + JsNum.ofNat i * (JsNum.fin (barW n) + 8) = JsNum.fin (barX n i) := by
  simp only [JsNum.lit_eq, JsNum.ofNat_eq, JsNum.fin_add, JsNum.fin_mul]
  unfold barX
  norm_num

theorem barChart_bars_x_width (values : List JsNum) (labels : List String)
    (hn : 1 ≤ values.length) :
    (barChart values labels).bars.map (fun b => (b.x, b.width))
      = (List.range values.length).map (fun i =>
          (JsNum.fin (barX values.length i), JsNum.fin (barW values.length))) := by
  unfold barChart
  simp only [jsMapIdx_map, barWidth_fin values.length hn, barX_fin]
  exact jsMapIdx_index _ values

/-- C22: for `n ≥ 1` values `BarChart` gives every bar the width
`w = 252/n - 8` and places bar `i` at `x_i = 24 + i * (w + 8)`: the first bar
starts at 24, each bar starts 8 after the right edge of the previous one, and
the right edge of the last bar is 268, inside the right margin 276. -/
theorem C22_bar_layout (values : List JsNum) (labels : List String)
    (hn : 1 ≤ values.length) :
    (barChart values labels).bars.map (fun b => (b.x, b.width))
        = (List.range values.length).map (fun (i : Nat) =>
            (JsNum.fin (24 + (i : ℚ) * ((252 / (values.length : ℚ) - 8) + 8)),
              JsNum.fin (252 / (values.length : ℚ) - 8))) ∧
      barX values.length 0 = 24 ∧
      (∀ i, barX values.length (i + 1) - (barX values.length i + barW values.length) = 8) ∧
      barX values.length (values.length - 1) + barW values.length = 268 ∧
      (268 : ℚ) ≤ 300 - 24 := by
  have hq : (1 : ℚ) ≤ (values.length : ℚ) := by exact_mod_cast hn
  have hne : (values.length : ℚ) ≠ 0 := by
    intro e
    linarith
  refine ⟨barChart_bars_x_width values labels hn, ?_, ?_, ?_, by norm_num⟩
  · unfold barX
    simp
  · intro i
    unfold barX
    push_cast
    ring
  · unfold barX barW
    rw [Nat.cast_sub hn]
    field_simp
    ring

/-- Witness of C22: two bars have width 118 and start at 24 and 150. -/
theorem C22_bar_layout_witness :
    (barChart [JsNum.fin 2, JsNum.nan] []).bars.map (fun b => (b.x, b.width))
      = [(JsNum.fin 24, JsNum.fin 118), (JsNum.fin 150, JsNum.fin 118)] := by
  rw [(C22_bar_layout [JsNum.fin 2, JsNum.nan] [] (by simp)).1]
  have hr : List.range 2 = [0, 1] := rfl
  simp only [List.length_cons, List.length_nil, hr, List.map_cons, List.map_nil]
  norm_num

/-- C28: for `n ≥ 1` values the bar width `252/n - 8` is positive if and only if
`n ≤ 31`; so a bar rectangle has a positive width exactly when the number of
values is between 1 and 31, and for 32 or more values the width of every bar
rectangle is negative. -/
theorem C28_bar_width_sign (values : List JsNum) (labels : List String) :
    (∀ n : Nat, 1 ≤ n → (0 < barW n ↔ n ≤ 31)) ∧
      (∀ n : Nat, 32 ≤ n → barW n < 0) ∧
      (∀ b ∈ (barChart values labels).bars,
        (JsNum.gt b.width 0 = true ↔ 1 ≤ values.length ∧ values.length ≤ 31)) ∧
      (32 ≤ values.length →
        ∀ b ∈ (barChart values labels).bars,
          b.width = JsNum.fin (252 / (values.length : ℚ) - 8) ∧ JsNum.gt 0 b.width = true) := by
  have hsign : ∀ n : Nat, 1 ≤ n → (0 < barW n ↔ n ≤ 31) := by
    intro n hn
    have hq : (0 : ℚ) < (n : ℚ) := by exact_mod_cast hn
    unfold barW
    rw [sub_pos, lt_div_iff₀ hq]
    constructor
    · intro h
      have h2 : (8 * n : ℚ) < 252 := by linarith
      have h3 : 8 * n < 252 := by exact_mod_cast h2
      omega
    · intro h
      have h3 : 8 * n < 252 := by omega
      have h2 : ((8 * n : ℕ) : ℚ) < ((252 : ℕ) : ℚ) := by exact_mod_cast h3
      push_cast at h2
      linarith
  have hneg : ∀ n : Nat, 32 ≤ n → barW n < 0 := by
    intro n hn
    have hq : (0 : ℚ) < (n : ℚ) := by
      have : 0 < n := by omega
      exact_mod_cast this
    have h32 : (32 : ℚ) ≤ (n : ℚ) := by exact_mod_cast hn
    unfold barW
    rw [sub_neg, div_lt_iff₀ hq]
    linarith
  have hbar : ∀ b ∈ (barChart values labels).bars,
      1 ≤ values.length ∧ b.width = JsNum.fin (barW values.length) := by
    intro b hb
    have hlen : 1 ≤ values.length := by
      have h1 := List.length_pos_of_mem hb
      rw [barChart_bars_length] at h1
      exact h1
    refine ⟨hlen, ?_⟩
    have hm := barChart_bars_x_width values labels hlen
    have : (b.x, b.width) ∈ (List.range values.length).map (fun i =>
        (JsNum.fin (barX values.length i), JsNum.fin (barW values.length))) := by
      rw [← hm]
      exact List.mem_map_of_mem _ hb
    obtain ⟨i, _, e⟩ := List.mem_map.1 this
    exact (Prod.mk.inj e).2.symm
  refine ⟨hsign, hneg, ?_, ?_⟩
  · intro b hb
    obtain ⟨hlen, hw⟩ := hbar b hb
    rw [hw, JsNum.lit_eq]
    have : JsNum.gt (JsNum.fin (barW values.length)) (JsNum.fin ((0 : ℕ) : ℚ)) = true ↔
        0 < barW values.length := by
      unfold JsNum.gt
      simp
    rw [this, hsign _ hlen]
    exact ⟨fun h => ⟨hlen, h⟩, fun h => h.2⟩
  · intro h32 b hb
    obtain ⟨_, hw⟩ := hbar b hb
    refine ⟨hw, ?_⟩
    rw [hw, JsNum.lit_eq]
    have := hneg _ h32
    unfold JsNum.gt
    simpa using this

theorem bar_height_fin (v m : ℚ) (hm : m ≠ 0) :
    JsNum.or ((JsNum.fin v / JsNum.fin m) * ((150 : JsNum) - 24 * 2)) 0
      = JsNum.fin (v / m * 102) := by
  simp only [JsNum.lit_eq, JsNum.fin_sub, JsNum.fin_mul]
  rw [JsNum.fin_div _ _ hm, JsNum.fin_mul, JsNum.or_fin]
  by_cases hz : v / m * (((150 : ℕ) : ℚ) - ((24 : ℕ) : ℚ) * ((2 : ℕ) : ℚ)) = 0
  · rw [if_pos hz]
    have hz2 : v / m * 102 = 0 := by
      norm_num at hz ⊢
      exact hz
    rw [hz2]
    norm_num
  · rw [if_neg hz]
    norm_num

theorem barChart_valueText_fin (values : List ℚ) (labels : List String) (m : ℚ)
    (hm : barMaxValue (values.map JsNum.fin) = JsNum.fin m) (hpos : 0 < m)
    (i : Nat) (hi : i < values.length) :
    (barChart (values.map JsNum.fin) labels).bars[i]?.map (fun b => b.valueText)
      = some (if 0 < values[i] then
          some (JsNum.fin (barX values.length i + barW values.length / 2),
            JsNum.fin (126 - values[i] / m * 102 - 6), JsNum.fin values[i])
        else none) := by
  have hn : 1 ≤ (values.map JsNum.fin).length := by
    rw [List.length_map]
    omega
  unfold barChart
  simp only [jsMapIdx_getElem?, hm, barWidth_fin _ hn, barX_fin, Option.map_map]
  rw [List.getElem?_map, List.getElem?_eq_getElem hi]
  simp only [Option.map_some', Function.comp, bar_height_fin _ _ (ne_of_gt hpos),
    List.length_map]
  simp only [JsNum.lit_eq, JsNum.fin_sub, JsNum.fin_add,
    JsNum.fin_div _ _ (show (((2 : ℕ) : ℚ)) ≠ 0 by norm_num)]
  have hgt : JsNum.gt (JsNum.fin (values[i] / m * 102)) (JsNum.fin ((0 : ℕ) : ℚ)) = true ↔
      0 < values[i] := by
    unfold JsNum.gt
    simp only [Nat.cast_zero, decide_eq_true_eq]
    constructor
    · intro h
      by_contra hc
      have : values[i] / m ≤ 0 := div_nonpos_of_nonpos_of_nonneg (not_lt.1 hc) (le_of_lt hpos)
      linarith
    · intro h
      have : 0 < values[i] / m := div_pos h hpos
      linarith
  by_cases hv : 0 < values[i]
  · rw [if_pos (hgt.2 hv), if_pos hv]
    norm_num
  · rw [if_neg (mt hgt.1 hv), if_neg hv]

theorem barChart_labelTexts_eq (values : List JsNum) (labels : List String)
    (hn : 1 ≤ values.length) :
    (barChart values labels).labelTexts
      = jsMapIdx (fun label i =>
          (JsNum.fin (barX values.length i + barW values.length / 2), JsNum.fin 144, label))
        labels := by
  unfold barChart
  simp only [barWidth_fin _ hn, barX_fin]
  simp only [JsNum.lit_eq, JsNum.fin_sub, JsNum.fin_add,
    JsNum.fin_div _ _ (show (((2 : ℕ) : ℚ)) ≠ 0 by norm_num)]
  norm_num

/-- C21, the claim fails: for the input 0, 5 `BarChart` emits two bars but the
first bar, of height 0, has no value label (`h > 0` is false), so there are
fewer numeric labels than values. -/
theorem C21_zero_bar_unlabelled_counterexample :
    (barChart ([0, 5].map JsNum.fin) ["a", "b"]).bars.length = 2 ∧
      (barChart ([0, 5].map JsNum.fin) ["a", "b"]).bars[0]?.map (fun b => b.valueText)
        = some none ∧
      ((barChart ([0, 5].map JsNum.fin) ["a", "b"]).bars[1]?.map
        (fun b => b.valueText.isSome)) = some true := by
  obtain ⟨m, hm, h1, _, _⟩ := barMaxValue_fin [0, 5]
  have hpos : 0 < m := lt_of_lt_of_le one_pos h1
  have h0 := barChart_valueText_fin [0, 5] ["a", "b"] m hm hpos 0 (by simp)
  have h5 := barChart_valueText_fin [0, 5] ["a", "b"] m hm hpos 1 (by simp)
  refine ⟨by rw [barChart_bars_length]; rfl, ?_, ?_⟩
  · rw [h0]
    simp
  · have e : ∀ o : Option Bar, o.map (fun b => b.valueText.isSome)
        = (o.map (fun b => b.valueText)).map Option.isSome := by
      intro o
      cases o <;> rfl
    rw [e, h5]
    simp

/-- C21 as amended: for a non-empty input of finite values, with `m` the
denominator, `BarChart` gives bar `i` a numeric value label exactly when its
value is positive (its height is `> 0`), placed above the bar at
`(x_i + w/2, y_i - 6)` and showing the value; a bar of value 0 has no value
label. It emits one category label per entry of `labels`, label `i` at
`(x_i + w/2, 144)`, under the centre of bar `i`. -/
theorem C21_value_labels (values : List ℚ) (labels : List String) (hne : values ≠ []) :
    ∃ m : ℚ, barMaxValue (values.map JsNum.fin) = JsNum.fin m ∧ 1 ≤ m ∧
      (barChart (values.map JsNum.fin) labels).bars.length = values.length ∧
      (∀ i (hi : i < values.length),
        (barChart (values.map JsNum.fin) labels).bars[i]?.map (fun b => b.valueText)
          = some (if 0 < values[i] then
              some (JsNum.fin (barX values.length i + barW values.length / 2),
                JsNum.fin (126 - values[i] / m * 102 - 6), JsNum.fin values[i])
            else none)) ∧
      (barChart (values.map JsNum.fin) labels).labelTexts.length = labels.length ∧
      (∀ i (hi : i < labels.length),
        (barChart (values.map JsNum.fin) labels).labelTexts[i]?
          = some (JsNum.fin (barX values.length i + barW values.length / 2), JsNum.fin 144,
              labels[i])) := by
  obtain ⟨m, hm, h1, _, _⟩ := barMaxValue_fin values
  have hpos : 0 < m := lt_of_lt_of_le one_pos h1
  have hn : 1 ≤ (values.map JsNum.fin).length := by
    rw [List.length_map]
    exact List.length_pos.2 hne
  have hl := barChart_labelTexts_eq (values.map JsNum.fin) labels hn
  rw [List.length_map] at hl
  refine ⟨m, hm, h1, ?_, ?_, ?_, ?_⟩
  · rw [barChart_bars_length, List.length_map]
  · intro i hi
    exact barChart_valueText_fin values labels m hm hpos i hi
  · rw [hl, jsMapIdx_length]
  · intro i hi
    rw [hl, jsMapIdx_getElem?, List.getElem?_eq_getElem hi, Option.map_some']

/-- Witness of C21: for the input 2, 4 the first bar carries the label 2 at
`(83, 69)`, above its top edge 75. -/
theorem C21_value_labels_witness :
    (barChart ([2, 4].map JsNum.fin) ["a", "b"]).bars[0]?.map (fun b => b.valueText)
      = some (some (JsNum.fin 83, JsNum.fin 69, JsNum.fin 2)) := by
  obtain ⟨m, hm, _, _, h, _, _⟩ := C21_value_labels [2, 4] ["a", "b"] (by simp)
  obtain ⟨m2, hm2, h1, hle, hmem⟩ := barMaxValue_fin [2, 4]
  have hmm : m = m2 := by
    have := hm.symm.trans hm2
    exact JsNum.fin.inj this
  have hm4 : m = 4 := by
    rw [hmm]
    have h4 := hle 4 (by simp)
    rcases hmem with e | e
    · rw [e] at h4
      norm_num at h4
    · simp only [List.mem_cons, List.mem_singleton, List.not_mem_nil, or_false] at e
      rcases e with e | e
      · rw [e] at h4
        norm_num at h4
      · exact e
  rw [h 0 (by simp), hm4]
  simp only [List.getElem_cons_zero, List.length_cons, List.length_nil, barX, barW]
  norm_num

/-- C23: on an empty series (no values, no labels) `LineChart` emits no point,
no marker and no label, `DonutChart` no wedge and no legend row, `BarChart` no
bar and no label; the intermediate values are `Math.max() = -Infinity`,
`Math.min() = Infinity`, total 0 and bar width `252/0 - 8 = Infinity`, and no
operation throws. -/
theorem C23_empty_series (cosF sinF : ℚ → ℚ) (colors : List String) :
    lineChart [] [] = { normalizedData := [], points := [], circles := [], labelTexts := [] } ∧
      donutChart cosF sinF [] [] colors = { total := JsNum.fin 0, wedges := [], legend := [] } ∧
      barChart [] [] = { bars := [], labelTexts := [] } ∧
      JsNum.mathMax [] = JsNum.negInf ∧ JsNum.mathMin [] = JsNum.posInf ∧
      ((300 : JsNum) - 24 * 2) / JsNum.ofNat ([] : List JsNum).length - 8 = JsNum.posInf := by
  refine ⟨rfl, ?_, rfl, rfl, rfl, ?_⟩
  · unfold donutChart donutTotal
    simp only [List.foldl_nil, donutWedges, JsNum.lit_eq]
    simp [jsMapIdx]
  · simp only [List.length_nil, JsNum.lit_eq, JsNum.ofNat_eq, JsNum.fin_sub, JsNum.fin_mul]
    norm_num
    show JsNum.sub (JsNum.div (JsNum.fin 252) (JsNum.fin 0)) (JsNum.fin 8) = JsNum.posInf
    simp [JsNum.div, JsNum.sub, JsNum.neg, JsNum.add]

/-! ## Further claims on `DonutChart` -/

theorem pair_le_sum (l : List ℚ) (hnn : ∀ v ∈ l, 0 ≤ v) (i j : Nat) (hi : i < l.length)
    (hj : j < l.length) (hij : i < j) : l[i] + l[j] ≤ l.sum := by
  have hs := List.sum_take_add_sum_drop l j
  rw [List.drop_eq_getElem_cons hj, List.sum_cons] at hs
  have hmem : l[i] ∈ l.take j := by
    rw [List.mem_take_iff_getElem]
    exact ⟨i, by omega, rfl⟩
  have h1 : l[i] ≤ (l.take j).sum :=
    List.single_le_sum (fun x hx => hnn x (List.mem_of_mem_take hx)) _ hmem
  have h2 : 0 ≤ (l.drop (j + 1)).sum :=
    List.sum_nonneg (fun x hx => hnn x (List.mem_of_mem_drop hx))
  linarith

/-- The arc flag and the arc endpoints of every wedge are computed from its
angles. -/
theorem donutWedges_struct (cosF sinF : ℚ → ℚ) (total : JsNum) (colors : List String)
    (vs : List JsNum) : ∀ (i : Nat) (a : JsNum),
      ∀ w ∈ donutWedges cosF sinF total colors vs i a,
        w.largeArcFlag = (if JsNum.gt w.angle 180 then 1 else 0) ∧
        w.startX = (120 : JsNum) / 2
          + ((120 : JsNum) / 2 - 10) * JsNum.trig cosF (w.startAngle * JsNum.mathPI / 180) ∧
        w.startY = (120 : JsNum) / 2
          + ((120 : JsNum) / 2 - 10) * JsNum.trig sinF (w.startAngle * JsNum.mathPI / 180) ∧
        w.endX = (120 : JsNum) / 2
          + ((120 : JsNum) / 2 - 10) * JsNum.trig cosF (w.endAngle * JsNum.mathPI / 180) ∧
        w.endY = (120 : JsNum) / 2
          + ((120 : JsNum) / 2 - 10) * JsNum.trig sinF (w.endAngle * JsNum.mathPI / 180) := by
  induction vs with
  | nil =>
    intro i a w hw
    simp [donutWedges] at hw
  | cons v rest ih =>
    intro i a w hw
    rw [donutWedges, List.mem_cons] at hw
    rcases hw with rfl | hw
    · exact ⟨rfl, rfl, rfl, rfl, rfl⟩
    · exact ih _ _ w hw

/-- The wedge of index `i` of a donut of finite values with non-zero total. -/
theorem donut_wedge_at (cosF sinF : ℚ → ℚ) (values : List ℚ) (labels colors : List String)
    (htotal : values.sum ≠ 0) (i : Nat) (hi : i < values.length) :
    ∃ w, (donutChart cosF sinF (values.map JsNum.fin) labels colors).wedges[i]? = some w ∧
      w ∈ (donutChart cosF sinF (values.map JsNum.fin) labels colors).wedges ∧
      w.angle = JsNum.fin (donutSweep values.sum values[i]) ∧
      w.startAngle = JsNum.fin ((values.take i).map (donutSweep values.sum)).sum ∧
      w.endAngle = JsNum.fin ((values.take (i + 1)).map (donutSweep values.sum)).sum := by
  have hlen : i < (donutChart cosF sinF (values.map JsNum.fin) labels colors).wedges.length := by
    rw [donutChart_wedges_fin, donutWedges_length, List.length_map]
    exact hi
  have hrow := donutWedges_angles cosF sinF values.sum colors htotal values 0 0 i
  rw [← donutChart_wedges_fin cosF sinF values labels colors, List.getElem?_eq_getElem hlen,
    List.getElem?_eq_getElem hi, Option.map_some', Option.map_some', Option.some.injEq,
    Prod.mk.injEq, Prod.mk.injEq] at hrow
  refine ⟨_, List.getElem?_eq_getElem hlen, List.getElem_mem _, hrow.1, ?_, ?_⟩
  · rw [hrow.2.1, zero_add]
  · rw [hrow.2.2, zero_add]

theorem donut_flag_at (cosF sinF : ℚ → ℚ) (values : List ℚ) (labels colors : List String)
    (htotal : values.sum ≠ 0) (i : Nat) (hi : i < values.length) :
    (donutChart cosF sinF (values.map JsNum.fin) labels colors).wedges[i]?.map
        (fun w => w.largeArcFlag)
      = some (if 180 < values[i] / values.sum * 360 then 1 else 0) := by
  obtain ⟨w, hw, hmem, hang, _, _⟩ := donut_wedge_at cosF sinF values labels colors htotal i hi
  have hs := (donutWedges_struct cosF sinF _ colors _ 0 0 w (by
    unfold donutChart at hmem
    exact hmem)).1
  rw [hw, Option.map_some', hs, hang, JsNum.lit_eq]
  unfold JsNum.gt donutSweep
  simp

/-- C24: for non-negative values with total > 0 the large-arc flag of wedge `i`
is 1 exactly when its sweep `value_i / total * 360` exceeds 180, that is when
`value_i > total / 2`, and 0 otherwise; at most one wedge has the flag set. -/
theorem C24_large_arc_flag (cosF sinF : ℚ → ℚ) (values : List ℚ) (labels colors : List String)
    (hnonneg : ∀ v ∈ values, 0 ≤ v) (hpos : 0 < values.sum) :
    (∀ i (hi : i < values.length),
      (donutChart cosF sinF (values.map JsNum.fin) labels colors).wedges[i]?.map
          (fun w => w.largeArcFlag)
        = some (if 180 < values[i] / values.sum * 360 then 1 else 0)) ∧
      (∀ v : ℚ, 180 < v / values.sum * 360 ↔ values.sum / 2 < v) ∧
      (∀ i j, i < values.length → j < values.length →
        (donutChart cosF sinF (values.map JsNum.fin) labels colors).wedges[i]?.map
            (fun w => w.largeArcFlag) = some 1 →
        (donutChart cosF sinF (values.map JsNum.fin) labels colors).wedges[j]?.map
            (fun w => w.largeArcFlag) = some 1 →
        i = j) := by
  have htotal : values.sum ≠ 0 := ne_of_gt hpos
  have hhalf : ∀ v : ℚ, 180 < v / values.sum * 360 ↔ values.sum / 2 < v := by
    intro v
    rw [div_mul_eq_mul_div, lt_div_iff₀ hpos]
    constructor <;> intro h <;> linarith
  have hflag : ∀ i (hi : i < values.length),
      (donutChart cosF sinF (values.map JsNum.fin) labels colors).wedges[i]?.map
          (fun w => w.largeArcFlag) = some 1 → values.sum / 2 < values[i] := by
    intro i hi h
    rw [donut_flag_at cosF sinF values labels colors htotal i hi] at h
    by_cases c : 180 < values[i] / values.sum * 360
    · exact (hhalf _).1 c
    · rw [if_neg c] at h
      exact absurd (Option.some.inj h) (by decide)
  refine ⟨fun i hi => donut_flag_at cosF sinF values labels colors htotal i hi, hhalf, ?_⟩
  intro i j hi hj fi fj
  have vi := hflag i hi fi
  have vj := hflag j hj fj
  by_contra hne
  rcases Nat.lt_or_gt_of_ne hne with h | h
  · have := pair_le_sum values hnonneg i j hi hj h
    linarith
  · have := pair_le_sum values hnonneg j i hj hi h
    linarith

/-- Witness of C24: of the values 1, 5, 2 only the second wedge (sweep 225) has
the flag set. -/
theorem C24_large_arc_flag_witness :
    (donutChart (fun _ => 0) (fun _ => 0) ([1, 5, 2].map JsNum.fin) [] []).wedges[1]?.map
        (fun w => w.largeArcFlag) = some 1 ∧
      (donutChart (fun _ => 0) (fun _ => 0) ([1, 5, 2].map JsNum.fin) [] []).wedges[2]?.map
        (fun w => w.largeArcFlag) = some 0 := by
  have h := (C24_large_arc_flag (fun _ => 0) (fun _ => 0) [1, 5, 2] [] []
    (by norm_num) (by norm_num)).1
  constructor
  · rw [h 1 (by simp)]
    norm_num
  · rw [h 2 (by simp)]
    norm_num

theorem donutPoint_fin (f : ℚ → ℚ) (angle : ℚ) :
    (120 : JsNum) / 2 + ((120 : JsNum) / 2 - 10)
        * JsNum.trig f (JsNum.fin angle * JsNum.mathPI / 180)
      = JsNum.fin (donutPoint f angle) := by
  have h2 : (((2 : ℕ) : ℚ)) ≠ 0 := by norm_num
  have h180 : (((180 : ℕ) : ℚ)) ≠ 0 := by norm_num
  simp only [JsNum.lit_eq, JsNum.mathPI, JsNum.fin_mul, JsNum.fin_div _ _ h2,
    JsNum.fin_div _ _ h180, JsNum.fin_sub, JsNum.trig, JsNum.fin_add]
  unfold donutPoint
  norm_num

theorem donutPoint_zero (f : ℚ → ℚ) : donutPoint f 0 = 60 + 50 * f 0 := by
  unfold donutPoint
  norm_num

theorem donutPoint_full (f : ℚ → ℚ) : donutPoint f 360 = 60 + 50 * f twoPi := by
  unfold donutPoint twoPi
  norm_num

theorem sum_replicate_zero_cons (a b : Nat) (v : ℚ) :
    (List.replicate a (0 : ℚ) ++ v :: List.replicate b 0).sum = v := by
  simp

/-- The wedge of the one positive value `v` of a donut whose other values are
0: sweep 360 from 0 to 360, and its arc endpoints. -/
theorem donut_full_wedge (cosF sinF : ℚ → ℚ) (a b : Nat) (v : ℚ) (labels colors : List String)
    (hv : 0 < v) :
    ∃ w, (donutChart cosF sinF ((List.replicate a (0 : ℚ) ++ v :: List.replicate b 0).map
          JsNum.fin) labels colors).wedges[a]? = some w ∧
      w.angle = JsNum.fin 360 ∧ w.startAngle = JsNum.fin 0 ∧ w.endAngle = JsNum.fin 360 ∧
      w.startX = JsNum.fin (60 + 50 * cosF 0) ∧ w.startY = JsNum.fin (60 + 50 * sinF 0) ∧
      w.endX = JsNum.fin (60 + 50 * cosF twoPi) ∧ w.endY = JsNum.fin (60 + 50 * sinF twoPi) := by
  have hsum := sum_replicate_zero_cons a b v
  have hne : v ≠ 0 := ne_of_gt hv
  have hi : a < (List.replicate a (0 : ℚ) ++ v :: List.replicate b 0).length := by
    simp
  have hget : (List.replicate a (0 : ℚ) ++ v :: List.replicate b 0)[a] = v := by
    rw [List.getElem_append_right (by simp)]
    simp
  obtain ⟨w, hw, hmem, hang, hstart, hend⟩ := donut_wedge_at cosF sinF
    (List.replicate a (0 : ℚ) ++ v :: List.replicate b 0) labels colors
    (by rw [hsum]; exact hne) a hi
  rw [hsum] at hang hstart hend
  have hang2 : w.angle = JsNum.fin 360 := by
    rw [hang, hget]
    unfold donutSweep
    rw [div_self hne]
    norm_num
  have hstart2 : w.startAngle = JsNum.fin 0 := by
    rw [hstart]
    have : List.take a (List.replicate a (0 : ℚ) ++ v :: List.replicate b 0)
        = List.replicate a 0 := by
      rw [List.take_append_of_le_length (by simp)]
      simp
    rw [this]
    simp [donutSweep]
  have hend2 : w.endAngle = JsNum.fin 360 := by
    rw [hend]
    have : List.take (a + 1) (List.replicate a (0 : ℚ) ++ v :: List.replicate b 0)
        = List.replicate a 0 ++ [v] := by
      rw [List.take_append_eq_append_take]
      simp
    rw [this]
    simp only [List.map_append, List.map_replicate, List.map_cons, List.map_nil, List.sum_append,
      List.sum_replicate, List.sum_cons, List.sum_nil, donutSweep]
    rw [div_self hne]
    norm_num
  have hs := donutWedges_struct cosF sinF _ colors _ 0 0 w (by
    unfold donutChart at hmem
    exact hmem)
  refine ⟨w, hw, hang2, hstart2, hend2, ?_, ?_, ?_, ?_⟩
  · rw [hs.2.1, hstart2, donutPoint_fin, donutPoint_zero]
  · rw [hs.2.2.1, hstart2, donutPoint_fin, donutPoint_zero]
  · rw [hs.2.2.2.1, hend2, donutPoint_fin, donutPoint_full]
  · rw [hs.2.2.2.2, hend2, donutPoint_fin, donutPoint_full]

/-- C27, the claim fails: for the single value 5, with a sine that returns what
`Math.sin` returns at 0 and at `2 * Math.PI`, the wedge has sweep 360 but its
arc starts at `(110, 60)` and ends at `(110, 60 + 50 * sin(2 * Math.PI))`,
which is a different point. -/
theorem C27_full_wedge_endpoints_counterexample :
    ∃ w, (donutChart engineCos engineSin ([5].map JsNum.fin) ["Taken"] ["#22c55e"]).wedges[0]?
        = some w ∧
      w.angle = JsNum.fin 360 ∧
      (w.startX, w.startY) = (JsNum.fin 110, JsNum.fin 60) ∧
      w.endY ≠ w.startY ∧ (w.startX, w.startY) ≠ (w.endX, w.endY) := by
  obtain ⟨w, hw, hang, _, _, hsx, hsy, _, hey⟩ :=
    donut_full_wedge engineCos engineSin 0 0 5 ["Taken"] ["#22c55e"] (by norm_num)
  have hne : w.endY ≠ w.startY := by
    rw [hey, hsy]
    intro h
    have := JsNum.fin.inj h
    unfold engineSin twoPi at this
    norm_num at this
  refine ⟨w, hw, hang, ?_, hne, ?_⟩
  · rw [hsx, hsy]
    unfold engineCos engineSin
    norm_num
  · intro h
    exact hne (Prod.mk.inj h).2.symm

/-- C27 as amended: when one value `v > 0` carries the whole total (the other
values are 0) its wedge has sweep 360, starts at angle 0 and ends at angle 360;
its arc starts at `(60 + 50 cos 0, 60 + 50 sin 0)` and ends at
`(60 + 50 cos(2 Math.PI), 60 + 50 sin(2 Math.PI))`, so the two endpoints
coincide exactly when the platform cosine and sine take the same values at
`2 * Math.PI` as at 0. -/
theorem C27_full_wedge (cosF sinF : ℚ → ℚ) (a b : Nat) (v : ℚ) (labels colors : List String)
    (hv : 0 < v) :
    ∃ w, (donutChart cosF sinF ((List.replicate a (0 : ℚ) ++ v :: List.replicate b 0).map
          JsNum.fin) labels colors).wedges[a]? = some w ∧
      w.angle = JsNum.fin 360 ∧ w.startAngle = JsNum.fin 0 ∧ w.endAngle = JsNum.fin 360 ∧
      w.startX = JsNum.fin (60 + 50 * cosF 0) ∧ w.startY = JsNum.fin (60 + 50 * sinF 0) ∧
      w.endX = JsNum.fin (60 + 50 * cosF twoPi) ∧ w.endY = JsNum.fin (60 + 50 * sinF twoPi) ∧
      ((w.startX, w.startY) = (w.endX, w.endY) ↔
        cosF twoPi = cosF 0 ∧ sinF twoPi = sinF 0) := by
  obtain ⟨w, hw, hang, hs, he, hsx, hsy, hex, hey⟩ :=
    donut_full_wedge cosF sinF a b v labels colors hv
  refine ⟨w, hw, hang, hs, he, hsx, hsy, hex, hey, ?_⟩
  rw [hsx, hsy, hex, hey]
  constructor
  · intro h
    have h1 := JsNum.fin.inj (Prod.mk.inj h).1
    have h2 := JsNum.fin.inj (Prod.mk.inj h).2
    constructor <;> linarith
  · rintro ⟨h1, h2⟩
    rw [h1, h2]

/-- Witness of C27: the adherence donut `[taken, due] = [3, 0]` on a platform
whose cosine and sine are constant: the wedge of 3 has sweep 360 and its
endpoints coincide. -/
theorem C27_full_wedge_witness :
    ∃ w, (donutChart (fun _ => 1) (fun _ => 0) ([3, 0].map JsNum.fin) ["Taken", "Due"]
        ["#22c55e", "#f59e0b"]).wedges[0]? = some w ∧
      w.angle = JsNum.fin 360 ∧ (w.startX, w.startY) = (w.endX, w.endY) := by
  obtain ⟨w, hw, hang, _, _, _, _, _, _, h⟩ :=
    C27_full_wedge (fun _ => 1) (fun _ => 0) 0 1 3 ["Taken", "Due"] ["#22c55e", "#f59e0b"]
      (by norm_num)
  exact ⟨w, hw, hang, h.2 ⟨rfl, rfl⟩⟩

/-! ## Claims on the classifier as a function of severity, history and time -/

/-- C25: for every tag list, severity and duration, two calls with any two
histories at any two moments (with valid cutoffs) return results that agree on
tier, recommendation, actions and confidence. -/
theorem C25_fields_independent_of_history (history1 history2 : List HistoryEntry)
    (now1 now2 : Int) (symptoms : List String) (severity : Int) (duration : String)
    (h1 : CutoffValid now1) (h2 : CutoffValid now2) :
    ∃ r1 r2,
      getAIRecommendation history1 now1 symptoms severity duration = some r1 ∧
      getAIRecommendation history2 now2 symptoms severity duration = some r2 ∧
      r1.severity = r2.severity ∧ r1.recommendation = r2.recommendation ∧
      r1.actions = r2.actions ∧ r1.confidence = r2.confidence := by
  have e1 := getAIRecommendation_eq_classify history1 now1 symptoms severity duration h1
  have e2 := getAIRecommendation_eq_classify history2 now2 symptoms severity duration h2
  have hf := classify_fields symptoms severity duration
    (recentList history1 now1 symptoms) (recentList history2 now2 symptoms)
  exact ⟨_, _, e1, e2, hf.1, hf.2.1, hf.2.2.1, hf.2.2.2⟩

/-- Witness of C25: an empty history in 2023 and a one-entry history a month
later give the same tier and confidence for tags `headache`. -/
theorem C25_fields_independent_of_history_witness :
    ∃ r1 r2,
      getAIRecommendation [] 1700000000000 ["headache"] 5 "1-6 hours" = some r1 ∧
      getAIRecommendation [⟨["headache"], 5, "2023-11-12T22:13:20.000Z", none⟩]
        1702592000000 ["headache"] 5 "1-6 hours" = some r2 ∧
      r1.severity = r2.severity ∧ r1.confidence = r2.confidence := by
  obtain ⟨r1, r2, e1, e2, hs, _, _, hc⟩ := C25_fields_independent_of_history []
    [⟨["headache"], 5, "2023-11-12T22:13:20.000Z", none⟩] 1700000000000 1702592000000
    ["headache"] 5 "1-6 hours" (by decide) (by decide)
  exact ⟨r1, r2, e1, e2, hs, hc⟩

theorem rule1_mono (tags : List String) (s s2 : Int) (duration : String) (h : s ≤ s2)
    (hr : Rule1 tags s duration) : Rule1 tags s2 duration := by
  unfold Rule1 at hr ⊢
  rcases hr with hr | ⟨h8, hl⟩
  · exact Or.inl hr
  · exact Or.inr ⟨le_trans h8 h, hl⟩

theorem rule2_mono (tags : List String) (s s2 : Int) (duration : String) (h : s ≤ s2)
    (hr : Rule2 tags s duration) : Rule2 tags s2 duration := by
  unfold Rule2 at hr ⊢
  rcases hr with hr | ⟨h6, hl⟩
  · exact Or.inl hr
  · exact Or.inr ⟨le_trans h6 h, hl⟩

theorem tierRank_results (l : List HistoryEntry) :
    tierRank (highResult l).severity = some 2 ∧ tierRank (mediumResult l).severity = some 1 ∧
      tierRank (lowResult l).severity = some 0 :=
  ⟨(show tierRank "High" = some 2 by decide), (show tierRank "Medium" = some 1 by decide),
    (show tierRank "Low" = some 0 by decide)⟩

theorem confidence_results (l : List HistoryEntry) :
    (highResult l).confidence = 0.92 ∧ (mediumResult l).confidence = 0.78 ∧
      (lowResult l).confidence = 0.65 :=
  ⟨rfl, rfl, rfl⟩

/-- C26: for fixed tags, duration, history and time, if `s ≤ s2` then the tier
returned for severity `s` is not higher than the tier returned for `s2` (in the
order Low < Medium < High) and the confidence for `s` is not greater than the
confidence for `s2`. -/
theorem C26_monotone_in_severity (symptomHistory : List HistoryEntry) (now : Int)
    (symptoms : List String) (s s2 : Int) (duration : String) (hclock : CutoffValid now)
    (hle : s ≤ s2) :
    ∃ r r2 k k2,
      getAIRecommendation symptomHistory now symptoms s duration = some r ∧
      getAIRecommendation symptomHistory now symptoms s2 duration = some r2 ∧
      tierRank r.severity = some k ∧ tierRank r2.severity = some k2 ∧ k ≤ k2 ∧
      r.confidence ≤ r2.confidence := by
  have ht := tierRank_results (recentList symptomHistory now symptoms)
  have hc := confidence_results (recentList symptomHistory now symptoms)
  rcases getAIRecommendation_cases symptomHistory now symptoms s duration hclock with
    ⟨a1, e⟩ | ⟨_, a2, e⟩ | ⟨_, _, e⟩ <;>
  rcases getAIRecommendation_cases symptomHistory now symptoms s2 duration hclock with
    ⟨_, e2⟩ | ⟨b1, b2, e2⟩ | ⟨b1, b2, e2⟩
  · exact ⟨_, _, 2, 2, e, e2, ht.1, ht.1, le_refl _, le_refl _⟩
  · exact absurd (rule1_mono symptoms s s2 duration hle a1) b1
  · exact absurd (rule1_mono symptoms s s2 duration hle a1) b1
  · refine ⟨_, _, 1, 2, e, e2, ht.2.1, ht.1, by decide, ?_⟩
    rw [hc.1, hc.2.1]
    norm_num
  · exact ⟨_, _, 1, 1, e, e2, ht.2.1, ht.2.1, le_refl _, le_refl _⟩
  · exact absurd (rule2_mono symptoms s s2 duration hle a2) b2
  · refine ⟨_, _, 0, 2, e, e2, ht.2.2, ht.1, by decide, ?_⟩
    rw [hc.1, hc.2.2]
    norm_num
  · refine ⟨_, _, 0, 1, e, e2, ht.2.2, ht.2.1, by decide, ?_⟩
    rw [hc.2.1, hc.2.2]
    norm_num
  · exact ⟨_, _, 0, 0, e, e2, ht.2.2, ht.2.2, le_refl _, le_refl _⟩

/-- Witness of C26: with duration `1-3 days` and no tag, severity 5 is Low,
severity 7 is Medium. -/
theorem C26_monotone_in_severity_witness :
    ∃ r r2 k k2,
      getAIRecommendation [] 1700000000000 [] 5 "1-3 days" = some r ∧
      getAIRecommendation [] 1700000000000 [] 7 "1-3 days" = some r2 ∧
      tierRank r.severity = some k ∧ tierRank r2.severity = some k2 ∧ k ≤ k2 ∧
      r.confidence ≤ r2.confidence :=
  C26_monotone_in_severity [] 1700000000000 [] 5 7 "1-3 days" (by decide) (by decide)

/-! ## Claims on the symptom history -/

theorem recordAssessment_valid (symptoms : List String) (severity : Int) (now : Int)
    (assessment : Assessment) (prev : List HistoryEntry) (h : ValidTime now) :
    recordAssessment symptoms severity now assessment prev
      = some (({ symptoms := symptoms, severity := severity, date := String.mk (isoChars now),
                 assessment := some assessment } :: prev).take 10) := by
  unfold ValidTime at h
  unfold recordAssessment toISOString
  rw [if_neg (by omega)]

theorem take_append_take {α : Type} (n : Nat) (xs ys : List α) :
    (xs ++ ys.take n).take n = (xs ++ ys).take n := by
  rw [List.take_append_eq_append_take, List.take_append_eq_append_take, List.take_take]
  congr 2
  omega

theorem recordAll_eq (rs : List Recording) :
    ∀ history : List HistoryEntry, (∀ r ∈ rs, ValidTime r.now) → history.length ≤ 10 →
      recordAll rs history = some (((rs.reverse.map entryOf) ++ history).take 10) := by
  induction rs with
  | nil =>
    intro history _ hlen
    simp only [recordAll, List.reverse_nil, List.map_nil, List.nil_append]
    rw [List.take_of_length_le hlen]
  | cons r rs ih =>
    intro history hv hlen
    have hr : ValidTime r.now := hv r (by simp)
    rw [recordAll, recordAssessment_valid _ _ _ _ _ hr]
    simp only
    rw [ih _ (fun x hx => hv x (List.mem_cons_of_mem _ hx)) (by
      rw [List.length_take]
      exact Nat.min_le_left _ _)]
    rw [take_append_take]
    simp only [List.reverse_cons, List.map_append, List.map_cons, List.map_nil,
      List.append_assoc, List.singleton_append]
    rfl

/-- C29: a recording puts the new entry in front of the history and keeps the
first 10 entries; starting from the empty history, after any sequence of
recordings (at valid times) the history is the entries of the 10 most recent
recordings, newest first: it has at most 10 entries and its first entry is the
one recorded last. -/
theorem C29_history_bounded (rs : List Recording) (hv : ∀ r ∈ rs, ValidTime r.now) :
    (∀ (symptoms : List String) (severity : Int) (now : Int) (assessment : Assessment)
        (prev : List HistoryEntry), ValidTime now →
      recordAssessment symptoms severity now assessment prev
        = some (({ symptoms := symptoms, severity := severity,
                   date := String.mk (isoChars now), assessment := some assessment }
                  :: prev).take 10)) ∧
      ∃ history, recordAll rs [] = some history ∧
        history = (rs.reverse.take 10).map entryOf ∧
        history.length = min rs.length 10 ∧ history.length ≤ 10 ∧
        history.head? = rs.getLast?.map entryOf := by
  refine ⟨fun s sev now a prev h => recordAssessment_valid s sev now a prev h, ?_⟩
  have h := recordAll_eq rs [] hv (by simp)
  rw [List.append_nil, ← List.map_take] at h
  refine ⟨_, h, rfl, ?_, ?_, ?_⟩
  · rw [List.length_map, List.length_take, List.length_reverse, Nat.min_comm]
  · rw [List.length_map, List.length_take]
    exact Nat.min_le_left _ _
  · cases hrs : rs.reverse with
    | nil =>
      have : rs = [] := List.reverse_eq_nil_iff.1 hrs
      rw [this]
      rfl
    | cons x xs =>
      have hl : rs.getLast? = some x := by
        rw [← List.head?_reverse, hrs]
        rfl
      rw [hl]
      rfl

/-- Witness of C29: after 11 recordings, made at times 0 to 10, the history
holds the entries of the recordings made at times 10 down to 1. -/
theorem C29_history_bounded_witness :
    ∃ history,
      recordAll ((List.range 11).map (fun (i : Nat) => ⟨["headache"], 5, (i : Int), lowResult []⟩)) []
        = some history ∧
      history.length = 10 ∧
      history.map (fun h => h.date)
        = ((List.range 11).reverse.take 10).map (fun (i : Nat) => String.mk (isoChars i)) := by
  obtain ⟨_, history, e, hh, hl, _, _⟩ := C29_history_bounded
    ((List.range 11).map (fun (i : Nat) => ⟨["headache"], 5, (i : Int), lowResult []⟩))
    (by
      intro r hr
      obtain ⟨i, hi, rfl⟩ := List.mem_map.1 hr
      have := List.mem_range.1 hi
      unfold ValidTime
      simp only
      omega)
  refine ⟨history, e, ?_, ?_⟩
  · rw [hl]
    simp
  · rw [hh, ← List.map_reverse, ← List.map_take, List.map_map, List.map_map]
    rfl

/-! ## Claims on the points store -/

/-- The points balance `currentUser?.points || 0` of a user. -/
theorem userPoints_eq (p : Option Int) :
    (match p with
      | some p => if p = 0 then 0 else p
      | none => 0) = p.getD 0 := by
  cases p with
  | none => rfl
  | some p =>
    by_cases h : p = 0
    · simp [h]
    · simp [h]

/-- C30: with `points` the balance of the user (0 when the field is missing),
`redeemCoupon` sets the balance to `points - points_required`, a non-negative
number, and changes no other field, when `points ≥ points_required`; it leaves
the user unchanged when `points < points_required`. -/
theorem C30_redeem_balance (user : User) (coupon : Coupon) :
    (user.points.getD 0 ≥ coupon.points_required →
        (redeemCoupon (some user) coupon).currentUser
          = some { user with points := some (user.points.getD 0 - coupon.points_required) } ∧
        0 ≤ user.points.getD 0 - coupon.points_required ∧
        (redeemCoupon (some user) coupon).stored = (redeemCoupon (some user) coupon).currentUser) ∧
      (user.points.getD 0 < coupon.points_required →
        (redeemCoupon (some user) coupon).currentUser = some user ∧
        (redeemCoupon (some user) coupon).stored = none) ∧
      (∀ u, (redeemCoupon (some user) coupon).currentUser = some u →
        u.user_id = user.user_id ∧ u.role = user.role ∧ u.name = user.name ∧
        u.email = user.email ∧ u.phone = user.phone ∧ u.age = user.age ∧
        u.gender = user.gender ∧ u.family_id = user.family_id ∧
        u.relationship = user.relationship ∧ u.access_token = user.access_token ∧
        u.patient_id = user.patient_id ∧ u.code = user.code ∧
        (u.points = user.points ∨ ∃ p : Int, u.points = some p ∧ 0 ≤ p)) := by
  have hp := userPoints_eq user.points
  refine ⟨?_, ?_, ?_⟩
  · intro h
    refine ⟨?_, by omega, ?_⟩
    · unfold redeemCoupon
      simp only [hp]
      rw [if_pos h]
    · unfold redeemCoupon
      simp only [hp]
      rw [if_pos h]
  · intro h
    unfold redeemCoupon
    simp only [hp]
    rw [if_neg (by omega)]
    exact ⟨rfl, rfl⟩
  · intro u hu
    unfold redeemCoupon at hu
    simp only [hp] at hu
    by_cases h : user.points.getD 0 ≥ coupon.points_required
    · rw [if_pos h] at hu
      simp only [Option.some.injEq] at hu
      rw [← hu]
      exact ⟨rfl, rfl, rfl, rfl, rfl, rfl, rfl, rfl, rfl, rfl, rfl, rfl,
        Or.inr ⟨_, rfl, by omega⟩⟩
    · rw [if_neg h] at hu
      simp only [Option.some.injEq] at hu
      rw [← hu]
      exact ⟨rfl, rfl, rfl, rfl, rfl, rfl, rfl, rfl, rfl, rfl, rfl, rfl, Or.inl rfl⟩

/-- Witness of C30: with 600 points the 500-point coupon leaves 100 points and
the 1000-point coupon leaves the user unchanged. -/
theorem C30_redeem_balance_witness :
    ((redeemCoupon
        (some ⟨"u", "patient", "n", "e", none, 30, "male", "f", none, "t", some 600, none, none⟩)
        ⟨"1", "20% Off Health Supplements", "Vitamins and nutritional supplements", 500,
          "Health", "2025-12-31"⟩).currentUser.map (fun u => u.points)) = some (some 100) ∧
      (redeemCoupon
        (some ⟨"u", "patient", "n", "e", none, 30, "male", "f", none, "t", some 600, none, none⟩)
        ⟨"2", "Free Wellness Consultation", "30-minute health consultation", 1000,
          "Consultation", "2025-11-30"⟩).currentUser
        = some ⟨"u", "patient", "n", "e", none, 30, "male", "f", none, "t", some 600, none,
            none⟩ := by
  constructor
  · rw [((C30_redeem_balance _ _).1 (by decide)).1]
    rfl
  · exact ((C30_redeem_balance _ _).2.1 (by decide)).1

end AegisLink
